import Mathlib

/-!
# snapper-TUI: the UI state machine

A shallow embedding of the Go sources `models.go`, `utils.go`, `main.go`
(the reducer `UIState.Update`, its handlers, `executeActionCmd` and the line
layout of `renderTable` and `renderRightPanel`) and `data.go` (the converters of
`snapshotFromRaw`).

Conventions of the embedding.

* Go `int` / `int64` values are `Int`.  Every quantity of the reducer is a
  terminal coordinate, a row index or a slice length, so 64-bit wrap-around is
  not modelled.  Go's `%` on integers is `Int.tmod` (truncated remainder).
* A Go `string` is a `String`; `error` is `Option String` (the message, `none` for `nil`).
  The output carried by a completion is a `GoString`, the list of its bytes,
  because the truncation `s[:497]` can cut a character.
* A pointer that may be `nil` (`*int`, `*int64`, `*Snapshot`) is an `Option`.
* `map[int]bool` used as the selection set is a `Finset Int`: every write of the
  program stores `true` (`handleKey`, case `" "`) and the only other operations are
  `delete`, `len` and lookup.
* A runtime panic (index out of range) is `none` in an `Option` result.
* A `tea.Cmd` is the list of operations it schedules; `nil` is the empty list.
  The closure built by `executeActionCmd` is run on the values it was given when
  it was scheduled.
* The package variable `sampleSnapshots` is a slice that `m.Snapshots` may share;
  `sort.SliceStable` sorts in place, so the variable's content is part of the
  program state (`World`).
* What the Go code computes in floating point or reads from the operating system
  is taken from an `Env` value.
* A rendered string is the list of its pieces (text or line break); the text of
  a piece is replaced by a mark that says what it shows.
* A decoded `float64` is a rational number; `int(v)` discards the fraction.
-/

namespace SnapperTUI

/-! ## models.go -/

/-- The record `Snapshot` of `models.go`. -/
structure Snapshot where
  Config : String
  Subvolume : String
  Number : Int
  SnapshotType : String
  PreNumber : Option Int
  PostNumber : Option Int
  Date : String
  User : String
  Cleanup : String
  Description : String
  Userdata : Option (List (String × String))
  UsedSpace : Option Int
  Default : Bool
  Active : Bool
deriving DecidableEq, Repr

/-- The record `ColumnSpec` of `models.go`, without the rendering accessor. -/
structure ColumnSpec where
  Key : String
  Label : String
  Width : Int
  SortField : String
deriving DecidableEq, Repr

/-- The record `Rect` of `models.go`. -/
structure Rect where
  X : Int
  Y : Int
  Width : Int
  Height : Int
deriving DecidableEq, Repr

/-- The enumeration `ActionKind` of `models.go` (`iota` order). -/
inductive ActionKind where
  | ActionUnknown
  | ActionRestore
  | ActionDelete
  | ActionStatus
deriving DecidableEq, Repr

/-- The numeric value of an `ActionKind`. -/
def ActionKind.toInt : ActionKind → Int
  | .ActionUnknown => 0
  | .ActionRestore => 1
  | .ActionDelete => 2
  | .ActionStatus => 3

/-- A Go `string` whose bytes need not be valid UTF-8, as a slice `s[:n]` of a
string can be: the list of its bytes. -/
structure GoString where
  bytes : List UInt8
deriving DecidableEq, Repr

/-- The Go string of a text: its UTF-8 encoding. -/
def utf8 (s : String) : GoString :=
  ⟨s.toList.flatMap String.utf8EncodeChar⟩

instance coeStringGoString : Coe String GoString := ⟨utf8⟩

/-- `utf8.DecodeRune`: the first rune of a byte sequence and the number of bytes
it takes.  A byte that starts no valid encoding gives U+FFFD and counts alone. -/
def decodeRune (p : List UInt8) : Char × Nat :=
  match p with
  | [] => (Char.ofNat 0xFFFD, 0)
  | b0 :: rest =>
    let p0 := b0.toNat
    if p0 < 0x80 then (Char.ofNat p0, 1)
    else
      let size : Nat :=
        if 0xC2 ≤ p0 ∧ p0 ≤ 0xDF then 2
        else if 0xE0 ≤ p0 ∧ p0 ≤ 0xEF then 3
        else if 0xF0 ≤ p0 ∧ p0 ≤ 0xF4 then 4
        else 0
      let lo : Nat := if p0 = 0xE0 then 0xA0 else if p0 = 0xF0 then 0x90 else 0x80
      let hi : Nat := if p0 = 0xED then 0x9F else if p0 = 0xF4 then 0x8F else 0xBF
      let cont : UInt8 → Bool := fun b => 0x80 ≤ b.toNat ∧ b.toNat ≤ 0xBF
      match size, rest with
      | 2, b1 :: _ =>
        if lo ≤ b1.toNat ∧ b1.toNat ≤ hi then
          (Char.ofNat (p0 % 32 * 64 + b1.toNat % 64), 2)
        else (Char.ofNat 0xFFFD, 1)
      | 3, b1 :: b2 :: _ =>
        if lo ≤ b1.toNat ∧ b1.toNat ≤ hi ∧ cont b2 then
          (Char.ofNat (p0 % 16 * 4096 + b1.toNat % 64 * 64 + b2.toNat % 64), 3)
        else (Char.ofNat 0xFFFD, 1)
      | 4, b1 :: b2 :: b3 :: _ =>
        if lo ≤ b1.toNat ∧ b1.toNat ≤ hi ∧ cont b2 ∧ cont b3 then
          (Char.ofNat (p0 % 8 * 262144 + b1.toNat % 64 * 4096 + b2.toNat % 64 * 64 +
            b3.toNat % 64), 4)
        else (Char.ofNat 0xFFFD, 1)
      | _, _ => (Char.ofNat 0xFFFD, 1)

/-- The runes of a byte sequence from left to right, as `range` over a Go string
yields them; the first `skip` bytes belong to the rune decoded last. -/
def decodeRunes : Nat → List UInt8 → List Char
  | _, [] => []
  | skip + 1, _ :: rest => decodeRunes skip rest
  | 0, b :: rest => (decodeRune (b :: rest)).1 :: decodeRunes ((decodeRune (b :: rest)).2 - 1) rest

/-- The text of a Go string: its runes. -/
def GoString.text (s : GoString) : String :=
  String.mk (decodeRunes 0 s.bytes)

/-- The records `ActionResult` and `ActionResultMsg` of `models.go` (same fields). -/
structure ActionResult where
  Kind : ActionKind
  Snap : Snapshot
  Output : GoString
  Err : Option String
deriving DecidableEq, Repr

/-- The record `UIState` of `models.go`. -/
structure UIState where
  Snapshots : List Snapshot
  Cursor : Int
  Offset : Int
  SortKey : String
  SortReverse : Bool
  Loading : Bool
  SpinnerIndex : Int
  ActionMessage : String
  Status : String
  Summary : String
  Placeholder : Bool
  ActionInProgress : Bool
  DetailOpen : Bool
  SelectedSnapshot : Option Snapshot
  SelectedSnapshots : Finset Int
  FocusedElement : String
  TableRect : Rect
  ButtonRects : List (String × Rect)
  TermWidth : Int
  TermHeight : Int
  ViewportHeight : Int
deriving DecidableEq

/-- The mouse event types of the UI runtime (`tea.MouseEventType`). -/
inductive MouseEventType where
  | MouseUnknown
  | MouseLeft
  | MouseRight
  | MouseMiddle
  | MouseRelease
  | MouseWheelUp
  | MouseWheelDown
  | MouseWheelLeft
  | MouseWheelRight
  | MouseBackward
  | MouseForward
  | MouseMotion
deriving DecidableEq, Repr

/-- The events `UIState.Update` receives.  A key event is given by `msg.String()`. -/
inductive Msg where
  | WindowSizeMsg (Width Height : Int)
  | KeyMsg (key : String)
  | MouseMsg (EventType : MouseEventType) (X Y : Int)
  | TickMsg
  | RefreshTriggerMsg
  | RefreshResultMsg (Snapshots : List Snapshot) (Err : Option String)
  | ActionResultMsg (r : ActionResult)
  | Other
deriving DecidableEq

/-- One asynchronous operation a transition schedules. -/
inductive Op where
  | quit
  | refreshSnapshots
  | tick
  | waitRefresh (milliseconds : Nat)
  | executeAction (kind : ActionKind) (snap : Snapshot) (selected : Finset Int)
      (allSnaps : List Snapshot)
deriving DecidableEq

/-- A `tea.Cmd`: the operations it schedules (`nil` schedules none). -/
abbrev Cmd := List Op

/-- What the reducer takes from outside the program: the floating-point
computations of `main.go` and `utils.go` and the free-space system call. -/
structure Env where
  /-- `int(float64(w) * 0.65)` of `handleMouse`. -/
  scaleTableWidth : Int → Int
  /-- `humanReadableFromUint64` of `utils.go` (`%.1f` of a `float64`). -/
  humanReadableFromUint64 : Nat → String
  /-- `freeSpaceForPath` of `data.go`: the free bytes, or the error. -/
  freeSpaceForPath : String → Except String Nat

/-! ## utils.go -/

/-- `max` of `utils.go`. -/
protected def max (a b : Int) : Int :=
  if a > b then a else b

/-- `min` of `utils.go`. -/
protected def min (a b : Int) : Int :=
  if a < b then a else b

/-- `intValue` of `utils.go`. -/
def intValue (value : Option Int) : Int :=
  match value with
  | none => 0
  | some v => v

/-- `int64Value` of `utils.go`. -/
def int64Value (value : Option Int) : Int :=
  match value with
  | none => 0
  | some v => v

/-- `fmt.Sprint` / `%d` of an integer: its decimal text. -/
def decimal (n : Int) : String :=
  toString n

/-- `nullableInt` of `utils.go`. -/
def nullableInt (value : Option Int) : String :=
  match value with
  | none => "-"
  | some v => decimal v

/-- `computeStatusStart` of `utils.go`. -/
def computeStatusStart (snap : Snapshot) : Int :=
  match snap.PreNumber with
  | some p => p
  | none => if snap.Number > 0 then snap.Number - 1 else 0

/-- `fmt.Sprintf("%0<width>d", n)`: the sign, then the digits padded with zeros
so that the whole text has at least `width` characters. -/
def sprintfZeroPad (width : Nat) (n : Int) : String :=
  let digits := toString n.natAbs
  let prec := if n < 0 then width - 1 else width
  let body := String.mk (List.replicate (prec - digits.length) '0') ++ digits
  if n < 0 then "-" ++ body else body

/-- Go's `<` on strings: lexicographic on bytes, which on UTF-8 text is
lexicographic on code points. -/
def codeLess : List Char → List Char → Bool
  | [], [] => false
  | [], _ :: _ => true
  | _ :: _, [] => false
  | a :: as, b :: bs =>
    if a.toNat < b.toNat then true
    else if b.toNat < a.toNat then false
    else codeLess as bs

/-- Go's `a < b` on strings. -/
def strLess (a b : String) : Bool :=
  codeLess a.toList b.toList

/-- `strings.Join`. -/
def join (parts : List String) (sep : String) : String :=
  sep.intercalate parts

/-- A stable sort by a strict order `less`, as `sort.SliceStable` and
`sort.Strings` produce: an element is placed before the first already placed
element that is not less than it. -/
def stableSort {α : Type} (less : α → α → Bool) (l : List α) : List α :=
  List.insertionSort (fun a b => less b a = false) l

/-- `flattenUserData` of `utils.go`; the list enumerates the map entries. -/
def flattenUserData (data : Option (List (String × String))) : String :=
  match data with
  | none => ""
  | some entries =>
    if entries.length = 0 then ""
    else
      let pairs := entries.map (fun kv => kv.1 ++ "=" ++ kv.2)
      join (stableSort strLess pairs) " "

/-- `valueForSort` of `utils.go`. -/
def valueForSort (s : Snapshot) (key : String) : String :=
  if key = "number" then sprintfZeroPad 8 s.Number
  else if key = "pre_number" then sprintfZeroPad 8 (intValue s.PreNumber)
  else if key = "post_number" then sprintfZeroPad 8 (intValue s.PostNumber)
  else if key = "used_space" then sprintfZeroPad 16 (int64Value s.UsedSpace)
  else if key = "userdata" then flattenUserData s.Userdata
  else if key = "snapshot_type" then s.SnapshotType
  else if key = "user" then s.User
  else if key = "cleanup" then s.Cleanup
  else if key = "description" then s.Description
  else if key = "date" then s.Date
  else s.Date

/-- `humanReadableBytes` of `utils.go`; `uint64(v)` wraps a negative value. -/
def humanReadableBytes (env : Env) (value : Option Int) : String :=
  match value with
  | none => "n/a"
  | some v => env.humanReadableFromUint64 (v % 18446744073709551616).toNat

/-- The constant `rootPath` of `main.go`. -/
def rootPath : String := "/"

/-- `buildSummary` of `utils.go`. -/
def buildSummary (env : Env) (snaps : List Snapshot) : String :=
  let total := snaps.foldl (fun acc snap => acc + int64Value snap.UsedSpace) 0
  let usedText := humanReadableBytes env (some total)
  let freeText :=
    match env.freeSpaceForPath rootPath with
    | .ok free => env.humanReadableFromUint64 free
    | .error _ => "n/a"
  "Snapshots: " ++ decimal (snaps.length : Int) ++ " | Total used: " ++ usedText ++
    " | Free on " ++ rootPath ++ ": " ++ freeText

/-! ## main.go: tables and the initial state -/

/-- The table `columnSpecs` of `main.go`. -/
def columnSpecs : List ColumnSpec :=
  [ ⟨"number", "#", 6, "number"⟩,
    ⟨"snapshot_type", "Type", 8, "snapshot_type"⟩,
    ⟨"pre_number", "Pre", 6, "pre_number"⟩,
    ⟨"post_number", "Post", 6, "post_number"⟩,
    ⟨"date", "Date", 20, "date"⟩,
    ⟨"user", "User", 10, "user"⟩,
    ⟨"cleanup", "Cleanup", 10, "cleanup"⟩,
    ⟨"description", "Description", 36, "description"⟩,
    ⟨"used_space", "Size", 12, "used_space"⟩,
    ⟨"userdata", "Userdata", 20, "userdata"⟩ ]

/-- The first element of `sampleSnapshots` (number 0). -/
def sample0 : Snapshot :=
  { Config := "root", Subvolume := "/", Number := 0, SnapshotType := "single",
    PreNumber := none, PostNumber := none, Date := "2025-11-18 00:00:00",
    User := "root", Cleanup := "number", Description := "Initial baseline",
    Userdata := some [("user", "admin")], UsedSpace := some (15 * 1024 * 1024 * 1024),
    Default := false, Active := false }

/-- The second element of `sampleSnapshots` (number 17). -/
def sample17 : Snapshot :=
  { Config := "root", Subvolume := "/", Number := 17, SnapshotType := "pre",
    PreNumber := some 16, PostNumber := some 18, Date := "2025-11-19 06:12:34",
    User := "root", Cleanup := "number", Description := "Before package update",
    Userdata := some [("note", "patch")], UsedSpace := some (18 * 1024 * 1024 * 1024),
    Default := false, Active := false }

/-- The third element of `sampleSnapshots` (number 18). -/
def sample18 : Snapshot :=
  { Config := "root", Subvolume := "/", Number := 18, SnapshotType := "single",
    PreNumber := some 17, PostNumber := none, Date := "2025-11-19 12:45:10",
    User := "root", Cleanup := "number", Description := "Midday checkpoint",
    Userdata := some [("phase", "test")], UsedSpace := some (19 * 1024 * 1024 * 1024),
    Default := false, Active := false }

/-- The initial content of the package variable `sampleSnapshots` of `main.go`. -/
def sampleSnapshots : List Snapshot :=
  [sample0, sample17, sample18]

/-- The table `spinnerFrames` of `main.go`, with the characters of the source file. -/
def spinnerFrames : List String :=
  ["\u201a\u2020\u00e8", "\u201a\u2020\u00f5", "\u201a\u2020\u00f1", "\u201a\u2020\u00ed",
   "\u201a\u2020\u00ea", "\u201a\u2020\u00ea", "\u201a\u2020\u00ed", "\u201a\u2020\u00f1",
   "\u201a\u2020\u00f5"]

/-- The text `"<hourglass> Executing apply..."` with the characters of the source file. -/
def executingApply : String := "\u201a\u00e8\u2265 Executing apply..."

/-- The text `"<hourglass> Executing delete..."` with the characters of the source file. -/
def executingDelete : String := "\u201a\u00e8\u2265 Executing delete..."

/-- The text `"<hourglass> Fetching status..."` with the characters of the source file. -/
def fetchingStatus : String := "\u201a\u00e8\u2265 Fetching status..."

/-- The last line of the action preview, with the characters of the source file. -/
def previewFooter : String :=
  "[A]pply \u201a\u00c4\u00a2 [D]elete \u201a\u00c4\u00a2 [S]tatus \u201a\u00c4\u00a2 Click buttons or press Tab+Enter"

/-- The text shown when there is no snapshot to preview. -/
def selectPrompt : String := "Select a snapshot to preview the snapper commands."

/-- `initialModel` of `main.go`. -/
def initialModel : UIState :=
  { Snapshots := sampleSnapshots
    Cursor := 0
    Offset := 0
    SortKey := "number"
    SortReverse := false
    Loading := true
    SpinnerIndex := 0
    ActionMessage := selectPrompt
    Status := "Loading snapshots..."
    Summary := "Snapshots: 0 | Total used: 0 B | Free on /: ..."
    Placeholder := true
    ActionInProgress := false
    DetailOpen := true
    SelectedSnapshot := none
    SelectedSnapshots := ∅
    FocusedElement := "table"
    TableRect := ⟨0, 0, 0, 0⟩
    ButtonRects := []
    TermWidth := 0
    TermHeight := 0
    ViewportHeight := 0 }

/-- `UIState.Init` of `main.go`: `tea.Batch(refreshSnapshotsCmd(), tickCmd())`. -/
def Init (_m : UIState) : Cmd :=
  [Op.refreshSnapshots, Op.tick]

/-! ## main.go: helpers of the reducer -/

/-- A slice read `l[i]`: `none` is the index-out-of-range panic. -/
def sliceAt {α : Type} (l : List α) (i : Int) : Option α :=
  if i < 0 then none else l[i.toNat]?

/-- `currentSnapshot` of `main.go`: the state with the cursor clamped from
above, and the snapshot at the cursor (`none` for `nil`). -/
def currentSnapshot (m : UIState) : Option (UIState × Option Snapshot) :=
  if m.Snapshots.length = 0 then some (m, none)
  else
    let m1 :=
      if m.Cursor ≥ (m.Snapshots.length : Int) then
        { m with Cursor := (m.Snapshots.length : Int) - 1 }
      else m
    match sliceAt m1.Snapshots m1.Cursor with
    | none => none
    | some s => some (m1, some s)

/-- `ensureCursorVisible` of `main.go`. -/
def ensureCursorVisible (m : UIState) : UIState :=
  let m := if m.ViewportHeight ≤ 0 then { m with ViewportHeight := 10 } else m
  let m := if m.Cursor < m.Offset then { m with Offset := m.Cursor } else m
  let m :=
    if m.Cursor ≥ m.Offset + m.ViewportHeight then
      { m with Offset := m.Cursor - m.ViewportHeight + 1 }
    else m
  let m := if m.Offset < 0 then { m with Offset := 0 } else m
  if m.Offset > SnapperTUI.max 0 ((m.Snapshots.length : Int) - m.ViewportHeight) then
    { m with Offset := SnapperTUI.max 0 ((m.Snapshots.length : Int) - m.ViewportHeight) }
  else m

/-- The three command lines of the action preview for the snapshot `snap`. -/
def previewText (snap : Snapshot) : String :=
  let start := computeStatusStart snap
  join
    [ "Apply: sudo snapper rollback " ++ decimal snap.Number,
      "Delete: sudo snapper delete " ++ decimal snap.Number,
      "Status: sudo snapper status " ++ decimal start ++ ".." ++ decimal snap.Number,
      previewFooter ] "\n"

/-- `setActionPreview` of `main.go`. -/
def setActionPreview (m : UIState) : Option UIState :=
  match currentSnapshot m with
  | none => none
  | some (m1, some snap) => some { m1 with ActionMessage := previewText snap }
  | some (m1, none) => some { m1 with ActionMessage := selectPrompt }

/-- The comparison closure of `sortSnapshots`. -/
def sortLess (key : String) (reverse : Bool) (a b : Snapshot) : Bool :=
  let iVal := valueForSort a key
  let jVal := valueForSort b key
  if reverse then strLess jVal iVal else strLess iVal jVal

/-- `sortSnapshots` of `main.go`. -/
def sortSnapshots (m : UIState) : UIState :=
  { m with Snapshots := stableSort (sortLess m.SortKey m.SortReverse) m.Snapshots }

/-- `toggleSort` of `main.go`. -/
def toggleSort (m : UIState) (field : String) : Option UIState :=
  let m :=
    if m.SortKey = field then { m with SortReverse := !m.SortReverse }
    else { m with SortKey := field, SortReverse := false }
  let m := sortSnapshots m
  let m := ensureCursorVisible m
  match setActionPreview m with
  | none => none
  | some m => some { m with Status := "Sorting by " ++ m.SortKey }

/-- `strconv.Atoi`: an optional sign and decimal digits, within 64 bits. -/
def atoi (s : String) : Option Int :=
  let cs := s.toList
  let negative := cs.head? = some '-'
  let ds := if cs.head? = some '-' ∨ cs.head? = some '+' then cs.tail else cs
  if ds = [] ∨ ¬ ds.all Char.isDigit then none
  else
    let n : Int := ds.foldl (fun a c => a * 10 + ((c.toNat : Int) - 48)) 0
    let v := if negative then -n else n
    if v < -9223372036854775808 ∨ v > 9223372036854775807 then none else some v

/-- `keyToColumnIndex` of `main.go`. -/
def keyToColumnIndex (key : String) : Int :=
  if key = "0" then 9
  else
    match atoi key with
    | none => -1
    | some n => n - 1

/-- `updateSortKey` of `main.go`. -/
def updateSortKey (m : UIState) (key : String) : Option UIState :=
  let index := keyToColumnIndex key
  if index < 0 then some m
  else
    match sliceAt columnSpecs index with
    | none => none
    | some spec => toggleSort m spec.SortField

/-- `getButtonYPositions` of `main.go`: the first screen lines of the restore,
delete and status buttons. -/
def getButtonYPositions (m : UIState) : Option (Int × Int × Int) :=
  let y : Int := 1
  let yDetail : Option Int :=
    if m.DetailOpen then
      match currentSnapshot m with
      | none => none
      | some (_, some _) => some (y + 1 + 1 + 11 + 2 + 2)
      | some (_, none) => some (y + 1 + 1 + 1 + 2 + 2)
    else some y
  match yDetail with
  | none => none
  | some y =>
    let y := y + 1 + 1
    let restoreY := y
    let y := y + 3 + 1
    let deleteY := y
    let y := y + 3 + 1
    let statusY := y
    some (restoreY, deleteY, statusY)

/-! ## main.go: the handlers -/

/-- `handleTick` of `main.go`. -/
def handleTick (m : UIState) : Option (UIState × Cmd) :=
  if !m.Loading then some (m, [])
  else
    let m := { m with SpinnerIndex := Int.tmod (m.SpinnerIndex + 1) (spinnerFrames.length : Int) }
    match sliceAt spinnerFrames m.SpinnerIndex with
    | none => none
    | some frame =>
      some ({ m with Status := frame ++ " Fetching snapshots from snapper..." }, [Op.tick])

/-- `handleRefreshTrigger` of `main.go`. -/
def handleRefreshTrigger (m : UIState) : Option (UIState × Cmd) :=
  if m.Loading then some (m, [])
  else
    some ({ m with Loading := true, Status := "Refreshing snapshots..." },
      [Op.refreshSnapshots, Op.tick])

/-- `handleRefreshResult` of `main.go`; `sample` is the content of the package
variable `sampleSnapshots` when the event is handled. -/
def handleRefreshResult (env : Env) (sample : List Snapshot) (m : UIState)
    (snapshots : List Snapshot) (err : Option String) : Option (UIState × Cmd) :=
  let m := { m with Loading := false }
  match err with
  | some e =>
    let m := { m with Snapshots := sample, Placeholder := true,
                      Status := "snapper list failed: " ++ e }
    let m := { m with Summary := buildSummary env m.Snapshots }
    some ({ m with ActionMessage := "Using sample data; install snapper for real snapshots." }, [])
  | none =>
    let m := { m with Snapshots := snapshots, Placeholder := false }
    let m := sortSnapshots m
    let m :=
      if m.Cursor ≥ (m.Snapshots.length : Int) then
        { m with Cursor := SnapperTUI.max 0 ((m.Snapshots.length : Int) - 1) }
      else m
    let m := { m with Summary := buildSummary env m.Snapshots }
    let m := { m with Status := "Loaded " ++ decimal (m.Snapshots.length : Int) ++ " snapshots" }
    match setActionPreview m with
    | none => none
    | some m => some (m, [])

/-- `handleActionResult` of `main.go`. -/
def handleActionResult (m : UIState) (msg : ActionResult) : Option (UIState × Cmd) :=
  let m := { m with ActionInProgress := false }
  match msg.Kind with
  | .ActionDelete =>
    if msg.Err = none then
      some ({ m with ActionMessage := "Snapshot(s) deleted successfully. Refreshing list...",
                     Status := "Deleted snapshot(s)",
                     SelectedSnapshots := ∅ }, [Op.waitRefresh 1000])
    else
      some ({ m with ActionMessage := "Delete failed: " ++ msg.Output.text,
                     Status := "Delete failed" }, [])
  | .ActionRestore =>
    if msg.Err = none then
      some ({ m with ActionMessage := "Rollback to snapshot " ++ decimal msg.Snap.Number ++
                       " complete. Press r to refresh or reboot.",
                     Status := "Applied snapshot " ++ decimal msg.Snap.Number }, [])
    else
      some ({ m with ActionMessage := "Apply failed: " ++ msg.Output.text,
                     Status := "Apply failed" }, [])
  | .ActionStatus =>
    if msg.Err = none then
      some ({ m with ActionMessage := "Status output:\n" ++ msg.Output.text,
                     Status := "Status fetched" }, [])
    else
      some ({ m with ActionMessage := "Status failed: " ++ msg.Output.text,
                     Status := "Status failed" }, [])
  | .ActionUnknown => some (m, [])

/-- The dispatch block that `handleKey` and `handleMouse` repeat for each action:
`if !m.ActionInProgress && m.currentSnapshot() != nil` then set the focus (mouse
only), set `ActionInProgress`, set the message and schedule
`executeActionCmd(kind, *m.currentSnapshot(), m.SelectedSnapshots, m.Snapshots)`;
`otherwise` is the code that follows the block when the guard fails. -/
def dispatchAction (m : UIState) (focus : Option String) (kind : ActionKind)
    (message : String) (otherwise : UIState → Option (UIState × Cmd)) :
    Option (UIState × Cmd) :=
  if m.ActionInProgress then otherwise m
  else
    match currentSnapshot m with
    | none => none
    | some (m, none) => otherwise m
    | some (m, some _) =>
      let m := match focus with
        | some f => { m with FocusedElement := f }
        | none => m
      let m := { m with ActionInProgress := true, ActionMessage := message }
      match currentSnapshot m with
      | some (m, some snap) =>
        some (m, [Op.executeAction kind snap m.SelectedSnapshots m.Snapshots])
      | _ => none

/-- The loop over `columnSpecs` of `handleMouse` (a click on the table header):
`x` is the clicked cell, `currentX` the first cell of the next column. -/
def headerClick (m : UIState) (x : Int) : List ColumnSpec → Int → Option (UIState × Cmd)
  | [], _ => some (m, [])
  | spec :: rest, currentX =>
    let w := spec.Width
    if x ≥ currentX ∧ x < currentX + w then
      match toggleSort m spec.SortField with
      | none => none
      | some m => some (m, [])
    else headerClick m x rest (currentX + w + 1)

/-- The width of the table area computed by `handleMouse`. -/
def tableWidthOf (env : Env) (m : UIState) : Int :=
  let tableWidth := env.scaleTableWidth m.TermWidth
  if tableWidth < 60 then 60 else tableWidth

/-- `handleMouse` of `main.go`. -/
def handleMouse (env : Env) (m : UIState) (eventType : MouseEventType) (X Y : Int) :
    Option (UIState × Cmd) :=
  match eventType with
  | .MouseWheelUp =>
    if m.Snapshots.length > 0 then
      let m := { m with Cursor := SnapperTUI.max 0 (m.Cursor - 1) }
      let m := ensureCursorVisible m
      match setActionPreview m with
      | none => none
      | some m => some (m, [])
    else some (m, [])
  | .MouseWheelDown =>
    if m.Snapshots.length > 0 then
      let n : Int := m.Snapshots.length
      let m := { m with Cursor := SnapperTUI.min (n - 1) (m.Cursor + 1) }
      let m := ensureCursorVisible m
      match setActionPreview m with
      | none => none
      | some m => some (m, [])
    else some (m, [])
  | .MouseLeft =>
    let tableWidth := tableWidthOf env m
    if X < tableWidth then
      if Y ≥ 1 ∧ Y ≤ 2 then
        let x := X - 3
        if x < 0 then some (m, [])
        else headerClick m x columnSpecs 0
      else if Y ≥ 3 ∧ Y < m.TermHeight - 4 then
        let m := { m with FocusedElement := "table" }
        let rowClicked := Y - 3
        let actualRowIdx := m.Offset + rowClicked
        if actualRowIdx < (m.Snapshots.length : Int) then
          let m := { m with Cursor := actualRowIdx }
          let m := ensureCursorVisible m
          match setActionPreview m with
          | none => none
          | some m => some (m, [])
        else some (m, [])
      else some (m, [])
    else
      match getButtonYPositions m with
      | none => none
      | some (restoreY, deleteY, statusY) =>
        let panelStartX := tableWidth + 2
        if X ≥ panelStartX ∧ X ≤ panelStartX + 25 then
          let afterStatus : UIState → Option (UIState × Cmd) := fun m =>
            if Y ≥ statusY ∧ Y < statusY + 3 then
              dispatchAction m (some "status") .ActionStatus fetchingStatus
                (fun m => some (m, []))
            else some (m, [])
          let afterDelete : UIState → Option (UIState × Cmd) := fun m =>
            if Y ≥ deleteY ∧ Y < deleteY + 3 then
              dispatchAction m (some "delete") .ActionDelete executingDelete afterStatus
            else afterStatus m
          if Y ≥ restoreY ∧ Y < restoreY + 3 then
            dispatchAction m (some "restore") .ActionRestore executingApply afterDelete
          else afterDelete m
        else some (m, [])
  | _ => some (m, [])

/-- The focus cycle of the `tab` case of `handleKey`: the element after `f` in
`table, restore, delete, status`, and `table` when `f` is none of them. -/
def nextFocus (f : String) : String :=
  if f = "table" then "restore"
  else if f = "restore" then "delete"
  else if f = "delete" then "status"
  else if f = "status" then "table"
  else "table"

/-- The `switch m.FocusedElement` part of `handleKey` (element-specific keys). -/
def handleFocusedKey (m : UIState) (key : String) : Option (UIState × Cmd) :=
  if m.FocusedElement = "table" then
    if key = "r" then
      if !m.Loading then
        some ({ m with Loading := true, Status := "Refreshing snapshots..." },
          [Op.refreshSnapshots, Op.tick])
      else some (m, [])
    else if key = "j" ∨ key = "down" then
      if m.Snapshots.length > 0 then
        let n : Int := m.Snapshots.length
        let m := { m with Cursor := Int.tmod (m.Cursor + 1) n }
        let m := ensureCursorVisible m
        match setActionPreview m with
        | none => none
        | some m => some (m, [])
      else some (m, [])
    else if key = "k" ∨ key = "up" then
      if m.Snapshots.length > 0 then
        let n : Int := m.Snapshots.length
        let m := { m with Cursor := Int.tmod (m.Cursor - 1 + n) n }
        let m := ensureCursorVisible m
        match setActionPreview m with
        | none => none
        | some m => some (m, [])
      else some (m, [])
    else if key = "pgdn" ∨ key = "pagedown" then
      if m.Snapshots.length > 0 then
        let n : Int := m.Snapshots.length
        let m := { m with Cursor := SnapperTUI.min (m.Cursor + m.ViewportHeight) (n - 1) }
        let m := ensureCursorVisible m
        match setActionPreview m with
        | none => none
        | some m => some (m, [])
      else some (m, [])
    else if key = "pgup" ∨ key = "pageup" then
      if m.Snapshots.length > 0 then
        let m := { m with Cursor := SnapperTUI.max 0 (m.Cursor - m.ViewportHeight) }
        let m := ensureCursorVisible m
        match setActionPreview m with
        | none => none
        | some m => some (m, [])
      else some (m, [])
    else if key = "enter" then
      some ({ m with DetailOpen := !m.DetailOpen }, [])
    else if key = " " then
      if m.Snapshots.length > 0 then
        match sliceAt m.Snapshots m.Cursor with
        | none => none
        | some snap =>
          let m :=
            if snap.Number ∈ m.SelectedSnapshots then
              { m with SelectedSnapshots := m.SelectedSnapshots.erase snap.Number }
            else
              { m with SelectedSnapshots := insert snap.Number m.SelectedSnapshots }
          match setActionPreview m with
          | none => none
          | some m => some (m, [])
      else some (m, [])
    else if key ∈ ["1", "2", "3", "4", "5", "6", "7", "8", "9", "0"] then
      match updateSortKey m key with
      | none => none
      | some m => some (m, [])
    else some (m, [])
  else if m.FocusedElement = "restore" then
    if key = "enter" then
      dispatchAction m none .ActionRestore executingApply (fun m => some (m, []))
    else some (m, [])
  else if m.FocusedElement = "delete" then
    if key = "enter" then
      dispatchAction m none .ActionDelete executingDelete (fun m => some (m, []))
    else some (m, [])
  else if m.FocusedElement = "status" then
    if key = "enter" then
      dispatchAction m none .ActionStatus fetchingStatus (fun m => some (m, []))
    else some (m, [])
  else some (m, [])

/-- `handleKey` of `main.go`. -/
def handleKey (m : UIState) (key : String) : Option (UIState × Cmd) :=
  if key = "q" ∨ key = "ctrl+c" then some (m, [Op.quit])
  else if key = "tab" then some ({ m with FocusedElement := nextFocus m.FocusedElement }, [])
  else
    match handleFocusedKey m key with
    | none => none
    | some (m, cmd) =>
      if m.FocusedElement = "table" then
        if key = "A" ∨ key = "a" then
          dispatchAction m none .ActionRestore executingApply (fun m => some (m, cmd))
        else if key = "D" ∨ key = "d" then
          dispatchAction m none .ActionDelete executingDelete (fun m => some (m, cmd))
        else if key = "s" then
          dispatchAction m none .ActionStatus fetchingStatus (fun m => some (m, cmd))
        else some (m, cmd)
      else some (m, cmd)

/-- `UIState.Update` of `main.go`; `sample` is the content of the package
variable `sampleSnapshots` when the event is handled. -/
def Update (env : Env) (sample : List Snapshot) (m : UIState) (msg : Msg) :
    Option (UIState × Cmd) :=
  match msg with
  | .WindowSizeMsg width height =>
    let m := { m with TermWidth := width, TermHeight := height }
    let availableHeight := height - 13
    let availableHeight := if availableHeight < 1 then 1 else availableHeight
    let m := { m with ViewportHeight := availableHeight }
    let m := ensureCursorVisible m
    some (m, [])
  | .KeyMsg key => handleKey m key
  | .MouseMsg eventType x y => handleMouse env m eventType x y
  | .TickMsg => handleTick m
  | .RefreshTriggerMsg => handleRefreshTrigger m
  | .RefreshResultMsg snapshots err => handleRefreshResult env sample m snapshots err
  | .ActionResultMsg r => handleActionResult m r
  | .Other => some (m, [])

/-! ## main.go: `executeActionCmd` -/

/-- What `cmd.CombinedOutput()` gives for the external tool `snapper` called
with an argument list: the captured output, taken to be valid UTF-8 text, and
the error. -/
abbrev Shell := List String → String × Option String

/-- What running the closure returned by `executeActionCmd` does: the argument
lists of the `snapper` processes it started, in order, and the completion
message it returns (`none` when it panics). -/
structure ExecOutcome where
  invoked : List (List String)
  result : Option ActionResult
deriving DecidableEq

/-- `unicode.IsSpace`. -/
def isSpace (c : Char) : Bool :=
  c = '\t' || c = '\n' || c.toNat = 11 || c.toNat = 12 || c = '\r' || c = ' ' ||
  c.toNat = 0x85 || c.toNat = 0xA0 || c.toNat = 0x1680 ||
  (0x2000 ≤ c.toNat && c.toNat ≤ 0x200a) ||
  c.toNat = 0x2028 || c.toNat = 0x2029 || c.toNat = 0x202f || c.toNat = 0x205f ||
  c.toNat = 0x3000

/-- `strings.TrimSpace`. -/
def trimSpace (s : String) : String :=
  String.mk ((s.toList.dropWhile isSpace).reverse.dropWhile isSpace).reverse

/-- The number of bytes of a text (`len` of the Go string of a text). -/
def byteLen (cs : List Char) : Nat :=
  (cs.map Char.utf8Size).sum

/-- The truncation of the captured output in `executeActionCmd`: `len` counts
bytes and `trimmed[:497]` keeps the first 497 bytes. -/
def truncateOutput (output : String) : GoString :=
  let trimmed := utf8 (trimSpace output)
  if trimmed.bytes.length > 500 then ⟨trimmed.bytes.take 497 ++ (utf8 "...").bytes⟩
  else trimmed

/-- The target list of `executeActionCmd` (its first block, "Determine targets"). -/
def resolveTargets (snap : Snapshot) (selected : Finset Int) (allSnaps : List Snapshot) :
    List Snapshot :=
  if selected.card > 0 then
    allSnaps.foldl (fun targets s => if s.Number ∈ selected then targets ++ [s] else targets) []
  else [snap]

/-- The text of `fmt.Errorf("cannot perform %s on multiple snapshots", kind)`:
`ActionKind` is an integer type without a `String` method. -/
def multipleError (kind : ActionKind) : String :=
  "cannot perform %!s(main.ActionKind=" ++ decimal kind.toInt ++ ") on multiple snapshots"

/-- The closure returned by `executeActionCmd` of `main.go`, run against the
external tool `sh`. -/
def executeActionCmd (sh : Shell) (kind : ActionKind) (snap : Snapshot)
    (selected : Finset Int) (allSnaps : List Snapshot) : ExecOutcome :=
  let targets := resolveTargets snap selected allSnaps
  if targets.length > 1 ∧ (kind = .ActionRestore ∨ kind = .ActionStatus) then
    { invoked := []
      result := some { Kind := kind, Snap := snap, Err := some (multipleError kind),
                       Output := utf8 "Please select only one snapshot." } }
  else if kind = .ActionDelete then
    let args := targets.foldl (fun args t => args ++ [decimal t.Number]) ["delete"]
    let (output, err) := sh args
    match err with
    | some e =>
      { invoked := [args]
        result := some { Kind := kind, Snap := snap, Err := some e, Output := utf8 output } }
    | none =>
      { invoked := [args]
        result := some { Kind := kind, Snap := snap, Err := none,
                         Output := utf8 "All selected snapshots deleted." } }
  else
    match sliceAt targets 0 with
    | none => { invoked := [], result := none }
    | some target =>
      let args : List String :=
        match kind with
        | .ActionRestore => ["rollback", decimal target.Number]
        | .ActionStatus =>
          let start := computeStatusStart target
          ["status", decimal start ++ ".." ++ decimal target.Number]
        | _ => []
      let (output, err) := sh args
      { invoked := [args]
        result := some { Kind := kind, Snap := target, Output := truncateOutput output,
                         Err := err } }

/-- Running a scheduled operation list against the external tool: the outcome of
each `executeActionCmd` in it, on the selection and the sequence as they were
when the action was dispatched.  (The Go closure holds the map and the slice
themselves; a write to them between dispatch and run would be seen by it.) -/
def runActions (sh : Shell) (cmd : Cmd) : List ExecOutcome :=
  cmd.filterMap fun op =>
    match op with
    | .executeAction kind snap selected allSnaps =>
      some (executeActionCmd sh kind snap selected allSnaps)
    | _ => none

/-! ## main.go: the layout drawn by `View` -/

/-- What a piece of rendered text shows.  A text rendered with a border is
marked on each of its lines (a button on its border lines and on its label). -/
inductive Mark where
  | tableHeader
  | tableHeaderBorder
  | emptyMessage
  | row (idx : Int)
  | scrollbar
  | detailsHeader
  | boxBorder
  | detail (i : Nat)
  | selectHint
  | actionsHeader
  | restoreButton
  | deleteButton
  | statusButton
deriving DecidableEq, Repr

/-- A piece of the string a renderer builds: text without a line break, or the
line break `"\n"`. -/
inductive Piece where
  | text (mark : Mark)
  | newline
deriving DecidableEq, Repr

/-- A rendered block of several lines: the lines separated by line breaks, with
no line break after the last one, as `lipgloss.Style.Render` returns it. -/
def block : List Mark → List Piece
  | [] => []
  | [a] => [.text a]
  | a :: b :: rest => .text a :: .newline :: block (b :: rest)

/-- The lines of a built string (`strings.Split(s, "\n")`), each with the marks
of the text on it. -/
def splitLines : List Piece → List (List Mark)
  | [] => [[]]
  | .newline :: rest => [] :: splitLines rest
  | .text t :: rest =>
    match splitLines rest with
    | [] => [[t]]
    | l :: ls => (t :: l) :: ls

/-- `renderTable` of `main.go`, as the pieces written to the builder: the header
(`tableHeaderStyle` draws a border line under the text), then the empty-list
message, or one line for each index from `Offset` to
`min(Offset+ViewportHeight, len)` and the scroll indicator when the list is
longer than the viewport.  No text is wider than the table (`padOrTruncate`). -/
def renderTable (m : UIState) : Option (List Piece) :=
  let header := block [.tableHeader, .tableHeaderBorder] ++ [.newline]
  if m.Snapshots.length = 0 then
    some (header ++ [.text .emptyMessage, .newline])
  else
    let endIdx := SnapperTUI.min (m.Offset + m.ViewportHeight) (m.Snapshots.length : Int)
    let rows := (List.range (endIdx - m.Offset).toNat).map (fun i => m.Offset + (i : Int))
    if rows.all (fun idx => (sliceAt m.Snapshots idx).isSome) then
      some (header ++ rows.flatMap (fun idx => [.text (.row idx), .newline]) ++
        (if (m.Snapshots.length : Int) > m.ViewportHeight then [.text .scrollbar, .newline]
         else []))
    else none

/-- `renderRightPanel` of `main.go`, as the pieces written to the builder.  The
buttons are rendered with `buttonStyle` (a border on all sides: three lines),
the details with `panelStyle`; every text is taken to fit its width, so that
lipgloss wraps no line. -/
def renderRightPanel (m : UIState) (maxHeight : Int) : Option (List Piece) :=
  let actionsHeight : Int := 13
  let detailsAvailableHeight := maxHeight - actionsHeight
  let detailsAvailableHeight := if detailsAvailableHeight < 0 then 0 else detailsAvailableHeight
  let details : Option (List Piece) :=
    if m.DetailOpen = true ∧ detailsAvailableHeight > 2 then
      let contentHeight := detailsAvailableHeight - 2
      let box : Option (List Piece) :=
        if contentHeight > 0 then
          match currentSnapshot m with
          | none => none
          | some (_, some _) =>
            let detailLines := (List.range 10).map Mark.detail
            let detailLines :=
              if (detailLines.length : Int) > contentHeight then
                detailLines.take contentHeight.toNat
              else detailLines
            some (block ([.boxBorder] ++ detailLines ++ [.boxBorder]))
          | some (_, none) => some (block [.boxBorder, .selectHint, .boxBorder])
        else some []
      match box with
      | none => none
      | some box => some ([.text .detailsHeader, .newline] ++ box ++ [.newline, .newline])
    else some []
  match details with
  | none => none
  | some details =>
    let restoreBtn := block [.restoreButton, .restoreButton, .restoreButton]
    let deleteBtn := block [.deleteButton, .deleteButton, .deleteButton]
    let statusBtn := block [.statusButton, .statusButton, .statusButton]
    some (details ++ [.text .actionsHeader, .newline] ++ restoreBtn ++ [.newline] ++
      deleteBtn ++ [.newline] ++ statusBtn)

/-- The screen lines on which a built string shows `mark`, when its first line
is screen line 1: `View` puts the main content under the one-line header, and
`lipgloss.JoinHorizontal(lipgloss.Top, ...)` aligns the table and the right
panel at their first lines. -/
def screenLinesOf (pieces : List Piece) (mark : Mark) : List Int :=
  ((splitLines pieces).enum.filter (fun p => decide (mark ∈ p.2))).map
    (fun p => (p.1 : Int) + 1)

/-- The marks `renderTable` puts on screen line `Y` (`View`, not loading). -/
def tableLineAt (m : UIState) (Y : Int) : Option (List Mark) :=
  match renderTable m with
  | none => none
  | some pieces => sliceAt (splitLines pieces) (Y - 1)

/-- The screen lines of the three buttons as `View` draws them (not loading):
`renderRightPanel(m.ViewportHeight + 3)`. -/
def drawnButtons (m : UIState) : Option (List Int × List Int × List Int) :=
  match renderRightPanel m (m.ViewportHeight + 3) with
  | none => none
  | some pieces =>
    some (screenLinesOf pieces .restoreButton, screenLinesOf pieces .deleteButton,
      screenLinesOf pieces .statusButton)

/-! ## data.go -/

/-- A decoded value (`interface{}`) as the converters of `data.go` see it, by
its dynamic type: `nil`, `bool`, `float64` (a finite number), `string`, `int`,
`int64`, `json.Number` (its text), `[]interface{}`, `map[string]interface{}`
and `map[string]string` (the maps by an enumeration of their entries). -/
inductive Raw where
  | null
  | bool (v : Bool)
  | float64 (v : ℚ)
  | str (v : String)
  | int (v : Int)
  | int64 (v : Int)
  | number (text : String)
  | array (items : List Raw)
  | object (entries : List (String × Raw))
  | stringMap (entries : List (String × String))

/-- What `fmt.Sprint` prints for a decoded value. -/
abbrev Printer := Raw → String

/-- A map read `data[key]`: `nil` when the key is absent. -/
def mapGet (data : List (String × Raw)) (key : String) : Raw :=
  match data.lookup key with
  | some v => v
  | none => .null

/-- The conversion `int(v)` of a `float64`: the fraction is discarded.  For a
value outside the range of `int64` the Go specification leaves the result to the
implementation; on amd64 it is the least `int64`. -/
def truncate (v : ℚ) : Int :=
  let t := Int.tdiv v.num (v.den : Int)
  if t < -9223372036854775808 ∨ t > 9223372036854775807 then -9223372036854775808 else t

/-- `strings.EqualFold(v, "true")`: the four letters in either case. -/
def equalFoldTrue (v : String) : Bool :=
  match v.toList with
  | [a, b, c, d] =>
    (a = 't' ∨ a = 'T') ∧ (b = 'r' ∨ b = 'R') ∧ (c = 'u' ∨ c = 'U') ∧ (d = 'e' ∨ d = 'E')
  | _ => false

/-- `toString` of `data.go`; of the modelled types only `json.Number` is a
`fmt.Stringer`, and its `String()` is its text. -/
def toString (sprint : Printer) (value : Raw) (fallback : String) : String :=
  match value with
  | .str v => v
  | .number text => text
  | .null => fallback
  | v => sprint v

/-- `toInt` of `data.go`; `json.Number.Int64` is `strconv.ParseInt(s, 10, 64)`. -/
def toInt (value : Raw) : Int × Bool :=
  match value with
  | .int v => (v, true)
  | .float64 v => (truncate v, true)
  | .number text =>
    match atoi text with
    | some i => (i, true)
    | none => (0, false)
  | _ => (0, false)

/-- `toInt64` of `data.go`. -/
def toInt64 (value : Raw) : Option Int × Bool :=
  match value with
  | .int v => (some v, true)
  | .float64 v => (some (truncate v), true)
  | .int64 v => (some v, true)
  | .number text =>
    match atoi text with
    | some i => (some i, true)
    | none => (none, false)
  | _ => (none, false)

/-- `toOptionalInt` of `data.go`. -/
def toOptionalInt (value : Raw) : Option Int :=
  match toInt value with
  | (i, true) => some i
  | (_, false) => none

/-- `toStringMap` of `data.go`. -/
def toStringMap (sprint : Printer) (value : Raw) : Option (List (String × String)) :=
  match value with
  | .null => none
  | .object entries => some (entries.map (fun kv => (kv.1, sprint kv.2)))
  | .stringMap entries => some entries
  | _ => none

/-- `toBool` of `data.go`. -/
def toBool (value : Raw) : Bool :=
  match value with
  | .bool v => v
  | .str v => equalFoldTrue v
  | .int v => v ≠ 0
  | .float64 v => v ≠ 0
  | _ => false

/-- `snapshotFromRaw` of `data.go`. -/
def snapshotFromRaw (sprint : Printer) (config : String) (data : List (String × Raw)) :
    Snapshot :=
  let number := (toInt (mapGet data "number")).1
  let pre := toOptionalInt (mapGet data "pre-number")
  let post := toOptionalInt (mapGet data "post-number")
  let used := (toInt64 (mapGet data "used-space")).1
  let userdata := toStringMap sprint (mapGet data "userdata")
  { Config := toString sprint (mapGet data "config") config
    Subvolume := toString sprint (mapGet data "subvolume") ""
    Number := number
    SnapshotType := toString sprint (mapGet data "type") ""
    PreNumber := pre
    PostNumber := post
    Date := toString sprint (mapGet data "date") ""
    User := toString sprint (mapGet data "user") ""
    Cleanup := toString sprint (mapGet data "cleanup") ""
    Description := toString sprint (mapGet data "description") ""
    Userdata := userdata
    UsedSpace := used
    Default := toBool (mapGet data "default")
    Active := toBool (mapGet data "active") }

/-! ## The program as a transition system -/

/-- The program state between two events: the model held by the UI runtime, the
content of the package variable `sampleSnapshots`, whether `m.Snapshots` is that
same slice (so that sorting in place reorders both), and the number of
`executeActionCmd` operations scheduled and not yet completed. -/
structure World where
  m : UIState
  sample : List Snapshot
  shared : Bool
  inFlight : Nat

/-- The program state at start-up. -/
def World.init : World :=
  { m := initialModel, sample := sampleSnapshots, shared := true, inFlight := 0 }

/-- The number of `executeActionCmd` operations in an operation list. -/
def countActions (cmd : Cmd) : Nat :=
  (cmd.filter fun op =>
    match op with
    | .executeAction _ _ _ _ => true
    | _ => false).length

/-- Whether an event is an action-completed event. -/
def Msg.isActionResult : Msg → Bool
  | .ActionResultMsg _ => true
  | _ => false

/-- Whether `m.Snapshots` is the slice `sampleSnapshots` after an event: a failed
refresh assigns `sampleSnapshots`, a successful one assigns the received slice. -/
def sharedAfter (msg : Msg) (shared : Bool) : Bool :=
  match msg with
  | .RefreshResultMsg _ err => err.isSome
  | _ => shared

/-- One event: `Update` on the model, with the bookkeeping of the shared slice
and of the operations in flight.  An action-completed event is only delivered
for an operation in flight. -/
def World.step (env : Env) (w : World) (msg : Msg) : Option World :=
  if msg.isActionResult ∧ w.inFlight = 0 then none
  else
    match Update env w.sample w.m msg with
    | none => none
    | some (m, cmd) =>
      some { m := m
             sample := if sharedAfter msg w.shared then m.Snapshots else w.sample
             shared := sharedAfter msg w.shared
             inFlight := w.inFlight - (if msg.isActionResult then 1 else 0) + countActions cmd }

/-- The states after a sequence of events, each with the environment it saw;
`none` when an event cannot be delivered or the program panics. -/
def World.run (w : World) : List (Env × Msg) → Option World
  | [] => some w
  | (env, msg) :: rest =>
    match World.step env w msg with
    | none => none
    | some w1 => World.run w1 rest

/-! ## Definitions used by the proofs -/

/-- An environment for concrete evaluations: the table width is 65 percent of
the terminal width truncated, sizes are printed in bytes, the free space is 0. -/
def plainEnv : Env :=
  ⟨fun w => Int.tdiv (w * 65) 100, fun n => decimal (n : Int) ++ " B", fun _ => .ok 0⟩

/-- An external tool that prints nothing and succeeds. -/
def quietShell : Shell :=
  fun _ => ("", none)

/-- The viewport height after the fallback of `ensureCursorVisible`. -/
def heightOrFallback (vh : Int) : Int :=
  if vh ≤ 0 then 10 else vh

/-- The offset `ensureCursorVisible` computes from the cursor, the old offset,
the viewport height and the number of rows. -/
def windowOffset (cursor offset vh n : Int) : Int :=
  let o1 := if cursor < offset then cursor else offset
  let o2 := if cursor ≥ o1 + vh then cursor - vh + 1 else o1
  let o3 := if o2 < 0 then 0 else o2
  if o3 > SnapperTUI.max 0 (n - vh) then SnapperTUI.max 0 (n - vh) else o3

/-- A transition that schedules no action and keeps the flag, or schedules
exactly one action from a state whose flag is clear and sets it. -/
def Guarded (m m1 : UIState) (cmd : Cmd) : Prop :=
  (countActions cmd = 0 ∧ m1.ActionInProgress = m.ActionInProgress) ∨
  (countActions cmd = 1 ∧ m.ActionInProgress = false ∧ m1.ActionInProgress = true)

/-- The flag `ActionInProgress` mirrors the number of actions in flight. -/
def World.Balanced (w : World) : Prop :=
  w.inFlight = if w.m.ActionInProgress then 1 else 0

/-- A fourth snapshot (number 19) for sequences longer than the sample list. -/
def sample19 : Snapshot :=
  { sample18 with Number := 19, PreNumber := none, Date := "2025-11-20 08:00:00",
                  Description := "Morning checkpoint" }

/-- The timers of `main.go`: `tickCmd` delivers a `TickMsg` after 120 ms and
`waitRefreshCmd(d)` delivers a `RefreshTriggerMsg` after `d`; the other
operations are not timers. -/
def Op.timer : Op → Option (Nat × Msg)
  | .tick => some (120, .TickMsg)
  | .waitRefresh d => some (d, .RefreshTriggerMsg)
  | _ => none

/-- The state after a sequence of key presses (the scheduled operations are
dropped); `none` when a press panics. -/
def pressKeys (m : UIState) : List String → Option UIState
  | [] => some m
  | key :: rest =>
    match handleKey m key with
    | none => none
    | some (m1, _) => pressKeys m1 rest

/-- The decimal digits of `n` in exactly `w` characters, zero-padded on the
left (the digits of `n` modulo `10 ^ w`). -/
def padDigits : Nat → Nat → List Char
  | 0, _ => []
  | w + 1, n => padDigits w (n / 10) ++ [Nat.digitChar (n % 10)]

/-- The focus token is one of the four focusable elements. -/
def validFocus (f : String) : Prop :=
  f = "table" ∨ f = "restore" ∨ f = "delete" ∨ f = "status"

/-- A transition that keeps the focus token or sets it to a focusable element. -/
def FocusStep (m m1 : UIState) : Prop :=
  m1.FocusedElement = m.FocusedElement ∨ validFocus m1.FocusedElement

/-- Eight snapshots, numbered 1 to 8. -/
def eightSnapshots : List Snapshot :=
  (List.range 8).map (fun i => { sample0 with Number := (i : Int) + 1 })

/-- A value that `toInt` cannot use: not an `int`, a `float64` or a
`json.Number` whose text is a 64-bit decimal integer. -/
def notAnInt (value : Raw) : Prop :=
  match value with
  | .int _ => False
  | .float64 _ => False
  | .number text => atoi text = none
  | _ => True

/-- A value that `toInt64` cannot use: as for `toInt`, and not an `int64`. -/
def notAnInt64 (value : Raw) : Prop :=
  match value with
  | .int64 _ => False
  | v => notAnInt v

/-- A value that `toBool` cannot use: not a `bool`, a `string`, an `int` or a
`float64`. -/
def notABool (value : Raw) : Prop :=
  match value with
  | .bool _ => False
  | .str _ => False
  | .int _ => False
  | .float64 _ => False
  | _ => True

/-- A printer for concrete evaluations. -/
def plainPrinter : Printer :=
  fun _ => "?"

/-- The text `msg.String()` of the PageDown key: the entry of `KeyPgDown` in the
key table of the bubbletea library (not part of this repository). -/
def keyPgDown : String := "pgdown"

/-- The package variable `sampleSnapshots` holds the built-in sample snapshots,
in some order, and is the slice of the state whenever the two are shared. -/
def World.SampleKept (w : World) : Prop :=
  w.sample.Perm sampleSnapshots ∧ (w.shared = true → w.m.Snapshots = w.sample)

/-! ## Lemmas: arithmetic, slices and the viewport -/

theorem max_eq (a b : Int) : SnapperTUI.max a b = max a b := by
  unfold SnapperTUI.max
  split_ifs <;> omega

theorem min_eq (a b : Int) : SnapperTUI.min a b = min a b := by
  unfold SnapperTUI.min
  split_ifs <;> omega

theorem ensureCursorVisible_eq (m : UIState) :
    ensureCursorVisible m =
      { m with ViewportHeight := heightOrFallback m.ViewportHeight
               Offset := windowOffset m.Cursor m.Offset (heightOrFallback m.ViewportHeight)
                 (m.Snapshots.length : Int) } := by
  rcases m with ⟨sn, c, o, sk, sr, ld, sp, am, st, su, ph, aip, dop, ss, sel, fe, tr, br, tw, th, vh⟩
  simp only [ensureCursorVisible, heightOrFallback, windowOffset]
  by_cases h1 : vh ≤ 0
  · simp only [h1, if_true]
    by_cases h2 : c < o
    · simp only [h2, if_true]
      split_ifs <;> rfl
    · simp only [h2, if_false]
      split_ifs <;> rfl
  · simp only [h1, if_false]
    by_cases h2 : c < o
    · simp only [h2, if_true]
      split_ifs <;> rfl
    · simp only [h2, if_false]
      split_ifs <;> rfl

theorem windowOffset_spec (cursor offset vh n : Int) (hc0 : 0 ≤ cursor) (hc1 : cursor < n)
    (hv : 1 ≤ vh) :
    windowOffset cursor offset vh n ≤ cursor ∧
    cursor ≤ windowOffset cursor offset vh n + vh - 1 ∧
    0 ≤ windowOffset cursor offset vh n ∧
    windowOffset cursor offset vh n ≤ max 0 (n - vh) := by
  simp only [windowOffset, max_eq]
  split_ifs <;> omega

theorem sliceAt_inrange {α : Type} (l : List α) (i : Int) (h0 : 0 ≤ i) (h1 : i < l.length) :
    ∃ a, sliceAt l i = some a ∧ a ∈ l := by
  have hlt : i.toNat < l.length := by omega
  refine ⟨l[i.toNat], ?_, List.getElem_mem _⟩
  have : ¬ i < 0 := by omega
  simp [sliceAt, this, List.getElem?_eq_getElem hlt]

theorem currentSnapshot_inrange (m : UIState) (h0 : 0 ≤ m.Cursor)
    (h1 : m.Cursor < m.Snapshots.length) :
    ∃ snap, currentSnapshot m = some (m, some snap) ∧ sliceAt m.Snapshots m.Cursor = some snap := by
  obtain ⟨snap, hs, _⟩ := sliceAt_inrange m.Snapshots m.Cursor h0 h1
  refine ⟨snap, ?_, hs⟩
  have hlen : m.Snapshots.length ≠ 0 := by omega
  have hge : ¬ m.Cursor ≥ (m.Snapshots.length : Int) := by omega
  simp [currentSnapshot, hlen, hge, hs]

theorem setActionPreview_inrange (m : UIState) (h0 : 0 ≤ m.Cursor)
    (h1 : m.Cursor < m.Snapshots.length) :
    ∃ snap, setActionPreview m = some { m with ActionMessage := previewText snap } ∧
      sliceAt m.Snapshots m.Cursor = some snap := by
  obtain ⟨snap, hs, hsl⟩ := currentSnapshot_inrange m h0 h1
  exact ⟨snap, by simp [setActionPreview, hs], hsl⟩

/-- Moving the cursor to an in-range row, then `ensureCursorVisible` and
`setActionPreview`, as every cursor move of the handlers does. -/
theorem move_cursor_window (m : UIState) (c : Int) (h0 : 0 ≤ c) (h1 : c < m.Snapshots.length)
    (hv : 1 ≤ m.ViewportHeight) :
    ∃ (snap : Snapshot) (off : Int),
      setActionPreview (ensureCursorVisible { m with Cursor := c }) =
        some { m with Cursor := c, Offset := off, ActionMessage := previewText snap } ∧
      off ≤ c ∧ c ≤ off + m.ViewportHeight - 1 ∧ 0 ≤ off ∧
      off ≤ max 0 ((m.Snapshots.length : Int) - m.ViewportHeight) := by
  have hvh : heightOrFallback m.ViewportHeight = m.ViewportHeight := by
    unfold heightOrFallback
    split_ifs <;> omega
  have hw := windowOffset_spec c m.Offset m.ViewportHeight m.Snapshots.length h0 h1 hv
  obtain ⟨snap, hs, _⟩ := setActionPreview_inrange (ensureCursorVisible { m with Cursor := c })
    (by rw [ensureCursorVisible_eq]; exact h0) (by rw [ensureCursorVisible_eq]; exact h1)
  refine ⟨snap, windowOffset c m.Offset m.ViewportHeight m.Snapshots.length, ?_, hw⟩
  rw [hs, ensureCursorVisible_eq]
  simp only [hvh]

theorem ensureCursorVisible_aip (m : UIState) :
    (ensureCursorVisible m).ActionInProgress = m.ActionInProgress := by
  rw [ensureCursorVisible_eq]

theorem currentSnapshot_some (m m1 : UIState) (r : Option Snapshot)
    (h : currentSnapshot m = some (m1, r)) :
    m1.ActionInProgress = m.ActionInProgress ∧ (r = none → m1 = m) := by
  unfold currentSnapshot at h
  split_ifs at h with h0 h1
  · simp only [Option.some.injEq, Prod.mk.injEq] at h
    obtain ⟨rfl, rfl⟩ := h
    exact ⟨rfl, fun _ => rfl⟩
  · simp only at h
    split at h
    · cases h
    · simp only [Option.some.injEq, Prod.mk.injEq] at h
      obtain ⟨rfl, rfl⟩ := h
      exact ⟨rfl, fun hr => by cases hr⟩
  · simp only at h
    split at h
    · cases h
    · simp only [Option.some.injEq, Prod.mk.injEq] at h
      obtain ⟨rfl, rfl⟩ := h
      exact ⟨rfl, fun hr => by cases hr⟩

theorem setActionPreview_aip (m m1 : UIState) (h : setActionPreview m = some m1) :
    m1.ActionInProgress = m.ActionInProgress := by
  unfold setActionPreview at h
  split at h
  · cases h
  · rename_i m2 snap hc
    cases h
    exact (currentSnapshot_some m m2 _ hc).1
  · rename_i m2 hc
    cases h
    exact (currentSnapshot_some m m2 _ hc).1

theorem toggleSort_aip (m m1 : UIState) (field : String) (h : toggleSort m field = some m1) :
    m1.ActionInProgress = m.ActionInProgress := by
  unfold toggleSort at h
  simp only at h
  split at h
  · cases h
  · rename_i m2 hp
    cases h
    have := setActionPreview_aip _ _ hp
    rw [ensureCursorVisible_aip] at this
    simp only [this, sortSnapshots]
    split_ifs <;> rfl

theorem updateSortKey_aip (m m1 : UIState) (key : String) (h : updateSortKey m key = some m1) :
    m1.ActionInProgress = m.ActionInProgress := by
  unfold updateSortKey at h
  simp only at h
  split_ifs at h
  · cases h
    rfl
  · split at h
    · cases h
    · exact toggleSort_aip _ _ _ h

/-! ## Lemmas: the flag `ActionInProgress` along a transition -/

theorem dispatchAction_cases (m m1 : UIState) (focus : Option String) (kind : ActionKind)
    (message : String) (otherwise : UIState → Option (UIState × Cmd)) (cmd : Cmd)
    (h : dispatchAction m focus kind message otherwise = some (m1, cmd)) :
    otherwise m = some (m1, cmd) ∨
    (m.ActionInProgress = false ∧ m1.ActionInProgress = true ∧ countActions cmd = 1) := by
  unfold dispatchAction at h
  split_ifs at h with hb
  · exact Or.inl h
  · split at h
    · cases h
    · rename_i m2 hc
      have := (currentSnapshot_some m m2 none hc).2 rfl
      subst this
      exact Or.inl h
    · rename_i m2 s hc
      simp only at h
      split at h
      · rename_i m3 snap hc2
        simp only [Option.some.injEq, Prod.mk.injEq] at h
        obtain ⟨rfl, rfl⟩ := h
        refine Or.inr ⟨by simpa using hb, ?_, rfl⟩
        rw [(currentSnapshot_some _ _ _ hc2).1]
      · cases h

theorem headerClick_aip (m : UIState) (x : Int) (specs : List ColumnSpec) (currentX : Int)
    (m1 : UIState) (cmd : Cmd) (h : headerClick m x specs currentX = some (m1, cmd)) :
    Guarded m m1 cmd := by
  induction specs generalizing currentX with
  | nil =>
    simp only [headerClick, Option.some.injEq, Prod.mk.injEq] at h
    obtain ⟨rfl, rfl⟩ := h
    exact Or.inl ⟨rfl, rfl⟩
  | cons spec rest ih =>
    simp only [headerClick] at h
    split_ifs at h
    · split at h
      · cases h
      · rename_i m2 ht
        simp only [Option.some.injEq, Prod.mk.injEq] at h
        obtain ⟨rfl, rfl⟩ := h
        exact Or.inl ⟨rfl, toggleSort_aip _ _ _ ht⟩
    · exact ih _ h

theorem dispatchAction_guarded (m m1 : UIState) (focus : Option String) (kind : ActionKind)
    (message : String) (cmd0 cmd : Cmd) (h0 : countActions cmd0 = 0)
    (h : dispatchAction m focus kind message (fun m => some (m, cmd0)) = some (m1, cmd)) :
    Guarded m m1 cmd := by
  rcases dispatchAction_cases _ _ _ _ _ _ _ h with h1 | ⟨a, b, c⟩
  · simp only [Option.some.injEq, Prod.mk.injEq] at h1
    obtain ⟨rfl, rfl⟩ := h1
    exact Or.inl ⟨h0, rfl⟩
  · exact Or.inr ⟨c, a, b⟩

theorem handleFocusedKey_guarded (m m1 : UIState) (key : String) (cmd : Cmd)
    (h : handleFocusedKey m key = some (m1, cmd)) : Guarded m m1 cmd := by
  unfold handleFocusedKey at h
  by_cases hf : m.FocusedElement = "table"
  · rw [if_pos hf] at h
    by_cases h1 : key = "r"
    · rw [if_pos h1] at h
      split_ifs at h <;> (cases h; exact Or.inl ⟨rfl, rfl⟩)
    rw [if_neg h1] at h
    by_cases h2 : key = "j" ∨ key = "down"
    · rw [if_pos h2] at h
      split_ifs at h
      · simp only at h
        split at h
        · cases h
        · rename_i m2 hp
          cases h
          have := setActionPreview_aip _ _ hp
          rw [ensureCursorVisible_aip] at this
          exact Or.inl ⟨rfl, this⟩
      · cases h
        exact Or.inl ⟨rfl, rfl⟩
    rw [if_neg h2] at h
    by_cases h3 : key = "k" ∨ key = "up"
    · rw [if_pos h3] at h
      split_ifs at h
      · simp only at h
        split at h
        · cases h
        · rename_i m2 hp
          cases h
          have := setActionPreview_aip _ _ hp
          rw [ensureCursorVisible_aip] at this
          exact Or.inl ⟨rfl, this⟩
      · cases h
        exact Or.inl ⟨rfl, rfl⟩
    rw [if_neg h3] at h
    by_cases h4 : key = "pgdn" ∨ key = "pagedown"
    · rw [if_pos h4] at h
      split_ifs at h
      · simp only at h
        split at h
        · cases h
        · rename_i m2 hp
          cases h
          have := setActionPreview_aip _ _ hp
          rw [ensureCursorVisible_aip] at this
          exact Or.inl ⟨rfl, this⟩
      · cases h
        exact Or.inl ⟨rfl, rfl⟩
    rw [if_neg h4] at h
    by_cases h5 : key = "pgup" ∨ key = "pageup"
    · rw [if_pos h5] at h
      split_ifs at h
      · simp only at h
        split at h
        · cases h
        · rename_i m2 hp
          cases h
          have := setActionPreview_aip _ _ hp
          rw [ensureCursorVisible_aip] at this
          exact Or.inl ⟨rfl, this⟩
      · cases h
        exact Or.inl ⟨rfl, rfl⟩
    rw [if_neg h5] at h
    by_cases h6 : key = "enter"
    · rw [if_pos h6] at h
      cases h
      exact Or.inl ⟨rfl, rfl⟩
    rw [if_neg h6] at h
    by_cases h7 : key = " "
    · rw [if_pos h7] at h
      split_ifs at h
      · split at h
        · cases h
        · simp only at h
          split at h
          · cases h
          · rename_i m2 hp
            cases h
            have := setActionPreview_aip _ _ hp
            refine Or.inl ⟨rfl, ?_⟩
            rw [this]
            split_ifs <;> rfl
      · cases h
        exact Or.inl ⟨rfl, rfl⟩
    rw [if_neg h7] at h
    split_ifs at h
    · split at h
      · cases h
      · rename_i m2 hp
        cases h
        exact Or.inl ⟨rfl, updateSortKey_aip _ _ _ hp⟩
    · cases h
      exact Or.inl ⟨rfl, rfl⟩
  · rw [if_neg hf] at h
    split_ifs at h
    all_goals first
      | (cases h; exact Or.inl ⟨rfl, rfl⟩)
      | exact dispatchAction_guarded _ _ _ _ _ [] _ rfl h

theorem handleKey_guarded (m m1 : UIState) (key : String) (cmd : Cmd)
    (h : handleKey m key = some (m1, cmd)) : Guarded m m1 cmd := by
  unfold handleKey at h
  by_cases hq : key = "q" ∨ key = "ctrl+c"
  · rw [if_pos hq] at h
    cases h
    exact Or.inl ⟨rfl, rfl⟩
  rw [if_neg hq] at h
  by_cases ht : key = "tab"
  · rw [if_pos ht] at h
    cases h
    exact Or.inl ⟨rfl, rfl⟩
  rw [if_neg ht] at h
  split at h
  · cases h
  · rename_i m2 cmd2 hk
    have hg := handleFocusedKey_guarded _ _ _ _ hk
    have fin : ∀ (kind : ActionKind) (message : String),
        dispatchAction m2 none kind message (fun m => some (m, cmd2)) = some (m1, cmd) →
        Guarded m m1 cmd := by
      intro kind message hd
      rcases dispatchAction_cases _ _ _ _ _ _ _ hd with h1 | ⟨a, b, c⟩
      · simp only [Option.some.injEq, Prod.mk.injEq] at h1
        obtain ⟨rfl, rfl⟩ := h1
        exact hg
      · rcases hg with ⟨_, e⟩ | ⟨_, _, e⟩
        · exact Or.inr ⟨c, by rw [← e]; exact a, b⟩
        · rw [a] at e
          cases e
    split_ifs at h
    · exact fin _ _ h
    · exact fin _ _ h
    · exact fin _ _ h
    · cases h
      exact hg
    · cases h
      exact hg

theorem handleMouse_wheelUp (env : Env) (m : UIState) (X Y : Int) :
    handleMouse env m .MouseWheelUp X Y =
      if m.Snapshots.length > 0 then
        match setActionPreview (ensureCursorVisible
          { m with Cursor := SnapperTUI.max 0 (m.Cursor - 1) }) with
        | none => none
        | some m => some (m, [])
      else some (m, []) := by
  rfl

theorem handleMouse_wheelDown (env : Env) (m : UIState) (X Y : Int) :
    handleMouse env m .MouseWheelDown X Y =
      if m.Snapshots.length > 0 then
        match setActionPreview (ensureCursorVisible
          { m with Cursor := SnapperTUI.min ((m.Snapshots.length : Int) - 1) (m.Cursor + 1) }) with
        | none => none
        | some m => some (m, [])
      else some (m, []) := by
  rfl

theorem handleMouse_left_table (env : Env) (m : UIState) (X Y : Int)
    (hx : X < tableWidthOf env m) :
    handleMouse env m .MouseLeft X Y =
      if Y ≥ 1 ∧ Y ≤ 2 then
        if X - 3 < 0 then some (m, [])
        else headerClick m (X - 3) columnSpecs 0
      else if Y ≥ 3 ∧ Y < m.TermHeight - 4 then
        if m.Offset + (Y - 3) < (m.Snapshots.length : Int) then
          match setActionPreview (ensureCursorVisible
            { m with FocusedElement := "table", Cursor := m.Offset + (Y - 3) }) with
          | none => none
          | some m => some (m, [])
        else some ({ m with FocusedElement := "table" }, [])
      else some (m, []) := by
  show (if X < tableWidthOf env m then _ else _) = _
  rw [if_pos hx]

theorem handleMouse_left_panel (env : Env) (m : UIState) (X Y : Int)
    (hx : ¬ X < tableWidthOf env m) :
    handleMouse env m .MouseLeft X Y =
      match getButtonYPositions m with
      | none => none
      | some (restoreY, deleteY, statusY) =>
        if X ≥ tableWidthOf env m + 2 ∧ X ≤ tableWidthOf env m + 2 + 25 then
          if Y ≥ restoreY ∧ Y < restoreY + 3 then
            dispatchAction m (some "restore") .ActionRestore executingApply (fun m =>
              if Y ≥ deleteY ∧ Y < deleteY + 3 then
                dispatchAction m (some "delete") .ActionDelete executingDelete (fun m =>
                  if Y ≥ statusY ∧ Y < statusY + 3 then
                    dispatchAction m (some "status") .ActionStatus fetchingStatus
                      (fun m => some (m, []))
                  else some (m, []))
              else
                if Y ≥ statusY ∧ Y < statusY + 3 then
                  dispatchAction m (some "status") .ActionStatus fetchingStatus
                    (fun m => some (m, []))
                else some (m, []))
          else
            if Y ≥ deleteY ∧ Y < deleteY + 3 then
              dispatchAction m (some "delete") .ActionDelete executingDelete (fun m =>
                if Y ≥ statusY ∧ Y < statusY + 3 then
                  dispatchAction m (some "status") .ActionStatus fetchingStatus
                    (fun m => some (m, []))
                else some (m, []))
            else
              if Y ≥ statusY ∧ Y < statusY + 3 then
                dispatchAction m (some "status") .ActionStatus fetchingStatus
                  (fun m => some (m, []))
              else some (m, [])
        else some (m, []) := by
  show (if X < tableWidthOf env m then _ else _) = _
  rw [if_neg hx]

theorem quiet_guarded (m : UIState) : Guarded m m ([] : Cmd) :=
  Or.inl ⟨rfl, rfl⟩

theorem move_guarded (m m0 m2 : UIState)
    (hp : setActionPreview (ensureCursorVisible m0) = some m2)
    (h0 : m0.ActionInProgress = m.ActionInProgress) : Guarded m m2 ([] : Cmd) := by
  have := setActionPreview_aip _ _ hp
  rw [ensureCursorVisible_aip, h0] at this
  exact Or.inl ⟨rfl, this⟩

theorem statusClick_guarded (m m1 : UIState) (cmd : Cmd) (c : Prop) [Decidable c]
    (h : (if c then dispatchAction m (some "status") .ActionStatus fetchingStatus
          (fun m => some (m, []))
        else some (m, [])) = some (m1, cmd)) : Guarded m m1 cmd := by
  split_ifs at h
  · exact dispatchAction_guarded _ _ _ _ _ [] _ rfl h
  · cases h
    exact quiet_guarded m

theorem deleteClick_guarded (m m1 : UIState) (cmd : Cmd) (c d : Prop) [Decidable c]
    [Decidable d]
    (h : (if d then
          dispatchAction m (some "delete") .ActionDelete executingDelete (fun m =>
            if c then dispatchAction m (some "status") .ActionStatus fetchingStatus
              (fun m => some (m, []))
            else some (m, []))
        else
          if c then dispatchAction m (some "status") .ActionStatus fetchingStatus
            (fun m => some (m, []))
          else some (m, [])) = some (m1, cmd)) : Guarded m m1 cmd := by
  by_cases hd : d
  · rw [if_pos hd] at h
    rcases dispatchAction_cases _ _ _ _ _ _ _ h with h1 | ⟨a, b, e⟩
    · exact statusClick_guarded m m1 cmd c h1
    · exact Or.inr ⟨e, a, b⟩
  · rw [if_neg hd] at h
    exact statusClick_guarded m m1 cmd c h

theorem handleMouse_wheel_guarded (env : Env) (m m1 : UIState) (X Y : Int) (cmd : Cmd) :
    (handleMouse env m .MouseWheelUp X Y = some (m1, cmd) → Guarded m m1 cmd) ∧
    (handleMouse env m .MouseWheelDown X Y = some (m1, cmd) → Guarded m m1 cmd) := by
  constructor
  · intro h
    rw [handleMouse_wheelUp] at h
    split_ifs at h
    · split at h
      · cases h
      · rename_i m2 hp
        cases h
        exact move_guarded m _ _ hp rfl
    · cases h
      exact quiet_guarded m
  · intro h
    rw [handleMouse_wheelDown] at h
    split_ifs at h
    · split at h
      · cases h
      · rename_i m2 hp
        cases h
        exact move_guarded m _ _ hp rfl
    · cases h
      exact quiet_guarded m

theorem handleMouse_left_guarded (env : Env) (m m1 : UIState) (X Y : Int) (cmd : Cmd)
    (h : handleMouse env m .MouseLeft X Y = some (m1, cmd)) : Guarded m m1 cmd := by
  by_cases hx : X < tableWidthOf env m
  · rw [handleMouse_left_table env m X Y hx] at h
    by_cases hy : Y ≥ 1 ∧ Y ≤ 2
    · rw [if_pos hy] at h
      split_ifs at h
      · cases h
        exact quiet_guarded m
      · exact headerClick_aip _ _ _ _ _ _ h
    rw [if_neg hy] at h
    split_ifs at h
    · split at h
      · cases h
      · rename_i m2 hp
        cases h
        exact move_guarded m _ _ hp rfl
    · cases h
      exact Or.inl ⟨rfl, rfl⟩
    · cases h
      exact quiet_guarded m
  · rw [handleMouse_left_panel env m X Y hx] at h
    split at h
    · cases h
    · rename_i restoreY deleteY statusY hpos
      by_cases hxx : X ≥ tableWidthOf env m + 2 ∧ X ≤ tableWidthOf env m + 2 + 25
      · rw [if_pos hxx] at h
        by_cases hr : Y ≥ restoreY ∧ Y < restoreY + 3
        · rw [if_pos hr] at h
          rcases dispatchAction_cases _ _ _ _ _ _ _ h with h1 | ⟨a, b, e⟩
          · exact deleteClick_guarded m m1 cmd _ _ h1
          · exact Or.inr ⟨e, a, b⟩
        · rw [if_neg hr] at h
          exact deleteClick_guarded m m1 cmd _ _ h
      · rw [if_neg hxx] at h
        cases h
        exact quiet_guarded m

theorem handleMouse_guarded (env : Env) (m m1 : UIState) (t : MouseEventType) (X Y : Int)
    (cmd : Cmd) (h : handleMouse env m t X Y = some (m1, cmd)) : Guarded m m1 cmd := by
  cases t
  case MouseWheelUp => exact (handleMouse_wheel_guarded env m m1 X Y cmd).1 h
  case MouseWheelDown => exact (handleMouse_wheel_guarded env m m1 X Y cmd).2 h
  case MouseLeft => exact handleMouse_left_guarded env m m1 X Y cmd h
  all_goals
    have h1 : some (m, ([] : Cmd)) = some (m1, cmd) := h
    cases h1
    exact quiet_guarded m

theorem handleTick_guarded (m m1 : UIState) (cmd : Cmd) (h : handleTick m = some (m1, cmd)) :
    Guarded m m1 cmd := by
  unfold handleTick at h
  split_ifs at h
  · cases h
    exact quiet_guarded m
  · simp only at h
    split at h
    · cases h
    · cases h
      exact Or.inl ⟨rfl, rfl⟩

theorem handleRefreshTrigger_guarded (m m1 : UIState) (cmd : Cmd)
    (h : handleRefreshTrigger m = some (m1, cmd)) : Guarded m m1 cmd := by
  unfold handleRefreshTrigger at h
  split_ifs at h
  · cases h
    exact quiet_guarded m
  · cases h
    exact Or.inl ⟨rfl, rfl⟩

theorem handleRefreshResult_guarded (env : Env) (sample : List Snapshot) (m m1 : UIState)
    (snapshots : List Snapshot) (err : Option String) (cmd : Cmd)
    (h : handleRefreshResult env sample m snapshots err = some (m1, cmd)) :
    Guarded m m1 cmd := by
  unfold handleRefreshResult at h
  cases err with
  | some e =>
    simp only [Option.some.injEq, Prod.mk.injEq] at h
    obtain ⟨rfl, rfl⟩ := h
    exact Or.inl ⟨rfl, rfl⟩
  | none =>
    simp only at h
    split at h
    · cases h
    · rename_i m2 hp
      cases h
      have := setActionPreview_aip _ _ hp
      refine Or.inl ⟨rfl, ?_⟩
      rw [this]
      simp only [sortSnapshots]
      split_ifs <;> rfl

theorem handleActionResult_clears (m : UIState) (msg : ActionResult) :
    ∃ m1 cmd, handleActionResult m msg = some (m1, cmd) ∧ m1.ActionInProgress = false ∧
      countActions cmd = 0 := by
  unfold handleActionResult
  cases msg.Kind <;> simp only <;> first
    | exact ⟨_, _, rfl, rfl, rfl⟩
    | (split_ifs <;> exact ⟨_, _, rfl, rfl, rfl⟩)

theorem Update_guarded (env : Env) (sample : List Snapshot) (m m1 : UIState) (msg : Msg)
    (cmd : Cmd) (hmsg : ∀ r, msg ≠ .ActionResultMsg r)
    (h : Update env sample m msg = some (m1, cmd)) : Guarded m m1 cmd := by
  cases msg with
  | WindowSizeMsg width height =>
    simp only [Update, Option.some.injEq, Prod.mk.injEq] at h
    obtain ⟨rfl, rfl⟩ := h
    refine Or.inl ⟨rfl, ?_⟩
    rw [ensureCursorVisible_aip]
  | KeyMsg key => exact handleKey_guarded _ _ _ _ h
  | MouseMsg t x y => exact handleMouse_guarded _ _ _ _ _ _ _ h
  | TickMsg => exact handleTick_guarded _ _ _ h
  | RefreshTriggerMsg => exact handleRefreshTrigger_guarded _ _ _ h
  | RefreshResultMsg snapshots err => exact handleRefreshResult_guarded _ _ _ _ _ _ _ h
  | ActionResultMsg r => exact absurd rfl (hmsg r)
  | Other =>
    simp only [Update, Option.some.injEq, Prod.mk.injEq] at h
    obtain ⟨rfl, rfl⟩ := h
    exact quiet_guarded m

theorem World.step_some (env : Env) (w w1 : World) (msg : Msg)
    (h : World.step env w msg = some w1) :
    ¬ (msg.isActionResult ∧ w.inFlight = 0) ∧
    ∃ m1 cmd, Update env w.sample w.m msg = some (m1, cmd) ∧ w1.m = m1 ∧
      w1.inFlight = w.inFlight - (if msg.isActionResult then 1 else 0) + countActions cmd := by
  unfold World.step at h
  by_cases hd : msg.isActionResult ∧ w.inFlight = 0
  · rw [if_pos hd] at h
    cases h
  · rw [if_neg hd] at h
    refine ⟨hd, ?_⟩
    split at h
    · cases h
    · rename_i m1 cmd hu
      cases h
      exact ⟨m1, cmd, hu, rfl, rfl⟩

theorem World.step_balanced (env : Env) (w w1 : World) (msg : Msg) (hb : w.Balanced)
    (h : World.step env w msg = some w1) : w1.Balanced := by
  obtain ⟨hd, m1, cmd, hu, hm, hf⟩ := World.step_some env w w1 msg h
  unfold World.Balanced at hb ⊢
  rw [hm, hf]
  by_cases hr : msg.isActionResult = true
  · obtain ⟨r, rfl⟩ : ∃ r, msg = .ActionResultMsg r := by
      cases msg <;> first | exact ⟨_, rfl⟩ | cases hr
    obtain ⟨m2, cmd2, hu2, ha, hc⟩ := handleActionResult_clears w.m r
    have hu3 : handleActionResult w.m r = some (m1, cmd) := hu
    rw [hu2] at hu3
    cases hu3
    have hpos : w.inFlight ≠ 0 := fun h0 => hd ⟨rfl, h0⟩
    rw [ha, hc, if_pos hr]
    split_ifs at hb <;> simp_all
  · have hne : ∀ r, msg ≠ .ActionResultMsg r := by
      intro r hr2
      subst hr2
      exact hr rfl
    rw [if_neg hr]
    rcases Update_guarded env w.sample w.m m1 msg cmd hne hu with ⟨hc, ha⟩ | ⟨hc, ha0, ha1⟩
    · rw [hc, ha, hb]
      simp
    · rw [ha0] at hb
      rw [hc, ha1, hb]
      simp

theorem World.run_balanced (w w1 : World) (events : List (Env × Msg)) (hb : w.Balanced)
    (h : World.run w events = some w1) : w1.Balanced := by
  induction events generalizing w with
  | nil =>
    simp only [World.run, Option.some.injEq] at h
    subst h
    exact hb
  | cons e rest ih =>
    obtain ⟨env, msg⟩ := e
    simp only [World.run] at h
    split at h
    · cases h
    · rename_i w2 hs
      exact ih w2 (World.step_balanced env w w2 msg hb hs) h

/-! ## Lemmas: `executeActionCmd` and the preview -/

theorem join_two (a b sep : String) : join [a, b] sep = a ++ sep ++ b := by
  simp [join, String.intercalate, String.intercalate.go]

theorem label_join (label a x full : String) (h : label ++ (a ++ " ") = full) :
    label ++ join [a, x] " " = full ++ x := by
  rw [join_two, ← String.append_assoc, h]

theorem previewText_eq (snap : Snapshot) :
    previewText snap =
      join
        [ "Apply: sudo snapper " ++ join ["rollback", decimal snap.Number] " ",
          "Delete: sudo snapper " ++ join ["delete", decimal snap.Number] " ",
          "Status: sudo snapper " ++
            join ["status", decimal (computeStatusStart snap) ++ ".." ++ decimal snap.Number] " ",
          previewFooter ] "\n" := by
  rw [label_join "Apply: sudo snapper " "rollback" _ "Apply: sudo snapper rollback " (by decide),
    label_join "Delete: sudo snapper " "delete" _ "Delete: sudo snapper delete " (by decide),
    label_join "Status: sudo snapper " "status" _ "Status: sudo snapper status " (by decide)]
  simp only [previewText, String.append_assoc]

theorem foldl_append_map {α β : Type} (f : α → β) (l : List α) (acc : List β) :
    l.foldl (fun args t => args ++ [f t]) acc = acc ++ l.map f := by
  induction l generalizing acc with
  | nil => simp
  | cons a l ih => simp [List.foldl_cons, ih]

theorem executeActionCmd_delete_invoked (sh : Shell) (snap : Snapshot) (selected : Finset Int)
    (allSnaps : List Snapshot) :
    (executeActionCmd sh .ActionDelete snap selected allSnaps).invoked =
      [("delete" :: (resolveTargets snap selected allSnaps).map (fun t => decimal t.Number))] := by
  simp only [executeActionCmd, foldl_append_map]
  simp only [reduceCtorEq, or_self, and_false, if_false, if_true]
  cases hsh : sh (["delete"] ++ List.map (fun t => decimal t.Number)
      (resolveTargets snap selected allSnaps)) with
  | mk output err =>
    cases err <;> simp

theorem executeActionCmd_single_invoked (sh : Shell) (snap t : Snapshot) (selected : Finset Int)
    (allSnaps : List Snapshot) (ht : resolveTargets snap selected allSnaps = [t]) :
    (executeActionCmd sh .ActionRestore snap selected allSnaps).invoked =
      [["rollback", decimal t.Number]] ∧
    (executeActionCmd sh .ActionStatus snap selected allSnaps).invoked =
      [["status", decimal (computeStatusStart t) ++ ".." ++ decimal t.Number]] := by
  constructor
  · simp only [executeActionCmd, ht]
    simp [sliceAt]
  · simp only [executeActionCmd, ht]
    simp [sliceAt]

theorem sliceAt_some_bounds {α : Type} (l : List α) (i : Int) (a : α)
    (h : sliceAt l i = some a) : 0 ≤ i ∧ i < l.length := by
  unfold sliceAt at h
  by_cases hneg : i < 0
  · rw [if_pos hneg] at h
    cases h
  · rw [if_neg hneg] at h
    obtain ⟨hlt, _⟩ := List.getElem?_eq_some.mp h
    omega

theorem dispatchAction_accepts (m : UIState) (snap : Snapshot) (kind : ActionKind)
    (message : String) (otherwise : UIState → Option (UIState × Cmd))
    (hb : m.ActionInProgress = false) (hs : sliceAt m.Snapshots m.Cursor = some snap) :
    dispatchAction m none kind message otherwise =
      some ({ m with ActionInProgress := true, ActionMessage := message },
        [Op.executeAction kind snap m.SelectedSnapshots m.Snapshots]) := by
  obtain ⟨h0, h1⟩ := sliceAt_some_bounds _ _ _ hs
  obtain ⟨s1, hc1, hs1⟩ := currentSnapshot_inrange m h0 h1
  obtain ⟨s2, hc2, hs2⟩ := currentSnapshot_inrange
    { m with ActionInProgress := true, ActionMessage := message } h0 h1
  rw [hs] at hs1
  cases hs1
  have hs2' : sliceAt m.Snapshots m.Cursor = some s2 := hs2
  rw [hs] at hs2'
  cases hs2'
  simp only [dispatchAction, hb, hc1, hc2]
  rfl

theorem foldl_append_if {α : Type} (p : α → Prop) [DecidablePred p] (l acc : List α) :
    l.foldl (fun targets s => if p s then targets ++ [s] else targets) acc =
      acc ++ l.filter (fun s => decide (p s)) := by
  induction l generalizing acc with
  | nil => simp
  | cons a l ih =>
    by_cases h : p a
    · simp [List.foldl_cons, ih, h, List.filter_cons]
    · simp [List.foldl_cons, ih, h, List.filter_cons]

theorem resolveTargets_empty (snap : Snapshot) (allSnaps : List Snapshot) :
    resolveTargets snap ∅ allSnaps = [snap] := by
  simp [resolveTargets]

theorem resolveTargets_nonempty (snap : Snapshot) (selected : Finset Int)
    (allSnaps : List Snapshot) (h : selected.Nonempty) :
    resolveTargets snap selected allSnaps =
      allSnaps.filter (fun s => decide (s.Number ∈ selected)) := by
  have hc : selected.card > 0 := Finset.card_pos.mpr h
  simp only [resolveTargets, hc, if_true]
  rw [foldl_append_if (fun s : Snapshot => s.Number ∈ selected)]
  simp

theorem dispatchAction_busy (m : UIState) (focus : Option String) (kind : ActionKind)
    (message : String) (otherwise : UIState → Option (UIState × Cmd))
    (h : m.ActionInProgress = true) :
    dispatchAction m focus kind message otherwise = otherwise m := by
  simp [dispatchAction, h]

theorem handleKey_pgdown (m : UIState) :
    handleKey m keyPgDown = some (m, []) := by
  have e1 : ¬ (keyPgDown = "q" ∨ keyPgDown = "ctrl+c") := by decide
  have e2 : ¬ keyPgDown = "tab" := by decide
  have e3 : handleFocusedKey m keyPgDown = some (m, []) := by
    unfold handleFocusedKey
    have a1 : ¬ keyPgDown = "r" := by decide
    have a2 : ¬ (keyPgDown = "j" ∨ keyPgDown = "down") := by decide
    have a3 : ¬ (keyPgDown = "k" ∨ keyPgDown = "up") := by decide
    have a4 : ¬ (keyPgDown = "pgdn" ∨ keyPgDown = "pagedown") := by decide
    have a5 : ¬ (keyPgDown = "pgup" ∨ keyPgDown = "pageup") := by decide
    have a6 : ¬ keyPgDown = "enter" := by decide
    have a7 : ¬ keyPgDown = " " := by decide
    have a8 : ¬ keyPgDown ∈ ["1", "2", "3", "4", "5", "6", "7", "8", "9", "0"] := by decide
    simp only [if_neg a1, if_neg a2, if_neg a3, if_neg a4, if_neg a5, if_neg a6, if_neg a7,
      if_neg a8]
    split_ifs <;> rfl
  unfold handleKey
  rw [if_neg e1, if_neg e2, e3]
  have b1 : ¬ (keyPgDown = "A" ∨ keyPgDown = "a") := by decide
  have b2 : ¬ (keyPgDown = "D" ∨ keyPgDown = "d") := by decide
  have b3 : ¬ keyPgDown = "s" := by decide
  simp only [if_neg b1, if_neg b2, if_neg b3]
  split_ifs <;> rfl

/-! ## The claims -/

/-- Claim C1: in a state with `ActionInProgress = true`, every action-dispatch
input leaves the state unchanged and schedules nothing: the keys `A`, `a`, `D`,
`d`, `s` with focus on the table, `enter` with focus on a button, and a left
click inside the hit rectangle of a button (columns `tableWidth+2 .. tableWidth+27`,
three lines from the line `getButtonYPositions` gives for the button). -/
theorem dispatch_while_busy_is_noop (env : Env) (m : UIState)
    (h : m.ActionInProgress = true) :
    (m.FocusedElement = "table" →
      ∀ key, key ∈ ["A", "a", "D", "d", "s"] → handleKey m key = some (m, [])) ∧
    (m.FocusedElement ∈ ["restore", "delete", "status"] →
      handleKey m "enter" = some (m, [])) ∧
    (∀ X Y restoreY deleteY statusY : Int,
      getButtonYPositions m = some (restoreY, deleteY, statusY) →
      tableWidthOf env m + 2 ≤ X → X ≤ tableWidthOf env m + 2 + 25 →
      (restoreY ≤ Y ∧ Y < restoreY + 3) ∨ (deleteY ≤ Y ∧ Y < deleteY + 3) ∨
        (statusY ≤ Y ∧ Y < statusY + 3) →
      handleMouse env m .MouseLeft X Y = some (m, [])) := by
  refine ⟨?_, ?_, ?_⟩
  · intro hf key hkey
    simp only [List.mem_cons, List.mem_singleton, List.not_mem_nil, or_false] at hkey
    rcases hkey with rfl | rfl | rfl | rfl | rfl <;>
      simp [handleKey, handleFocusedKey, hf, dispatchAction_busy, h]
  · intro hf
    simp only [List.mem_cons, List.mem_singleton, List.not_mem_nil, or_false] at hf
    rcases hf with hf | hf | hf <;>
      simp [handleKey, handleFocusedKey, hf, dispatchAction_busy, h]
  · intro X Y restoreY deleteY statusY hpos hx0 hx1 _
    have hx : ¬ X < tableWidthOf env m := by omega
    rw [handleMouse_left_panel env m X Y hx]
    simp only [hpos, dispatchAction_busy, h]
    split_ifs <;> rfl

/-- Witness of C1 on the initial model with an action in progress: the key `d`,
`enter` on the delete button, and a click on the restore button (terminal 100
columns wide, detail panel open: the button starts on line 20). -/
theorem dispatch_while_busy_is_noop_witness :
    handleKey { initialModel with ActionInProgress := true } "d" =
      some ({ initialModel with ActionInProgress := true }, []) ∧
    handleKey { initialModel with ActionInProgress := true, FocusedElement := "delete" } "enter" =
      some ({ initialModel with ActionInProgress := true, FocusedElement := "delete" }, []) ∧
    handleMouse plainEnv { initialModel with ActionInProgress := true, TermWidth := 100 }
        .MouseLeft 70 20 =
      some ({ initialModel with ActionInProgress := true, TermWidth := 100 }, []) :=
  ⟨(dispatch_while_busy_is_noop plainEnv { initialModel with ActionInProgress := true } rfl).1
      rfl "d" (by decide),
   (dispatch_while_busy_is_noop plainEnv
      { initialModel with ActionInProgress := true, FocusedElement := "delete" } rfl).2.1
      (by decide),
   (dispatch_while_busy_is_noop plainEnv
      { initialModel with ActionInProgress := true, TermWidth := 100 } rfl).2.2
      70 20 20 24 28 (by decide) (by decide) (by decide) (Or.inl (by decide))⟩

/-- Claim C2: along every event sequence from the initial state in which an
action-completed event is only delivered for an action in flight, at most one
action is in flight, and the flag `ActionInProgress` is set exactly when one is;
in every state so reached a transition schedules an action only if the flag is
clear, then schedules exactly one and sets the flag; no event other than
action-completed clears the flag; and every action-completed event is handled
and clears it, whatever its kind, output and error. -/
theorem at_most_one_action_in_flight (events : List (Env × Msg)) (w : World)
    (h : World.run World.init events = some w) :
    w.inFlight ≤ 1 ∧ (w.inFlight = 1 ↔ w.m.ActionInProgress = true) ∧
    (∀ (env : Env) (msg : Msg) (m1 : UIState) (cmd : Cmd),
      Update env w.sample w.m msg = some (m1, cmd) →
      (0 < countActions cmd →
        w.m.ActionInProgress = false ∧ m1.ActionInProgress = true ∧ countActions cmd = 1) ∧
      ((∀ r, msg ≠ .ActionResultMsg r) → w.m.ActionInProgress = true →
        m1.ActionInProgress = true ∧ countActions cmd = 0)) ∧
    (∀ (env : Env) (r : ActionResult),
      ∃ m1 cmd, Update env w.sample w.m (.ActionResultMsg r) = some (m1, cmd) ∧
        m1.ActionInProgress = false ∧ countActions cmd = 0) := by
  have hb : w.Balanced := World.run_balanced World.init w events rfl h
  unfold World.Balanced at hb
  refine ⟨?_, ?_, ?_, ?_⟩
  · rw [hb]
    split_ifs <;> omega
  · rw [hb]
    split_ifs with ha <;> simp [ha]
  · intro env msg m1 cmd hu
    constructor
    · intro hpos
      by_cases hr : ∃ r, msg = .ActionResultMsg r
      · obtain ⟨r, rfl⟩ := hr
        obtain ⟨m2, cmd2, hu2, _, hc⟩ := handleActionResult_clears w.m r
        have hu3 : handleActionResult w.m r = some (m1, cmd) := hu
        rw [hu2] at hu3
        cases hu3
        omega
      · have hne : ∀ r, msg ≠ .ActionResultMsg r := fun r hr2 => hr ⟨r, hr2⟩
        rcases Update_guarded env w.sample w.m m1 msg cmd hne hu with ⟨hc, _⟩ | ⟨hc, ha0, ha1⟩
        · omega
        · exact ⟨ha0, ha1, hc⟩
    · intro hne ha
      rcases Update_guarded env w.sample w.m m1 msg cmd hne hu with ⟨hc, ha1⟩ | ⟨_, ha0, _⟩
      · exact ⟨by rw [ha1]; exact ha, hc⟩
      · rw [ha] at ha0
        cases ha0
  · intro env r
    exact handleActionResult_clears w.m r

/-- Witness of C2: restore is dispatched, a second dispatch (delete) is refused
while it runs, the completion arrives, and delete is dispatched again. -/
theorem at_most_one_action_in_flight_witness :
    ∃ w, World.run World.init
        [ (plainEnv, .KeyMsg "a"), (plainEnv, .KeyMsg "d"),
          (plainEnv, .ActionResultMsg ⟨.ActionRestore, sample0, "", none⟩),
          (plainEnv, .KeyMsg "d") ] = some w ∧
      w.inFlight ≤ 1 ∧ (w.inFlight = 1 ↔ w.m.ActionInProgress = true) :=
  ⟨_, rfl,
    (at_most_one_action_in_flight
      [ (plainEnv, .KeyMsg "a"), (plainEnv, .KeyMsg "d"),
        (plainEnv, .ActionResultMsg ⟨.ActionRestore, sample0, "", none⟩),
        (plainEnv, .KeyMsg "d") ] _ rfl).1,
    (at_most_one_action_in_flight
      [ (plainEnv, .KeyMsg "a"), (plainEnv, .KeyMsg "d"),
        (plainEnv, .ActionResultMsg ⟨.ActionRestore, sample0, "", none⟩),
        (plainEnv, .KeyMsg "d") ] _ rfl).2.1⟩

/-- Claim C3: for kind restore or status, when the target list has two or more
snapshots, `executeActionCmd` starts no external command and returns a failed
completion: an error and the output `"Please select only one snapshot."`. -/
theorem executeActionCmd_rejects_multiple (sh : Shell) (kind : ActionKind) (snap : Snapshot)
    (selected : Finset Int) (allSnaps : List Snapshot)
    (hk : kind = .ActionRestore ∨ kind = .ActionStatus)
    (h : 2 ≤ (resolveTargets snap selected allSnaps).length) :
    (executeActionCmd sh kind snap selected allSnaps).invoked = [] ∧
    ∃ r, (executeActionCmd sh kind snap selected allSnaps).result = some r ∧
      r.Kind = kind ∧ r.Err ≠ none ∧ r.Output = "Please select only one snapshot." := by
  have h1 : (resolveTargets snap selected allSnaps).length > 1 := h
  simp only [executeActionCmd, h1, hk, and_self, if_true]
  simp

/-- Witness of C3: restore and status with the selection `{17, 18}` on the
sequence 0, 17, 18, whatever the external tool would answer. -/
theorem executeActionCmd_rejects_multiple_witness :
    (∀ sh, (executeActionCmd sh .ActionRestore sample0 {17, 18} sampleSnapshots).invoked = []) ∧
    (∀ sh, ∃ r, (executeActionCmd sh .ActionStatus sample0 {17, 18} sampleSnapshots).result
        = some r ∧
      r.Kind = .ActionStatus ∧ r.Err ≠ none ∧ r.Output = "Please select only one snapshot.") :=
  ⟨fun sh => (executeActionCmd_rejects_multiple sh .ActionRestore sample0 {17, 18}
      sampleSnapshots (Or.inl rfl) (by decide)).1,
   fun sh => (executeActionCmd_rejects_multiple sh .ActionStatus sample0 {17, 18}
      sampleSnapshots (Or.inr rfl) (by decide)).2⟩

/-- Claim C4: the argument list `executeActionCmd` passes to the external tool:
restore on the single target `t` gives `rollback <t.Number>`, status on the single
target `t` gives `status <computeStatusStart t>..<t.Number>`, and delete gives, in
one invocation, `delete` followed by the numbers of all targets in target-list
order; the selection `{17, 18}` on the sequence 0, 17, 18 gives `delete 17 18`. -/
theorem executeActionCmd_args (sh : Shell) (snap : Snapshot) (selected : Finset Int)
    (allSnaps : List Snapshot) :
    (∀ t, resolveTargets snap selected allSnaps = [t] →
      (executeActionCmd sh .ActionRestore snap selected allSnaps).invoked =
        [["rollback", decimal t.Number]] ∧
      (executeActionCmd sh .ActionStatus snap selected allSnaps).invoked =
        [["status", decimal (computeStatusStart t) ++ ".." ++ decimal t.Number]]) ∧
    (executeActionCmd sh .ActionDelete snap selected allSnaps).invoked =
      [("delete" :: (resolveTargets snap selected allSnaps).map (fun t => decimal t.Number))] ∧
    (executeActionCmd sh .ActionDelete sample0 {17, 18} [sample0, sample17, sample18]).invoked =
      [["delete", "17", "18"]] := by
  refine ⟨?_, executeActionCmd_delete_invoked sh snap selected allSnaps, ?_⟩
  · intro t ht
    exact executeActionCmd_single_invoked sh snap t selected allSnaps ht
  · rw [executeActionCmd_delete_invoked]
    decide

/-- Witness of C4: with an empty selection and the cursor on snapshot 17 (whose
pre-number is 16) the arguments are `rollback 17` and `status 16..17`. -/
theorem executeActionCmd_args_witness :
    (executeActionCmd quietShell .ActionRestore sample17 ∅ sampleSnapshots).invoked =
      [["rollback", "17"]] ∧
    (executeActionCmd quietShell .ActionStatus sample17 ∅ sampleSnapshots).invoked =
      [["status", "16..17"]] :=
  (executeActionCmd_args quietShell sample17 ∅ sampleSnapshots).1 sample17 (by decide)

/-- Claim C5: `computeStatusStart` returns the pre-number when it is present,
otherwise `Number - 1` when `Number > 0`, otherwise 0; it gives 16 for snapshot 17
with pre-number 16, 17 for snapshot 18 without pre-number, and 0 for snapshot 0. -/
theorem computeStatusStart_cases (snap : Snapshot) :
    (∀ p : Int, snap.PreNumber = some p → computeStatusStart snap = p) ∧
    (snap.PreNumber = none → snap.Number > 0 → computeStatusStart snap = snap.Number - 1) ∧
    (snap.PreNumber = none → ¬ snap.Number > 0 → computeStatusStart snap = 0) ∧
    computeStatusStart sample17 = 16 ∧
    computeStatusStart { sample18 with PreNumber := none } = 17 ∧
    computeStatusStart sample0 = 0 := by
  refine ⟨?_, ?_, ?_, by decide, by decide, by decide⟩
  · intro p hp
    simp [computeStatusStart, hp]
  · intro hp hn
    simp [computeStatusStart, hp, hn]
  · intro hp hn
    simp [computeStatusStart, hp, hn]

/-- Witness of C5 on the three snapshots of the scenario. -/
theorem computeStatusStart_cases_witness :
    computeStatusStart sample17 = 16 ∧ computeStatusStart sample0 = 0 ∧
    computeStatusStart { sample18 with PreNumber := none } = 18 - 1 :=
  ⟨(computeStatusStart_cases sample17).1 16 rfl,
   (computeStatusStart_cases sample0).2.2.1 rfl (by decide),
   (computeStatusStart_cases { sample18 with PreNumber := none }).2.1 rfl (by decide)⟩

/-- Claim C6: the target list of `executeActionCmd` is the one cursor snapshot
when the selection set is empty; when it is not empty it is the snapshots of the
sequence whose number is in the set, in sequence order, whatever the cursor
snapshot is. -/
theorem resolveTargets_spec (snap : Snapshot) (selected : Finset Int) (allSnaps : List Snapshot) :
    (selected = ∅ → resolveTargets snap selected allSnaps = [snap]) ∧
    (selected ≠ ∅ →
      resolveTargets snap selected allSnaps =
        allSnaps.filter (fun s => decide (s.Number ∈ selected)) ∧
      (∀ s, s ∈ resolveTargets snap selected allSnaps ↔ s ∈ allSnaps ∧ s.Number ∈ selected) ∧
      List.Sublist (resolveTargets snap selected allSnaps) allSnaps ∧
      ∀ other : Snapshot,
        resolveTargets other selected allSnaps = resolveTargets snap selected allSnaps) := by
  constructor
  · intro h
    subst h
    exact resolveTargets_empty snap allSnaps
  · intro h
    have hne : selected.Nonempty := Finset.nonempty_iff_ne_empty.mpr h
    refine ⟨resolveTargets_nonempty snap selected allSnaps hne, ?_, ?_, ?_⟩
    · intro s
      rw [resolveTargets_nonempty snap selected allSnaps hne]
      simp [List.mem_filter]
    · rw [resolveTargets_nonempty snap selected allSnaps hne]
      exact List.filter_sublist _
    · intro other
      rw [resolveTargets_nonempty snap selected allSnaps hne,
        resolveTargets_nonempty other selected allSnaps hne]

/-- Witness of C6 on the sequence 0, 17, 18 with the cursor on snapshot 0: the
empty selection and the selection `{18, 17}`. -/
theorem resolveTargets_spec_witness :
    resolveTargets sample0 ∅ sampleSnapshots = [sample0] ∧
    resolveTargets sample0 {18, 17} sampleSnapshots = [sample17, sample18] :=
  ⟨(resolveTargets_spec sample0 ∅ sampleSnapshots).1 rfl,
   ((resolveTargets_spec sample0 {18, 17} sampleSnapshots).2 (by decide)).1.trans (by decide)⟩

/-- Claim C7 (the code at the failing input): snapshot 0 is selected on the
placeholder list, the first refresh then delivers the sequence 17, 18, so the
selection `{0}` is stale; restore and status dispatched from that state start
no command and panic on `targets[0]`, and delete runs `snapper delete` without
a snapshot number. -/
theorem stale_selection_faults :
    ∃ w, World.run World.init
        [ (plainEnv, .KeyMsg " "),
          (plainEnv, .RefreshResultMsg [sample17, sample18] none) ] = some w ∧
      w.m.SelectedSnapshots = {0} ∧ w.m.Snapshots = [sample17, sample18] ∧
      (handleKey w.m "a").map (fun p => runActions quietShell p.2) = some [⟨[], none⟩] ∧
      (handleKey w.m "s").map (fun p => runActions quietShell p.2) = some [⟨[], none⟩] ∧
      (handleKey w.m "d").map (fun p => (runActions quietShell p.2).map (fun o => o.invoked)) =
        some [[["delete"]]] :=
  ⟨_, rfl, by decide, by decide, by decide, by decide, by decide⟩

/-- Claim C8 (the code at the failing input): after a refresh of the snapshots
0, 17, 18, the keys `j`, space and `k`, the cursor is on snapshot 0, the
selection is `{17}` and the action panel shows the preview of snapshot 0
(`rollback 0`, `delete 0`, `status 0..0`).  The keys `a`, `d` and `s` then pass
`rollback 17`, `delete 17` and `status 16..17` to the external tool. -/
theorem preview_differs_from_dispatch :
    ∃ w, World.run World.init
        [ (plainEnv, .RefreshResultMsg sampleSnapshots none),
          (plainEnv, .KeyMsg "j"),
          (plainEnv, .KeyMsg " "),
          (plainEnv, .KeyMsg "k") ] = some w ∧
      w.m.FocusedElement = "table" ∧ w.m.ActionInProgress = false ∧
      w.m.Snapshots = [sample0, sample17, sample18] ∧ w.m.Cursor = 0 ∧
      w.m.SelectedSnapshots = {17} ∧
      w.m.ActionMessage =
        join
          [ "Apply: sudo snapper rollback 0",
            "Delete: sudo snapper delete 0",
            "Status: sudo snapper status 0..0",
            previewFooter ] "\n" ∧
      (Update plainEnv w.sample w.m (.KeyMsg "a")).map
          (fun p => (runActions quietShell p.2).map (fun o => o.invoked)) =
        some [[["rollback", "17"]]] ∧
      (Update plainEnv w.sample w.m (.KeyMsg "d")).map
          (fun p => (runActions quietShell p.2).map (fun o => o.invoked)) =
        some [[["delete", "17"]]] ∧
      (Update plainEnv w.sample w.m (.KeyMsg "s")).map
          (fun p => (runActions quietShell p.2).map (fun o => o.invoked)) =
        some [[["status", "16..17"]]] :=
  ⟨_, rfl, by decide, by decide, by decide, by decide, by decide, rfl, by decide,
    by decide, by decide⟩

/-- Claim C9: for a sequence of `n ≥ 1` rows, a cursor with `0 ≤ cursor < n`, a
viewport height of at least 1 and any offset, `ensureCursorVisible` leaves the
cursor, the height and the sequence as they are and returns an offset with
`offset ≤ cursor ≤ offset + height - 1` and `0 ≤ offset ≤ max 0 (n - height)`;
for an empty sequence and cursor 0 it returns offset 0. -/
theorem ensureCursorVisible_window (m : UIState) :
    (1 ≤ m.Snapshots.length → 0 ≤ m.Cursor → m.Cursor < m.Snapshots.length →
      1 ≤ m.ViewportHeight →
      (ensureCursorVisible m).Offset ≤ m.Cursor ∧
      m.Cursor ≤ (ensureCursorVisible m).Offset + m.ViewportHeight - 1 ∧
      0 ≤ (ensureCursorVisible m).Offset ∧
      (ensureCursorVisible m).Offset ≤ max 0 ((m.Snapshots.length : Int) - m.ViewportHeight) ∧
      (ensureCursorVisible m).Cursor = m.Cursor ∧
      (ensureCursorVisible m).ViewportHeight = m.ViewportHeight ∧
      (ensureCursorVisible m).Snapshots = m.Snapshots) ∧
    (m.Snapshots.length = 0 → m.Cursor = 0 → (ensureCursorVisible m).Offset = 0) := by
  rw [ensureCursorVisible_eq]
  constructor
  · intro _ hc0 hc1 hv
    have hvh : heightOrFallback m.ViewportHeight = m.ViewportHeight := by
      unfold heightOrFallback
      split_ifs <;> omega
    have h := windowOffset_spec m.Cursor m.Offset m.ViewportHeight m.Snapshots.length hc0 hc1 hv
    simpa [hvh] using h
  · intro hn hc
    simp only [heightOrFallback, windowOffset, max_eq, hn, hc]
    split_ifs <;> omega

/-- Witness of C9: three rows, cursor on the last one, height 2, offset 7 gives
offset 1; no row, cursor 0, offset -20 and height 0 gives offset 0. -/
theorem ensureCursorVisible_window_witness :
    (ensureCursorVisible { initialModel with Cursor := 2, Offset := 7, ViewportHeight := 2 }).Offset
      ≤ 2 ∧
    (ensureCursorVisible { initialModel with Snapshots := [], Offset := -20 }).Offset = 0 :=
  ⟨((ensureCursorVisible_window
      { initialModel with Cursor := 2, Offset := 7, ViewportHeight := 2 }).1
      (by decide) (by decide) (by decide) (by decide)).1,
   (ensureCursorVisible_window { initialModel with Snapshots := [], Offset := -20 }).2
      rfl rfl⟩

/-- The cursor moves that the code handles keep the window: from a state with a
non-empty sequence, `0 ≤ cursor < len`, `offset ≥ 0` and a viewport height of at
least 1, each of the key texts `j`, `down`, `k`, `up`, `pgup`, `pageup`, `pgdn`
and `pagedown` (focus on the table), the wheel up and down, and a left click on
a table row is handled without fault, schedules nothing, and gives a state with
`0 ≤ cursor < len`, `offset ≤ cursor ≤ offset + height - 1` and
`0 ≤ offset ≤ max 0 (len - height)`. -/
theorem cursor_moves_keep_window (env : Env) (sample : List Snapshot) (m : UIState) (msg : Msg)
    (hn : 0 < m.Snapshots.length) (hc0 : 0 ≤ m.Cursor) (hc1 : m.Cursor < m.Snapshots.length)
    (ho : 0 ≤ m.Offset) (hv : 1 ≤ m.ViewportHeight)
    (hmsg :
      (m.FocusedElement = "table" ∧
        ∃ key, key ∈ ["j", "down", "k", "up", "pgup", "pageup", "pgdn", "pagedown"] ∧
          msg = .KeyMsg key) ∨
      (∃ X Y, msg = .MouseMsg .MouseWheelUp X Y) ∨
      (∃ X Y, msg = .MouseMsg .MouseWheelDown X Y) ∨
      (∃ X Y, msg = .MouseMsg .MouseLeft X Y ∧ X < tableWidthOf env m ∧
        3 ≤ Y ∧ Y < m.TermHeight - 4 ∧ m.Offset + (Y - 3) < m.Snapshots.length)) :
    ∃ m1, Update env sample m msg = some (m1, []) ∧
      0 ≤ m1.Cursor ∧ m1.Cursor < m1.Snapshots.length ∧
      m1.Offset ≤ m1.Cursor ∧ m1.Cursor ≤ m1.Offset + m1.ViewportHeight - 1 ∧
      0 ≤ m1.Offset ∧
      m1.Offset ≤ max 0 ((m1.Snapshots.length : Int) - m1.ViewportHeight) := by
  have hlen : (0 : Int) < m.Snapshots.length := by omega
  have hposlen : m.Snapshots.length > 0 := hn
  have fin : ∀ (c : Int) (m0 : UIState), 0 ≤ c → c < m.Snapshots.length →
      m0.Snapshots = m.Snapshots → m0.ViewportHeight = m.ViewportHeight →
      (∀ m1, setActionPreview (ensureCursorVisible { m0 with Cursor := c }) = some m1 →
        Update env sample m msg = some (m1, [])) →
      ∃ m1, Update env sample m msg = some (m1, []) ∧
        0 ≤ m1.Cursor ∧ m1.Cursor < m1.Snapshots.length ∧
        m1.Offset ≤ m1.Cursor ∧ m1.Cursor ≤ m1.Offset + m1.ViewportHeight - 1 ∧
        0 ≤ m1.Offset ∧
        m1.Offset ≤ max 0 ((m1.Snapshots.length : Int) - m1.ViewportHeight) := by
    intro c m0 h0 h1 hs hvh hupd
    obtain ⟨snap, off, hm1, a, b, c1, d⟩ :=
      move_cursor_window m0 c h0 (by rw [hs]; exact h1) (by rw [hvh]; exact hv)
    refine ⟨_, hupd _ hm1, ?_⟩
    simp only [hs, hvh] at a b c1 d ⊢
    exact ⟨h0, h1, a, b, c1, d⟩
  rcases hmsg with ⟨hf, key, hkey, rfl⟩ | ⟨X, Y, rfl⟩ | ⟨X, Y, rfl⟩ | ⟨X, Y, rfl, hx, hy0, hy1, hrow⟩
  · simp only [List.mem_cons, List.mem_singleton, List.not_mem_nil, or_false] at hkey
    have hdown : 0 ≤ Int.tmod (m.Cursor + 1) m.Snapshots.length ∧
        Int.tmod (m.Cursor + 1) m.Snapshots.length < m.Snapshots.length := by
      rw [Int.tmod_eq_emod (by omega) (by omega)]
      exact ⟨Int.emod_nonneg _ (by omega), Int.emod_lt_of_pos _ hlen⟩
    have hup : 0 ≤ Int.tmod (m.Cursor - 1 + m.Snapshots.length) m.Snapshots.length ∧
        Int.tmod (m.Cursor - 1 + m.Snapshots.length) m.Snapshots.length < m.Snapshots.length := by
      rw [Int.tmod_eq_emod (by omega) (by omega)]
      exact ⟨Int.emod_nonneg _ (by omega), Int.emod_lt_of_pos _ hlen⟩
    have hpgdn : 0 ≤ SnapperTUI.min (m.Cursor + m.ViewportHeight) ((m.Snapshots.length : Int) - 1) ∧
        SnapperTUI.min (m.Cursor + m.ViewportHeight) ((m.Snapshots.length : Int) - 1) <
          m.Snapshots.length := by
      rw [min_eq]
      omega
    have hpgup : 0 ≤ SnapperTUI.max 0 (m.Cursor - m.ViewportHeight) ∧
        SnapperTUI.max 0 (m.Cursor - m.ViewportHeight) < m.Snapshots.length := by
      rw [max_eq]
      omega
    have hfe : ∀ (c : Int) (m1 : UIState), 0 ≤ c → c < m.Snapshots.length →
        setActionPreview (ensureCursorVisible { m with Cursor := c }) = some m1 →
        m1.FocusedElement = "table" := by
      intro c m1 h0 h1 hm1
      obtain ⟨snap, off, hm2, _⟩ := move_cursor_window m c h0 h1 hv
      rw [hm2] at hm1
      cases hm1
      exact hf
    rcases hkey with rfl | rfl | rfl | rfl | rfl | rfl | rfl | rfl
    all_goals first
      | (refine fin _ m hdown.1 hdown.2 rfl rfl ?_
         intro m1 hm1
         have hfe1 := hfe _ m1 hdown.1 hdown.2 hm1
         simp only [hf] at hm1
         simp [Update, handleKey, handleFocusedKey, hf, hposlen, hm1, hfe1]
         done)
      | (refine fin _ m hup.1 hup.2 rfl rfl ?_
         intro m1 hm1
         have hfe1 := hfe _ m1 hup.1 hup.2 hm1
         simp only [hf] at hm1
         simp [Update, handleKey, handleFocusedKey, hf, hposlen, hm1, hfe1]
         done)
      | (refine fin _ m hpgup.1 hpgup.2 rfl rfl ?_
         intro m1 hm1
         have hfe1 := hfe _ m1 hpgup.1 hpgup.2 hm1
         simp only [hf] at hm1
         simp [Update, handleKey, handleFocusedKey, hf, hposlen, hm1, hfe1]
         done)
      | (refine fin _ m hpgdn.1 hpgdn.2 rfl rfl ?_
         intro m1 hm1
         have hfe1 := hfe _ m1 hpgdn.1 hpgdn.2 hm1
         simp only [hf] at hm1
         simp [Update, handleKey, handleFocusedKey, hf, hposlen, hm1, hfe1])
  · have hb : 0 ≤ SnapperTUI.max 0 (m.Cursor - 1) ∧
        SnapperTUI.max 0 (m.Cursor - 1) < m.Snapshots.length := by
      rw [max_eq]
      omega
    refine fin _ m hb.1 hb.2 rfl rfl ?_
    intro m1 hm1
    simp [Update, handleMouse, hposlen, hm1]
  · have hb : 0 ≤ SnapperTUI.min ((m.Snapshots.length : Int) - 1) (m.Cursor + 1) ∧
        SnapperTUI.min ((m.Snapshots.length : Int) - 1) (m.Cursor + 1) < m.Snapshots.length := by
      rw [min_eq]
      omega
    refine fin _ m hb.1 hb.2 rfl rfl ?_
    intro m1 hm1
    simp [Update, handleMouse, hposlen, hm1]
  · have hb : 0 ≤ m.Offset + (Y - 3) := by omega
    refine fin _ { m with FocusedElement := "table" } hb hrow rfl rfl ?_
    intro m1 hm1
    have hy : Y ≥ 3 ∧ Y < m.TermHeight - 4 := ⟨hy0, hy1⟩
    have hny : ¬ (Y ≥ 1 ∧ Y ≤ 2) := by omega
    simp [Update, handleMouse, hx, hy, hny, hrow, hm1]

/-- An instance of the handled moves: `k` on the first of three rows with a
viewport of two rows. -/
theorem cursor_moves_keep_window_witness :
    ∃ m1, Update plainEnv sampleSnapshots
        { initialModel with ViewportHeight := 2 } (.KeyMsg "k") = some (m1, []) ∧
      0 ≤ m1.Cursor ∧ m1.Cursor < m1.Snapshots.length ∧
      m1.Offset ≤ m1.Cursor ∧ m1.Cursor ≤ m1.Offset + m1.ViewportHeight - 1 ∧
      0 ≤ m1.Offset ∧
      m1.Offset ≤ max 0 ((m1.Snapshots.length : Int) - m1.ViewportHeight) :=
  cursor_moves_keep_window plainEnv sampleSnapshots
    { initialModel with ViewportHeight := 2 } (.KeyMsg "k")
    (by decide) (by decide) (by decide) (by decide) (by decide)
    (Or.inl ⟨rfl, "k", by decide, rfl⟩)

/-- Claim C10 (the code at the failing input): the PageDown key arrives as the
text `pgdown`, which `handleKey` does not match (it matches `pgdn` and
`pagedown`): in every state the key changes nothing and schedules nothing.  In
a terminal of 80 by 16 with eight snapshots and the cursor on row 0 the key
leaves the cursor on row 0, where the text `pgdn` would move it to row 3.  In
the state reached by a resize to 80 by 14, a refresh of three snapshots, `k` and
a refresh of one snapshot (one row, cursor 0, offset 2, viewport height 1) the
key leaves the offset above the cursor. -/
theorem page_down_key_ignored :
    (∀ m : UIState, handleKey m keyPgDown = some (m, [])) ∧
    (∃ w, World.run World.init
        [ (plainEnv, .WindowSizeMsg 80 16),
          (plainEnv, .RefreshResultMsg eightSnapshots none) ] = some w ∧
      w.m.FocusedElement = "table" ∧ w.m.Snapshots.length = 8 ∧ w.m.Cursor = 0 ∧
      w.m.Offset = 0 ∧ w.m.ViewportHeight = 3 ∧
      Update plainEnv w.sample w.m (.KeyMsg keyPgDown) = some (w.m, []) ∧
      ∃ m1, Update plainEnv w.sample w.m (.KeyMsg "pgdn") = some (m1, []) ∧
        m1.Cursor = 3 ∧ m1.Offset = 1) ∧
    (∃ w, World.run World.init
        [ (plainEnv, .WindowSizeMsg 80 14),
          (plainEnv, .RefreshResultMsg sampleSnapshots none),
          (plainEnv, .KeyMsg "k"),
          (plainEnv, .RefreshResultMsg [sample0] none) ] = some w ∧
      w.m.FocusedElement = "table" ∧ w.m.Snapshots.length = 1 ∧ w.m.Cursor = 0 ∧
      w.m.Offset = 2 ∧ w.m.ViewportHeight = 1 ∧
      Update plainEnv w.sample w.m (.KeyMsg keyPgDown) = some (w.m, []) ∧
      ¬ (w.m.Offset ≤ w.m.Cursor)) :=
  ⟨handleKey_pgdown,
   ⟨_, rfl, by decide, by decide, by decide, by decide, by decide, handleKey_pgdown _,
     _, rfl, by decide, by decide⟩,
   ⟨_, rfl, by decide, by decide, by decide, by decide, by decide, handleKey_pgdown _,
     by decide⟩⟩

/-! ## Lemmas: key presses and refresh results -/

theorem handleKey_space (m : UIState) (snap : Snapshot) (hf : m.FocusedElement = "table")
    (hs : sliceAt m.Snapshots m.Cursor = some snap) :
    handleKey m " " =
      some ({ m with
              SelectedSnapshots :=
                if snap.Number ∈ m.SelectedSnapshots then m.SelectedSnapshots.erase snap.Number
                else insert snap.Number m.SelectedSnapshots
              ActionMessage := previewText snap }, []) := by
  obtain ⟨h0, h1⟩ := sliceAt_some_bounds _ _ _ hs
  have hlen : m.Snapshots.length > 0 := by omega
  by_cases hmem : snap.Number ∈ m.SelectedSnapshots
  · obtain ⟨s1, hp, hs1⟩ := setActionPreview_inrange
      { m with SelectedSnapshots := m.SelectedSnapshots.erase snap.Number } h0 h1
    have hs2 : sliceAt m.Snapshots m.Cursor = some s1 := hs1
    rw [hs] at hs2
    cases hs2
    simp only [hf] at hp
    simp [handleKey, handleFocusedKey, hf, hlen, hs, hmem, hp]
  · obtain ⟨s1, hp, hs1⟩ := setActionPreview_inrange
      { m with SelectedSnapshots := insert snap.Number m.SelectedSnapshots } h0 h1
    have hs2 : sliceAt m.Snapshots m.Cursor = some s1 := hs1
    rw [hs] at hs2
    cases hs2
    simp only [hf] at hp
    simp [handleKey, handleFocusedKey, hf, hlen, hs, hmem, hp]

theorem move_cursor_any_height (m : UIState) (c : Int) (h0 : 0 ≤ c)
    (h1 : c < m.Snapshots.length) :
    ∃ (snap : Snapshot) (off vh : Int),
      setActionPreview (ensureCursorVisible { m with Cursor := c }) =
        some { m with Cursor := c, Offset := off, ViewportHeight := vh,
                      ActionMessage := previewText snap } := by
  obtain ⟨snap, hs, _⟩ := setActionPreview_inrange (ensureCursorVisible { m with Cursor := c })
    (by rw [ensureCursorVisible_eq]; exact h0) (by rw [ensureCursorVisible_eq]; exact h1)
  refine ⟨snap, windowOffset c m.Offset (heightOrFallback m.ViewportHeight) m.Snapshots.length,
    heightOrFallback m.ViewportHeight, ?_⟩
  rw [hs, ensureCursorVisible_eq]

theorem handleKey_down (m : UIState) (key : String) (hf : m.FocusedElement = "table")
    (hn : 0 < m.Snapshots.length) (h0 : 0 ≤ m.Cursor) (hk : key = "j" ∨ key = "down") :
    ∃ (snap : Snapshot) (off vh : Int),
      handleKey m key =
        some ({ m with Cursor := (m.Cursor + 1) % (m.Snapshots.length : Int), Offset := off,
                       ViewportHeight := vh, ActionMessage := previewText snap }, []) := by
  have hlen : (0 : Int) < m.Snapshots.length := by omega
  have ht : Int.tmod (m.Cursor + 1) m.Snapshots.length = (m.Cursor + 1) % m.Snapshots.length :=
    Int.tmod_eq_emod (by omega) (by omega)
  obtain ⟨snap, off, vh, hp⟩ := move_cursor_any_height m ((m.Cursor + 1) % m.Snapshots.length)
    (Int.emod_nonneg _ (by omega)) (Int.emod_lt_of_pos _ hlen)
  refine ⟨snap, off, vh, ?_⟩
  simp only [hf] at hp
  rcases hk with rfl | rfl <;>
    simp [handleKey, handleFocusedKey, hf, hn, ht, hp]

theorem handleKey_up (m : UIState) (key : String) (hf : m.FocusedElement = "table")
    (hn : 0 < m.Snapshots.length) (h0 : 0 ≤ m.Cursor) (hk : key = "k" ∨ key = "up") :
    ∃ (snap : Snapshot) (off vh : Int),
      handleKey m key =
        some ({ m with Cursor := (m.Cursor - 1 + m.Snapshots.length) % (m.Snapshots.length : Int),
                       Offset := off, ViewportHeight := vh,
                       ActionMessage := previewText snap }, []) := by
  have hlen : (0 : Int) < m.Snapshots.length := by omega
  have ht : Int.tmod (m.Cursor - 1 + m.Snapshots.length) m.Snapshots.length =
      (m.Cursor - 1 + m.Snapshots.length) % m.Snapshots.length :=
    Int.tmod_eq_emod (by omega) (by omega)
  obtain ⟨snap, off, vh, hp⟩ := move_cursor_any_height m
    ((m.Cursor - 1 + m.Snapshots.length) % m.Snapshots.length)
    (Int.emod_nonneg _ (by omega)) (Int.emod_lt_of_pos _ hlen)
  refine ⟨snap, off, vh, ?_⟩
  simp only [hf, Int.add_emod_self] at hp
  rcases hk with rfl | rfl <;>
    simp [handleKey, handleFocusedKey, hf, hn, ht, hp]

theorem pressKeys_updown (keys : List String) :
    ∀ m : UIState, m.FocusedElement = "table" → 0 < m.Snapshots.length → 0 ≤ m.Cursor →
      m.Cursor < m.Snapshots.length → (∀ key ∈ keys, key ∈ ["j", "down", "k", "up"]) →
      ∃ m1, pressKeys m keys = some m1 ∧ m1.Snapshots = m.Snapshots ∧
        m1.FocusedElement = "table" ∧ 0 ≤ m1.Cursor ∧ m1.Cursor < m1.Snapshots.length := by
  induction keys with
  | nil =>
    intro m hf _ h0 h1 _
    exact ⟨m, rfl, rfl, hf, h0, h1⟩
  | cons key rest ih =>
    intro m hf hn h0 h1 hkeys
    have hlen : (0 : Int) < m.Snapshots.length := by omega
    have hkey := hkeys key (List.mem_cons_self _ _)
    have hrest : ∀ k ∈ rest, k ∈ ["j", "down", "k", "up"] :=
      fun k hk => hkeys k (List.mem_cons_of_mem _ hk)
    simp only [List.mem_cons, List.mem_singleton, List.not_mem_nil, or_false] at hkey
    have hstep : ∃ m1, handleKey m key = some (m1, []) ∧ m1.Snapshots = m.Snapshots ∧
        m1.FocusedElement = "table" ∧ 0 ≤ m1.Cursor ∧ m1.Cursor < m1.Snapshots.length := by
      rcases hkey with hk | hk | hk | hk
      · obtain ⟨snap, off, vh, hd⟩ := handleKey_down m key hf hn h0 (Or.inl hk)
        exact ⟨_, hd, rfl, hf, Int.emod_nonneg _ (by omega), Int.emod_lt_of_pos _ hlen⟩
      · obtain ⟨snap, off, vh, hd⟩ := handleKey_down m key hf hn h0 (Or.inr hk)
        exact ⟨_, hd, rfl, hf, Int.emod_nonneg _ (by omega), Int.emod_lt_of_pos _ hlen⟩
      · obtain ⟨snap, off, vh, hd⟩ := handleKey_up m key hf hn h0 (Or.inl hk)
        exact ⟨_, hd, rfl, hf, Int.emod_nonneg _ (by omega), Int.emod_lt_of_pos _ hlen⟩
      · obtain ⟨snap, off, vh, hd⟩ := handleKey_up m key hf hn h0 (Or.inr hk)
        exact ⟨_, hd, rfl, hf, Int.emod_nonneg _ (by omega), Int.emod_lt_of_pos _ hlen⟩
    obtain ⟨m1, hm1, hs1, hf1, hc0, hc1⟩ := hstep
    obtain ⟨m2, hm2, hs2, hf2, hd0, hd1⟩ := ih m1 hf1 (by rw [hs1]; exact hn) hc0 hc1 hrest
    refine ⟨m2, ?_, hs2.trans hs1, hf2, hd0, hd1⟩
    simp only [pressKeys, hm1]
    exact hm2

theorem handleRefreshResult_error (env : Env) (sample : List Snapshot) (m : UIState)
    (snapshots : List Snapshot) (e : String) :
    handleRefreshResult env sample m snapshots (some e) =
      some ({ m with Loading := false, Snapshots := sample, Placeholder := true,
                     Status := "snapper list failed: " ++ e,
                     Summary := buildSummary env sample,
                     ActionMessage := "Using sample data; install snapper for real snapshots." },
        []) := by
  rfl

theorem setActionPreview_total (m : UIState) (h0 : 0 ≤ m.Cursor)
    (h1 : m.Snapshots ≠ [] → m.Cursor < m.Snapshots.length) :
    ∃ message, setActionPreview m = some { m with ActionMessage := message } := by
  by_cases hn : m.Snapshots = []
  · refine ⟨selectPrompt, ?_⟩
    have hlen : m.Snapshots.length = 0 := by rw [hn]; rfl
    simp [setActionPreview, currentSnapshot, hlen]
  · obtain ⟨snap, hp, _⟩ := setActionPreview_inrange m h0 (h1 hn)
    exact ⟨_, hp⟩

theorem handleRefreshResult_success (env : Env) (sample : List Snapshot) (m : UIState)
    (snapshots : List Snapshot) (hc : 0 ≤ m.Cursor) :
    ∃ message,
      handleRefreshResult env sample m snapshots none =
        some ({ m with
                Loading := false
                Snapshots := stableSort (sortLess m.SortKey m.SortReverse) snapshots
                Placeholder := false
                Cursor :=
                  if m.Cursor ≥
                      ((stableSort (sortLess m.SortKey m.SortReverse) snapshots).length : Int)
                  then max 0
                    (((stableSort (sortLess m.SortKey m.SortReverse) snapshots).length : Int) - 1)
                  else m.Cursor
                Summary := buildSummary env
                  (stableSort (sortLess m.SortKey m.SortReverse) snapshots)
                Status := "Loaded " ++
                  decimal ((stableSort (sortLess m.SortKey m.SortReverse) snapshots).length : Int)
                  ++ " snapshots"
                ActionMessage := message }, []) := by
  by_cases h : m.Cursor ≥ ((stableSort (sortLess m.SortKey m.SortReverse) snapshots).length : Int)
  · obtain ⟨message, hp⟩ := setActionPreview_total
      { m with
        Loading := false
        Snapshots := stableSort (sortLess m.SortKey m.SortReverse) snapshots
        Placeholder := false
        Cursor := SnapperTUI.max 0
          (((stableSort (sortLess m.SortKey m.SortReverse) snapshots).length : Int) - 1)
        Summary := buildSummary env (stableSort (sortLess m.SortKey m.SortReverse) snapshots)
        Status := "Loaded " ++
          decimal ((stableSort (sortLess m.SortKey m.SortReverse) snapshots).length : Int)
          ++ " snapshots" }
      (by simp only [max_eq]; omega)
      (by
        intro hne
        have : 0 < (stableSort (sortLess m.SortKey m.SortReverse) snapshots).length :=
          List.length_pos.mpr hne
        simp only [max_eq]
        omega)
    refine ⟨message, ?_⟩
    simp only [max_eq] at hp
    unfold handleRefreshResult
    simp only [sortSnapshots, h, if_true, max_eq, hp]
  · obtain ⟨message, hp⟩ := setActionPreview_total
      { m with
        Loading := false
        Snapshots := stableSort (sortLess m.SortKey m.SortReverse) snapshots
        Placeholder := false
        Summary := buildSummary env (stableSort (sortLess m.SortKey m.SortReverse) snapshots)
        Status := "Loaded " ++
          decimal ((stableSort (sortLess m.SortKey m.SortReverse) snapshots).length : Int)
          ++ " snapshots" }
      hc
      (by
        intro _
        show m.Cursor < ((stableSort (sortLess m.SortKey m.SortReverse) snapshots).length : Int)
        omega)
    refine ⟨message, ?_⟩
    dsimp only at hp
    unfold handleRefreshResult
    simp only [sortSnapshots, h, if_false, hp]

/-! ## Lemmas: the output of a completion -/

theorem length_le_byteLen (cs : List Char) : cs.length ≤ byteLen cs := by
  induction cs with
  | nil => simp [byteLen]
  | cons c cs ih =>
    have := Char.utf8Size_pos c
    simp only [byteLen, List.map_cons, List.sum_cons, List.length_cons] at ih ⊢
    omega

theorem byteLen_append (xs ys : List Char) : byteLen (xs ++ ys) = byteLen xs + byteLen ys := by
  simp [byteLen]

theorem utf8_length (s : String) : (utf8 s).bytes.length = byteLen s.toList := by
  show (s.toList.flatMap String.utf8EncodeChar).length = _
  rw [List.length_flatMap, byteLen]
  congr 1
  exact List.map_congr_left (fun c _ => String.length_utf8EncodeChar c)

theorem decodeRunes_length (skip : Nat) (bs : List UInt8) :
    (decodeRunes skip bs).length ≤ bs.length := by
  induction bs generalizing skip with
  | nil => cases skip <;> simp [decodeRunes]
  | cons b rest ih =>
    cases skip with
    | zero =>
      simp only [decodeRunes, List.length_cons]
      exact Nat.succ_le_succ (ih _)
    | succ k =>
      simp only [decodeRunes, List.length_cons]
      exact Nat.le_succ_of_le (ih k)

theorem text_length_le (s : GoString) : s.text.length ≤ s.bytes.length :=
  decodeRunes_length 0 s.bytes

theorem truncateOutput_spec (output : String) :
    (truncateOutput output).bytes.length ≤ 500 ∧
    (truncateOutput output).text.length ≤ 500 ∧
    ((utf8 (trimSpace output)).bytes.length ≤ 500 →
      truncateOutput output = utf8 (trimSpace output)) ∧
    (500 < (utf8 (trimSpace output)).bytes.length →
      (truncateOutput output).bytes =
        (utf8 (trimSpace output)).bytes.take 497 ++ (utf8 "...").bytes ∧
      (truncateOutput output).bytes.length = 500) := by
  have hdots : (utf8 "...").bytes.length = 3 := by decide
  have hlong : 500 < (utf8 (trimSpace output)).bytes.length →
      (truncateOutput output).bytes =
        (utf8 (trimSpace output)).bytes.take 497 ++ (utf8 "...").bytes ∧
      (truncateOutput output).bytes.length = 500 := by
    intro h
    have e : truncateOutput output =
        ⟨(utf8 (trimSpace output)).bytes.take 497 ++ (utf8 "...").bytes⟩ := by
      unfold truncateOutput
      simp only
      rw [if_pos h]
    rw [e]
    refine ⟨rfl, ?_⟩
    show ((utf8 (trimSpace output)).bytes.take 497 ++ (utf8 "...").bytes).length = 500
    rw [List.length_append, List.length_take, hdots]
    omega
  have hshort : (utf8 (trimSpace output)).bytes.length ≤ 500 →
      truncateOutput output = utf8 (trimSpace output) := by
    intro h
    unfold truncateOutput
    simp only
    rw [if_neg (by omega)]
  have hbytes : (truncateOutput output).bytes.length ≤ 500 := by
    by_cases h : 500 < (utf8 (trimSpace output)).bytes.length
    · rw [(hlong h).2]
    · rw [hshort (by omega)]
      omega
  exact ⟨hbytes, le_trans (text_length_le _) hbytes, hshort, hlong⟩

theorem executeActionCmd_single_result (sh : Shell) (snap t : Snapshot) (selected : Finset Int)
    (allSnaps : List Snapshot) (ht : resolveTargets snap selected allSnaps = [t]) :
    executeActionCmd sh .ActionRestore snap selected allSnaps =
      { invoked := [["rollback", decimal t.Number]]
        result := some { Kind := .ActionRestore, Snap := t,
                         Output := truncateOutput (sh ["rollback", decimal t.Number]).1,
                         Err := (sh ["rollback", decimal t.Number]).2 } } ∧
    executeActionCmd sh .ActionStatus snap selected allSnaps =
      { invoked := [["status", decimal (computeStatusStart t) ++ ".." ++ decimal t.Number]]
        result := some { Kind := .ActionStatus, Snap := t,
                         Output := truncateOutput
                           (sh ["status",
                             decimal (computeStatusStart t) ++ ".." ++ decimal t.Number]).1,
                         Err := (sh ["status",
                           decimal (computeStatusStart t) ++ ".." ++ decimal t.Number]).2 } } := by
  constructor
  · simp only [executeActionCmd, ht]
    simp [sliceAt]
  · simp only [executeActionCmd, ht]
    simp [sliceAt]

theorem executeActionCmd_delete_result (sh : Shell) (snap : Snapshot) (selected : Finset Int)
    (allSnaps : List Snapshot) :
    (executeActionCmd sh .ActionDelete snap selected allSnaps).result =
      some (match (sh ("delete" ::
          (resolveTargets snap selected allSnaps).map (fun t => decimal t.Number))).2 with
        | some e =>
          { Kind := .ActionDelete, Snap := snap, Err := some e,
            Output := (sh ("delete" ::
              (resolveTargets snap selected allSnaps).map (fun t => decimal t.Number))).1 }
        | none =>
          { Kind := .ActionDelete, Snap := snap, Err := none,
            Output := "All selected snapshots deleted." }) := by
  simp only [executeActionCmd, foldl_append_map]
  simp only [reduceCtorEq, or_self, and_false, if_false, if_true]
  cases hsh : sh (["delete"] ++ List.map (fun t => decimal t.Number)
      (resolveTargets snap selected allSnaps)) with
  | mk output err =>
    have hsh2 : sh ("delete" :: List.map (fun t => decimal t.Number)
      (resolveTargets snap selected allSnaps)) = (output, err) := hsh
    cases err <;> simp [hsh2]

/-! ## Lemmas: string order and stable sorting -/

theorem codeLess_irrefl (a : List Char) : codeLess a a = false := by
  induction a with
  | nil => rfl
  | cons c cs ih => simp [codeLess, ih]

theorem codeLess_le_trans (a : List Char) :
    ∀ b c : List Char, codeLess b a = false → codeLess c b = false → codeLess c a = false := by
  induction a with
  | nil =>
    intro b c hba hcb
    cases b with
    | nil => exact hcb
    | cons y ys =>
      cases c with
      | nil => simp [codeLess] at hcb
      | cons z zs => simp [codeLess]
  | cons x xs ih =>
    intro b c hba hcb
    cases b with
    | nil => simp [codeLess] at hba
    | cons y ys =>
      cases c with
      | nil => simp [codeLess] at hcb
      | cons z zs =>
        simp only [codeLess] at hba hcb ⊢
        by_cases h1 : y.toNat < x.toNat
        · simp [h1] at hba
        · by_cases h2 : z.toNat < y.toNat
          · simp [h2] at hcb
          · simp only [h1, h2, if_false] at hba hcb
            by_cases h3 : x.toNat < y.toNat
            · have h4 : ¬ z.toNat < x.toNat := by omega
              simp only [h4, if_false]
              by_cases h5 : x.toNat < z.toNat
              · simp [h5]
              · omega
            · simp only [h3, if_false] at hba
              by_cases h6 : y.toNat < z.toNat
              · have h4 : ¬ z.toNat < x.toNat := by omega
                have h5 : x.toNat < z.toNat := by omega
                simp [h4, h5]
              · simp only [h6, if_false] at hcb
                have h4 : ¬ z.toNat < x.toNat := by omega
                have h5 : ¬ x.toNat < z.toNat := by omega
                simp only [h4, h5, if_false]
                exact ih ys zs hba hcb

theorem codeLess_asymm (a : List Char) :
    ∀ b : List Char, codeLess a b = true → codeLess b a = false := by
  induction a with
  | nil =>
    intro b _
    cases b <;> simp [codeLess]
  | cons x xs ih =>
    intro b h
    cases b with
    | nil => simp [codeLess] at h
    | cons y ys =>
      simp only [codeLess] at h ⊢
      by_cases h1 : x.toNat < y.toNat
      · have h2 : ¬ y.toNat < x.toNat := by omega
        simp [h1, h2]
      · by_cases h2 : y.toNat < x.toNat
        · simp [h1, h2] at h
        · simp only [h1, h2, if_false] at h ⊢
          exact ih ys h

theorem codeLess_total (a : List Char) :
    ∀ b : List Char, codeLess a b = false → codeLess b a = false → a = b := by
  induction a with
  | nil =>
    intro b h _
    cases b with
    | nil => rfl
    | cons y ys => simp [codeLess] at h
  | cons x xs ih =>
    intro b h1 h2
    cases b with
    | nil => simp [codeLess] at h2
    | cons y ys =>
      simp only [codeLess] at h1 h2
      by_cases hxy : x.toNat < y.toNat
      · simp [hxy] at h1
      · by_cases hyx : y.toNat < x.toNat
        · simp [hyx] at h2
        · simp only [hxy, hyx, if_false] at h1 h2
          have hc : x = y := by
            apply Char.ext
            apply UInt32.ext
            show x.toNat = y.toNat
            omega
          rw [hc, ih ys h1 h2]

theorem strLess_irrefl (a : String) : strLess a a = false :=
  codeLess_irrefl _

theorem strLess_le_trans (a b c : String) (hba : strLess b a = false)
    (hcb : strLess c b = false) : strLess c a = false :=
  codeLess_le_trans _ _ _ hba hcb

theorem strLess_asymm (a b : String) (h : strLess a b = true) : strLess b a = false :=
  codeLess_asymm _ _ h

theorem strLess_total (a b : String) (h1 : strLess a b = false) (h2 : strLess b a = false) :
    a = b := by
  have := codeLess_total _ _ h1 h2
  exact String.ext this

theorem sortLess_irrefl (key : String) (reverse : Bool) (a b : Snapshot)
    (h : valueForSort a key = valueForSort b key) : sortLess key reverse a b = false := by
  unfold sortLess
  simp only [h]
  split_ifs <;> exact strLess_irrefl _

theorem sortLess_asymm (key : String) (reverse : Bool) (a b : Snapshot)
    (h : sortLess key reverse a b = true) : sortLess key reverse b a = false := by
  unfold sortLess at h ⊢
  simp only at h ⊢
  split_ifs at h ⊢ <;> exact strLess_asymm _ _ h

theorem sortLess_le_trans (key : String) (reverse : Bool) (a b c : Snapshot)
    (hba : sortLess key reverse b a = false) (hcb : sortLess key reverse c b = false) :
    sortLess key reverse c a = false := by
  unfold sortLess at hba hcb ⊢
  simp only at hba hcb ⊢
  split_ifs at hba hcb ⊢
  · exact strLess_le_trans _ _ _ hcb hba
  · exact strLess_le_trans _ _ _ hba hcb

theorem stableSort_perm {α : Type} (less : α → α → Bool) (l : List α) :
    (stableSort less l).Perm l :=
  List.perm_insertionSort _ l

theorem stableSort_pairwise {α : Type} (less : α → α → Bool)
    (hasymm : ∀ a b, less a b = true → less b a = false)
    (htrans : ∀ a b c, less b a = false → less c b = false → less c a = false)
    (l : List α) :
    (stableSort less l).Pairwise (fun a b => less b a = false) := by
  have htotal : IsTotal α (fun a b => less b a = false) :=
    ⟨fun a b => by
      cases h : less b a
      · exact Or.inl rfl
      · exact Or.inr (hasymm b a h)⟩
  have htr : IsTrans α (fun a b => less b a = false) :=
    ⟨fun a b c hab hbc => htrans a b c hab hbc⟩
  exact List.sorted_insertionSort (fun a b => less b a = false) l

theorem stableSort_filter {α : Type} (less : α → α → Bool) (p : α → Bool)
    (hp : ∀ a b, p a = true → p b = true → less b a = false) (l : List α) :
    (stableSort less l).filter p = l.filter p := by
  have hsub : List.Sublist (l.filter p) (stableSort less l) := by
    apply List.sublist_insertionSort
    · rw [List.pairwise_iff_forall_sublist]
      intro a b hab
      have ha : a ∈ l.filter p := hab.subset (by simp)
      have hb : b ∈ l.filter p := hab.subset (by simp)
      exact hp a b (List.mem_filter.mp ha).2 (List.mem_filter.mp hb).2
    · exact List.filter_sublist _
  have hsub2 : List.Sublist (l.filter p) ((stableSort less l).filter p) := by
    have := hsub.filter p
    simpa [List.filter_filter] using this
  have hlen : (l.filter p).length = ((stableSort less l).filter p).length :=
    ((stableSort_perm less l).filter p).length_eq.symm
  exact (hsub2.eq_of_length hlen).symm

/-! ## Lemmas: zero-padded decimal texts -/

theorem toDigitsCore_eq (n : Nat) :
    ∀ (fuel : Nat) (ds : List Char), n < fuel →
      Nat.toDigitsCore 10 fuel n ds = Nat.toDigits 10 n ++ ds := by
  induction n using Nat.strong_induction_on with
  | _ n ih =>
    intro fuel ds hf
    cases fuel with
    | zero => omega
    | succ f =>
      unfold Nat.toDigits
      simp only [Nat.toDigitsCore]
      by_cases h : n / 10 = 0
      · simp [h]
      · simp only [h, if_false]
        have hlt : n / 10 < n := Nat.div_lt_self (by omega) (by omega)
        rw [ih (n / 10) hlt f _ (by omega), ih (n / 10) hlt n _ hlt]
        simp

theorem toDigits_rec (n : Nat) :
    Nat.toDigits 10 n =
      if n / 10 = 0 then [Nat.digitChar (n % 10)]
      else Nat.toDigits 10 (n / 10) ++ [Nat.digitChar (n % 10)] := by
  have hlt : n / 10 < n ∨ n = 0 := by omega
  conv_lhs => unfold Nat.toDigits
  simp only [Nat.toDigitsCore]
  by_cases h : n / 10 = 0
  · simp [h]
  · simp only [h, if_false]
    exact toDigitsCore_eq (n / 10) n _ (by omega)

theorem padDigits_length (w n : Nat) : (padDigits w n).length = w := by
  induction w generalizing n with
  | zero => rfl
  | succ w ih => simp [padDigits, ih]

theorem padDigits_zero (w : Nat) : padDigits w 0 = List.replicate w '0' := by
  induction w with
  | zero => rfl
  | succ w ih =>
    simp only [padDigits, Nat.zero_div, Nat.zero_mod, ih]
    rw [List.replicate_succ']
    rfl

theorem padDigits_eq_replicate (w : Nat) :
    ∀ n, 0 < w → n < 10 ^ w →
      ∃ k, padDigits w n = List.replicate k '0' ++ Nat.toDigits 10 n := by
  induction w with
  | zero => intro n hw; omega
  | succ w ih =>
    intro n _ hn
    rw [toDigits_rec]
    by_cases h : n / 10 = 0
    · refine ⟨w, ?_⟩
      simp only [padDigits, h, if_true, padDigits_zero]
    · have hw : 0 < w := by
        rcases Nat.eq_zero_or_pos w with hw | hw
        · subst hw
          simp at hn
          omega
        · exact hw
      have hdiv : n / 10 < 10 ^ w := by
        rw [Nat.div_lt_iff_lt_mul (by omega)]
        rw [pow_succ] at hn
        exact hn
      obtain ⟨k, hk⟩ := ih (n / 10) hw hdiv
      refine ⟨k, ?_⟩
      simp only [padDigits, h, if_false, hk, List.append_assoc]

theorem sprintfZeroPad_data (w n : Nat) (hw : 0 < w) (hn : n < 10 ^ w) :
    (sprintfZeroPad w (n : Int)).data = padDigits w n := by
  obtain ⟨k, hk⟩ := padDigits_eq_replicate w n hw hn
  have hlen := padDigits_length w n
  rw [hk, List.length_append, List.length_replicate] at hlen
  have hneg : ¬ ((n : Int) < 0) := by omega
  have hdig : (ToString.toString (n : Int).natAbs : String) = (Nat.toDigits 10 n).asString := by
    simp only [Int.natAbs_ofNat]
    rfl
  simp only [sprintfZeroPad, hneg, if_false, hdig]
  rw [hk]
  have hk2 : w - (Nat.toDigits 10 n).asString.length = k := by
    show w - (Nat.toDigits 10 n).length = k
    omega
  rw [hk2]
  rfl

theorem codeLess_snoc (xs : List Char) :
    ∀ (ys : List Char) (c e : Char), xs.length = ys.length →
      codeLess (xs ++ [c]) (ys ++ [e]) =
        (codeLess xs ys || (!codeLess ys xs && decide (c.toNat < e.toNat))) := by
  induction xs with
  | nil =>
    intro ys c e hlen
    cases ys with
    | nil =>
      simp only [List.nil_append, codeLess]
      by_cases h : c.toNat < e.toNat
      · simp [h]
      · by_cases h2 : e.toNat < c.toNat <;> simp [h, h2]
    | cons y ys => simp at hlen
  | cons x xs ih =>
    intro ys c e hlen
    cases ys with
    | nil => simp at hlen
    | cons y ys =>
      simp only [List.length_cons, Nat.add_right_cancel_iff] at hlen
      simp only [List.cons_append, codeLess]
      by_cases h1 : x.toNat < y.toNat
      · have h2 : ¬ y.toNat < x.toNat := by omega
        simp [h1, h2]
      · by_cases h2 : y.toNat < x.toNat
        · simp [h1, h2]
        · simp only [h1, h2, if_false]
          exact ih ys c e hlen

theorem digitChar_toNat (d : Nat) (h : d < 10) : (Nat.digitChar d).toNat = 48 + d := by
  interval_cases d <;> rfl

theorem padDigits_less (w : Nat) :
    ∀ a b : Nat, a < 10 ^ w → b < 10 ^ w →
      codeLess (padDigits w a) (padDigits w b) = decide (a < b) := by
  induction w with
  | zero =>
    intro a b ha hb
    simp at ha hb
    subst ha hb
    rfl
  | succ w ih =>
    intro a b ha hb
    have hda : a / 10 < 10 ^ w := by
      rw [Nat.div_lt_iff_lt_mul (by omega)]
      rw [pow_succ] at ha
      exact ha
    have hdb : b / 10 < 10 ^ w := by
      rw [Nat.div_lt_iff_lt_mul (by omega)]
      rw [pow_succ] at hb
      exact hb
    simp only [padDigits]
    rw [codeLess_snoc _ _ _ _ (by rw [padDigits_length, padDigits_length]),
      ih _ _ hda hdb, ih _ _ hdb hda,
      digitChar_toNat _ (Nat.mod_lt _ (by omega)), digitChar_toNat _ (Nat.mod_lt _ (by omega))]
    by_cases h : a < b
    · simp only [h, decide_True]
      by_cases h1 : a / 10 < b / 10
      · simp [h1]
      · have h2 : ¬ b / 10 < a / 10 := by omega
        have h3 : a % 10 < b % 10 := by omega
        simp [h1, h2, h3]
    · simp only [h, decide_False]
      have h1 : ¬ a / 10 < b / 10 := by omega
      by_cases h2 : b / 10 < a / 10
      · simp [h1, h2]
      · have h3 : ¬ a % 10 < b % 10 := by omega
        simp [h1, h2, h3]

/-- Zero-padded decimal texts of numbers that fit the width compare as the
numbers do. -/
theorem sprintfZeroPad_less (w : Nat) (a b : Int) (hw : 0 < w) (ha0 : 0 ≤ a)
    (ha : a < 10 ^ w) (hb0 : 0 ≤ b) (hb : b < 10 ^ w) :
    strLess (sprintfZeroPad w a) (sprintfZeroPad w b) = decide (a < b) := by
  obtain ⟨n, rfl⟩ := Int.eq_ofNat_of_zero_le ha0
  obtain ⟨k, rfl⟩ := Int.eq_ofNat_of_zero_le hb0
  have hn : n < 10 ^ w := by exact_mod_cast ha
  have hk : k < 10 ^ w := by exact_mod_cast hb
  unfold strLess
  rw [String.toList, String.toList, sprintfZeroPad_data w n hw hn, sprintfZeroPad_data w k hw hk,
    padDigits_less w n k hn hk]
  simp

/-! ## The claims C11 to C20 -/

/-- Claim C11 (the code at the failing input): a failed refresh assigns the
sample list and leaves the cursor as it was.  Four snapshots are loaded, `k`
moves the cursor to row 3, then a refresh fails: the sequence has three rows and
the cursor is still 3, outside `[0, 2]`. -/
theorem failed_refresh_leaves_cursor :
    (∀ (env : Env) (sample : List Snapshot) (m : UIState) (snapshots : List Snapshot)
        (e : String),
      ∃ m1, handleRefreshResult env sample m snapshots (some e) = some (m1, []) ∧
        m1.Snapshots = sample ∧ m1.Cursor = m.Cursor) ∧
    ∃ w, World.run World.init
        [ (plainEnv, .RefreshResultMsg [sample0, sample17, sample18, sample19] none),
          (plainEnv, .KeyMsg "k"),
          (plainEnv, .RefreshResultMsg [] (some "exit status 1")) ] = some w ∧
      w.m.Snapshots.length = 3 ∧ w.m.Cursor = 3 ∧
      sliceAt w.m.Snapshots w.m.Cursor = none :=
  ⟨fun env sample m snapshots e =>
    ⟨_, handleRefreshResult_error env sample m snapshots e, rfl, rfl⟩,
   _, rfl, by decide, by decide, by decide⟩

/-- Claim C12 (the code at the failing input): `handleRefreshResult` never
changes the offset.  With a viewport of one row, three snapshots are loaded, `k`
moves the cursor to row 2 (offset 2), then a refresh delivers one snapshot: the
cursor is clamped to 0 and the offset is still 2, above `max 0 (1 - 1)` and
above the cursor. -/
theorem refresh_leaves_offset :
    (∀ (env : Env) (sample : List Snapshot) (m : UIState) (snapshots : List Snapshot)
        (e : String),
      ∃ m1, handleRefreshResult env sample m snapshots (some e) = some (m1, []) ∧
        m1.Offset = m.Offset) ∧
    ∃ w, World.run World.init
        [ (plainEnv, .WindowSizeMsg 80 14),
          (plainEnv, .RefreshResultMsg [sample0, sample17, sample18] none),
          (plainEnv, .KeyMsg "k"),
          (plainEnv, .RefreshResultMsg [sample0] none) ] = some w ∧
      w.m.Snapshots = [sample0] ∧ w.m.ViewportHeight = 1 ∧ w.m.Cursor = 0 ∧
      w.m.Offset = 2 :=
  ⟨fun env sample m snapshots e =>
    ⟨_, handleRefreshResult_error env sample m snapshots e, rfl⟩,
   _, rfl, by decide, by decide, by decide, by decide⟩

/-- Claim C13: with focus on the table, `n ≥ 1` rows and a cursor `c` with
`0 ≤ c < n`, the keys `j` and `down` set the cursor to `(c+1) mod n` and the keys
`k` and `up` set it to `(c-1+n) mod n`, without changing the sequence: down on
the last row gives 0, up on row 0 gives `n-1`, after any number of such keys the
cursor is in `[0, n-1]`, and down followed by up gives back `c`. -/
theorem cursor_wraps_around (m : UIState) (hf : m.FocusedElement = "table")
    (hn : 0 < m.Snapshots.length) (h0 : 0 ≤ m.Cursor) (h1 : m.Cursor < m.Snapshots.length) :
    (∀ key, key = "j" ∨ key = "down" →
      ∃ m1, handleKey m key = some (m1, []) ∧ m1.Snapshots = m.Snapshots ∧
        m1.Cursor = (m.Cursor + 1) % (m.Snapshots.length : Int) ∧
        (m.Cursor = (m.Snapshots.length : Int) - 1 → m1.Cursor = 0) ∧
        ∀ back, back = "k" ∨ back = "up" →
          ∃ m2, handleKey m1 back = some (m2, []) ∧ m2.Cursor = m.Cursor) ∧
    (∀ key, key = "k" ∨ key = "up" →
      ∃ m1, handleKey m key = some (m1, []) ∧ m1.Snapshots = m.Snapshots ∧
        m1.Cursor = (m.Cursor - 1 + m.Snapshots.length) % (m.Snapshots.length : Int) ∧
        (m.Cursor = 0 → m1.Cursor = (m.Snapshots.length : Int) - 1)) ∧
    (∀ keys : List String, (∀ key ∈ keys, key ∈ ["j", "down", "k", "up"]) →
      ∃ m1, pressKeys m keys = some m1 ∧ m1.Snapshots = m.Snapshots ∧
        0 ≤ m1.Cursor ∧ m1.Cursor ≤ (m.Snapshots.length : Int) - 1) := by
  have hlen : (0 : Int) < m.Snapshots.length := by omega
  refine ⟨?_, ?_, ?_⟩
  · intro key hk
    obtain ⟨snap, off, vh, hd⟩ := handleKey_down m key hf hn h0 hk
    refine ⟨_, hd, rfl, rfl, ?_, ?_⟩
    · intro hlast
      show (m.Cursor + 1) % (m.Snapshots.length : Int) = 0
      rw [hlast]
      simp
    · intro back hb
      obtain ⟨snap2, off2, vh2, hu⟩ := handleKey_up
        { m with Cursor := (m.Cursor + 1) % (m.Snapshots.length : Int), Offset := off,
                 ViewportHeight := vh, ActionMessage := previewText snap }
        back hf hn (Int.emod_nonneg _ (by omega)) hb
      refine ⟨_, hu, ?_⟩
      show ((m.Cursor + 1) % (m.Snapshots.length : Int) - 1 + m.Snapshots.length) %
        (m.Snapshots.length : Int) = m.Cursor
      by_cases hlast : m.Cursor + 1 = m.Snapshots.length
      · rw [hlast]
        simp only [Int.emod_self, zero_sub]
        rw [Int.emod_eq_of_lt (by omega) (by omega)]
        omega
      · rw [Int.emod_eq_of_lt (a := m.Cursor + 1) (by omega) (by omega)]
        rw [Int.add_emod_self]
        rw [Int.emod_eq_of_lt (by omega) (by omega)]
        omega
  · intro key hk
    obtain ⟨snap, off, vh, hu⟩ := handleKey_up m key hf hn h0 hk
    refine ⟨_, hu, rfl, rfl, ?_⟩
    intro hzero
    show (m.Cursor - 1 + m.Snapshots.length) % (m.Snapshots.length : Int) = _
    rw [hzero]
    rw [Int.emod_eq_of_lt (by omega) (by omega)]
    omega
  · intro keys hkeys
    obtain ⟨m1, hm1, hs1, _, hc0, hc1⟩ := pressKeys_updown keys m hf hn h0 h1 hkeys
    refine ⟨m1, hm1, hs1, hc0, ?_⟩
    rw [hs1] at hc1
    omega

/-- Witness of C13 on the initial model (three rows, cursor on row 0). -/
theorem cursor_wraps_around_witness :
    (∃ m1, handleKey initialModel "k" = some (m1, []) ∧ m1.Cursor = 2) ∧
    (∃ m1, pressKeys initialModel ["j", "j", "down", "up", "k", "k", "k"] = some m1 ∧
      0 ≤ m1.Cursor ∧ m1.Cursor ≤ 2) := by
  have h := cursor_wraps_around initialModel rfl (by decide) (by decide) (by decide)
  refine ⟨?_, ?_⟩
  · obtain ⟨m1, hm1, _, _, hz⟩ := h.2.1 "k" (Or.inl rfl)
    exact ⟨m1, hm1, hz rfl⟩
  · obtain ⟨m1, hm1, _, hc0, hc1⟩ := h.2.2 ["j", "j", "down", "up", "k", "k", "k"] (by decide)
    exact ⟨m1, hm1, hc0, hc1⟩

/-- Claim C14: with focus on the table and the cursor on a snapshot, space adds
the number of that snapshot to the selection set when it is absent and removes
it when it is present, changes the membership of no other number, and a second
space gives back the original set. -/
theorem space_toggles_selection (m : UIState) (snap : Snapshot)
    (hf : m.FocusedElement = "table") (hs : sliceAt m.Snapshots m.Cursor = some snap) :
    ∃ m1, handleKey m " " = some (m1, []) ∧
      (snap.Number ∉ m.SelectedSnapshots →
        m1.SelectedSnapshots = insert snap.Number m.SelectedSnapshots) ∧
      (snap.Number ∈ m.SelectedSnapshots →
        m1.SelectedSnapshots = m.SelectedSnapshots.erase snap.Number) ∧
      (snap.Number ∈ m1.SelectedSnapshots ↔ snap.Number ∉ m.SelectedSnapshots) ∧
      (∀ n, n ≠ snap.Number → (n ∈ m1.SelectedSnapshots ↔ n ∈ m.SelectedSnapshots)) ∧
      ∃ m2, handleKey m1 " " = some (m2, []) ∧ m2.SelectedSnapshots = m.SelectedSnapshots := by
  refine ⟨_, handleKey_space m snap hf hs, ?_, ?_, ?_, ?_, ?_⟩
  · intro h
    simp [h]
  · intro h
    simp [h]
  · by_cases h : snap.Number ∈ m.SelectedSnapshots <;> simp [h]
  · intro n hn
    by_cases h : snap.Number ∈ m.SelectedSnapshots <;> simp [h, hn]
  · refine ⟨_, handleKey_space _ snap hf hs, ?_⟩
    by_cases h : snap.Number ∈ m.SelectedSnapshots
    · simp [h]
    · simp [h]

/-- Witness of C14 on the initial model: the cursor is on snapshot 0. -/
theorem space_toggles_selection_witness :
    ∃ m1, handleKey initialModel " " = some (m1, []) ∧ m1.SelectedSnapshots = {0} ∧
      ∃ m2, handleKey m1 " " = some (m2, []) ∧ m2.SelectedSnapshots = ∅ := by
  obtain ⟨m1, h1, hins, _, _, _, m2, h2, hsel⟩ :=
    space_toggles_selection initialModel sample0 rfl (by decide)
  exact ⟨m1, h1, hins (by decide), m2, h2, hsel⟩

/-- Claim C15: an action-completed event for delete without error empties the
selection set, leaves `Loading` as it is and schedules only the timer that
delivers a refresh trigger after 1000 ms; every other action-completed event
leaves the selection set and `Loading` as they are and schedules nothing. -/
theorem action_result_selection (m : UIState) (r : ActionResult) :
    (r.Kind = .ActionDelete → r.Err = none →
      ∃ m1, handleActionResult m r = some (m1, [Op.waitRefresh 1000]) ∧
        m1.SelectedSnapshots = ∅ ∧ m1.Loading = m.Loading ∧
        (Op.waitRefresh 1000).timer = some (1000, .RefreshTriggerMsg)) ∧
    (¬ (r.Kind = .ActionDelete ∧ r.Err = none) →
      ∃ m1, handleActionResult m r = some (m1, []) ∧
        m1.SelectedSnapshots = m.SelectedSnapshots ∧ m1.Loading = m.Loading) := by
  constructor
  · intro hk he
    simp [handleActionResult, hk, he, Op.timer]
  · intro h
    unfold handleActionResult
    cases hk : r.Kind <;> simp only <;> first
      | exact ⟨_, rfl, rfl, rfl⟩
      | (split_ifs with he
         · first
             | exact ⟨_, rfl, rfl, rfl⟩
             | exact absurd ⟨hk, he⟩ h
         · exact ⟨_, rfl, rfl, rfl⟩)

/-- Witness of C15: a successful delete and a failed delete on a state with the
selection `{17, 18}`. -/
theorem action_result_selection_witness :
    (∃ m1, handleActionResult { initialModel with SelectedSnapshots := {17, 18} }
        ⟨.ActionDelete, sample17, "", none⟩ = some (m1, [Op.waitRefresh 1000]) ∧
      m1.SelectedSnapshots = ∅ ∧ m1.Loading = true ∧
      (Op.waitRefresh 1000).timer = some (1000, .RefreshTriggerMsg)) ∧
    (∃ m1, handleActionResult { initialModel with SelectedSnapshots := {17, 18} }
        ⟨.ActionDelete, sample17, "busy", some "exit status 1"⟩ = some (m1, []) ∧
      m1.SelectedSnapshots = {17, 18} ∧ m1.Loading = true) :=
  ⟨(action_result_selection { initialModel with SelectedSnapshots := {17, 18} }
      ⟨.ActionDelete, sample17, "", none⟩).1 rfl rfl,
   (action_result_selection { initialModel with SelectedSnapshots := {17, 18} }
      ⟨.ActionDelete, sample17, "busy", some "exit status 1"⟩).2 (by decide)⟩

/-- Claim C16 as stated fails: status on the captured output `" ok\n"` (at most
500 characters) carries `"ok"`, not the captured output; a successful delete
carries a fixed text whatever was captured; a failed delete carries the captured
output whole, here 501 bytes and 501 characters. -/
theorem completion_output_not_captured :
    (∃ r, (executeActionCmd (fun _ => (" ok\n", none)) .ActionStatus sample17 ∅
        sampleSnapshots).result = some r ∧ r.Output = utf8 "ok" ∧ r.Output ≠ utf8 " ok\n") ∧
    (∃ r, (executeActionCmd (fun _ => ("deleted 17", none)) .ActionDelete sample17 ∅
        sampleSnapshots).result = some r ∧
      r.Output = utf8 "All selected snapshots deleted." ∧ r.Output ≠ utf8 "deleted 17") ∧
    (∃ r, (executeActionCmd (fun _ => (String.mk (List.replicate 501 'x'), some "exit status 1"))
        .ActionDelete sample17 ∅ sampleSnapshots).result = some r ∧
      r.Output = utf8 (String.mk (List.replicate 501 'x')) ∧
      r.Output.bytes.length = 501 ∧
      500 < (String.mk (List.replicate 501 'x')).length) :=
  ⟨⟨_, rfl, by decide, by decide⟩, ⟨_, rfl, by decide, by decide⟩,
    ⟨_, rfl, rfl, by
      show (utf8 (String.mk (List.replicate 501 'x'))).bytes.length = 501
      rw [utf8_length]
      show ((List.replicate 501 'x').map Char.utf8Size).sum = 501
      rw [List.map_replicate, List.sum_replicate]
      rfl, by
      show 500 < (List.replicate 501 'x').length
      rw [List.length_replicate]
      omega⟩⟩

/-- Claim C16, amended: for restore and status on a single target and every
captured output, with or without error, the completion carries the error of the
command and, as output, the captured output with the white space at both ends
removed when that has at most 500 bytes, and otherwise exactly its first 497
bytes followed by `"..."`, 500 bytes in all; the output has at most 500 bytes,
hence at most 500 characters.  A delete without error carries the fixed text
`"All selected snapshots deleted."`, whatever the number of targets. -/
theorem completion_output_bounded (sh : Shell) (snap : Snapshot) (selected : Finset Int)
    (allSnaps : List Snapshot) :
    (∀ t kind, resolveTargets snap selected allSnaps = [t] →
      kind = ActionKind.ActionRestore ∨ kind = ActionKind.ActionStatus →
      ∃ args r, (executeActionCmd sh kind snap selected allSnaps).invoked = [args] ∧
        (executeActionCmd sh kind snap selected allSnaps).result = some r ∧
        r.Err = (sh args).2 ∧ r.Output = truncateOutput (sh args).1 ∧
        r.Output.bytes.length ≤ 500 ∧ r.Output.text.length ≤ 500 ∧
        ((utf8 (trimSpace (sh args).1)).bytes.length ≤ 500 →
          r.Output = utf8 (trimSpace (sh args).1)) ∧
        (500 < (utf8 (trimSpace (sh args).1)).bytes.length →
          r.Output.bytes =
            (utf8 (trimSpace (sh args).1)).bytes.take 497 ++ (utf8 "...").bytes ∧
          r.Output.bytes.length = 500)) ∧
    ((sh ("delete" ::
        (resolveTargets snap selected allSnaps).map (fun t => decimal t.Number))).2 = none →
      ∃ r, (executeActionCmd sh .ActionDelete snap selected allSnaps).invoked =
          [ "delete" ::
            (resolveTargets snap selected allSnaps).map (fun t => decimal t.Number) ] ∧
        (executeActionCmd sh .ActionDelete snap selected allSnaps).result = some r ∧
        r.Err = none ∧ r.Output = utf8 "All selected snapshots deleted.") := by
  constructor
  · intro t kind ht hk
    obtain ⟨hr, hs⟩ := executeActionCmd_single_result sh snap t selected allSnaps ht
    rcases hk with rfl | rfl
    · rw [hr]
      have h := truncateOutput_spec (sh ["rollback", decimal t.Number]).1
      exact ⟨_, _, rfl, rfl, rfl, rfl, h.1, h.2.1, h.2.2.1, h.2.2.2⟩
    · rw [hs]
      have h := truncateOutput_spec
        (sh ["status", decimal (computeStatusStart t) ++ ".." ++ decimal t.Number]).1
      exact ⟨_, _, rfl, rfl, rfl, rfl, h.1, h.2.1, h.2.2.1, h.2.2.2⟩
  · intro hnone
    refine ⟨{ Kind := .ActionDelete, Snap := snap, Err := none,
              Output := utf8 "All selected snapshots deleted." },
      executeActionCmd_delete_invoked sh snap selected allSnaps, ?_, rfl, rfl⟩
    rw [executeActionCmd_delete_result, hnone]

/-- Witness of the amended C16: status on snapshot 17 with a captured output of
600 characters between white space, and a delete of the selection 17, 18. -/
theorem completion_output_bounded_witness :
    (∃ args r,
      (executeActionCmd (fun _ => ("  " ++ String.mk (List.replicate 600 'x') ++ "\n", none))
        .ActionStatus sample17 ∅ sampleSnapshots).invoked = [args] ∧
      (executeActionCmd (fun _ => ("  " ++ String.mk (List.replicate 600 'x') ++ "\n", none))
        .ActionStatus sample17 ∅ sampleSnapshots).result = some r ∧
      r.Output.bytes.length ≤ 500 ∧ r.Output.text.length ≤ 500) ∧
    ∃ r, (executeActionCmd quietShell .ActionDelete sample0 {17, 18} sampleSnapshots).invoked =
        [["delete", "17", "18"]] ∧
      (executeActionCmd quietShell .ActionDelete sample0 {17, 18} sampleSnapshots).result =
        some r ∧
      r.Err = none ∧ r.Output = utf8 "All selected snapshots deleted." := by
  constructor
  · obtain ⟨args, r, h1, h2, _, _, h3, h4, _⟩ :=
      (completion_output_bounded
        (fun _ => ("  " ++ String.mk (List.replicate 600 'x') ++ "\n", none))
        sample17 ∅ sampleSnapshots).1 sample17 .ActionStatus (by decide) (Or.inr rfl)
    exact ⟨args, r, h1, h2, h3, h4⟩
  · exact (completion_output_bounded quietShell sample0 {17, 18} sampleSnapshots).2 rfl

/-- Claim C18: while `Loading` is true the key `r` (focus on the table) and a
refresh-requested event leave the state unchanged and schedule nothing; while
`Loading` is false each sets `Loading` (and the status line) and schedules
exactly one listing operation and one spinner tick. -/
theorem refresh_request_guard (env : Env) (sample : List Snapshot) (m : UIState) :
    (m.Loading = true →
      Update env sample m .RefreshTriggerMsg = some (m, []) ∧
      (m.FocusedElement = "table" → Update env sample m (.KeyMsg "r") = some (m, []))) ∧
    (m.Loading = false →
      Update env sample m .RefreshTriggerMsg =
        some ({ m with Loading := true, Status := "Refreshing snapshots..." },
          [Op.refreshSnapshots, Op.tick]) ∧
      (m.FocusedElement = "table" →
        Update env sample m (.KeyMsg "r") =
          some ({ m with Loading := true, Status := "Refreshing snapshots..." },
            [Op.refreshSnapshots, Op.tick]))) := by
  constructor
  · intro hl
    refine ⟨by simp [Update, handleRefreshTrigger, hl], ?_⟩
    intro hf
    simp [Update, handleKey, handleFocusedKey, hf, hl]
  · intro hl
    refine ⟨by simp [Update, handleRefreshTrigger, hl], ?_⟩
    intro hf
    simp [Update, handleKey, handleFocusedKey, hf, hl]

/-- Witness of C18 on the initial model (loading) and on the same model once
loading is over. -/
theorem refresh_request_guard_witness :
    Update plainEnv sampleSnapshots initialModel (.KeyMsg "r") = some (initialModel, []) ∧
    Update plainEnv sampleSnapshots { initialModel with Loading := false } .RefreshTriggerMsg =
      some ({ initialModel with Loading := true, Status := "Refreshing snapshots..." },
        [Op.refreshSnapshots, Op.tick]) :=
  ⟨((refresh_request_guard plainEnv sampleSnapshots initialModel).1 rfl).2 rfl,
   ((refresh_request_guard plainEnv sampleSnapshots
      { initialModel with Loading := false }).2 rfl).1⟩

/-- Claim C19: `sortSnapshots` changes only the sequence, and the new sequence
is the stable sort of the old one: a permutation of it in which no element is
followed by one with a smaller sort value (a larger one when `SortReverse` is
set), and in which the elements of each sort value are in their old order; the
sample snapshots 0, 17, 18 sorted by number with `SortReverse` set give
18, 17, 0. -/
theorem sortSnapshots_stable (m : UIState) :
    (sortSnapshots m).Snapshots.Perm m.Snapshots ∧
    (sortSnapshots m).Snapshots.Pairwise (fun a b =>
      if m.SortReverse then
        strLess (valueForSort a m.SortKey) (valueForSort b m.SortKey) = false
      else strLess (valueForSort b m.SortKey) (valueForSort a m.SortKey) = false) ∧
    (∀ v : String,
      (sortSnapshots m).Snapshots.filter (fun s => decide (valueForSort s m.SortKey = v)) =
        m.Snapshots.filter (fun s => decide (valueForSort s m.SortKey = v))) ∧
    sortSnapshots m = { m with Snapshots := (sortSnapshots m).Snapshots } ∧
    ((sortSnapshots { initialModel with SortKey := "number", SortReverse := true }).Snapshots.map
      (fun s => s.Number)) = [18, 17, 0] := by
  refine ⟨stableSort_perm _ _, ?_, ?_, rfl, by decide⟩
  · have h := stableSort_pairwise (sortLess m.SortKey m.SortReverse)
      (sortLess_asymm m.SortKey m.SortReverse)
      (sortLess_le_trans m.SortKey m.SortReverse) m.Snapshots
    refine List.Pairwise.imp ?_ h
    intro a b hab
    unfold sortLess at hab
    simp only at hab
    split_ifs at hab ⊢ <;> exact hab
  · intro v
    apply stableSort_filter
    intro a b ha hb
    apply sortLess_irrefl
    rw [of_decide_eq_true ha, of_decide_eq_true hb]

/-- Claim C20 as stated fails outside the padding width: number 100000000 has
nine digits and sorts before number 99999999, and the negative number -5 sorts
before -17. -/
theorem wide_numbers_sort_wrong :
    strLess (valueForSort { sample0 with Number := 100000000 } "number")
        (valueForSort { sample0 with Number := 99999999 } "number") = true ∧
    ¬ ((100000000 : Int) < 99999999) ∧
    strLess (valueForSort { sample0 with Number := -5 } "number")
        (valueForSort { sample0 with Number := -17 } "number") = true ∧
    ¬ ((-5 : Int) < -17) := by
  decide

/-- Claim C20, amended: for two snapshots whose values of a numeric sort field
are not negative and fit the padding width (below `10 ^ 8` for `number`,
`pre_number` and `post_number`, below `10 ^ 16` for `used_space`), an absent
pre-number, post-number or used space being read as 0, `valueForSort` of the
first is lexically less than that of the second exactly when the value of the
first is less than that of the second. -/
theorem numeric_sort_values_ordered (a b : Snapshot) :
    (0 ≤ a.Number → a.Number < 10 ^ 8 → 0 ≤ b.Number → b.Number < 10 ^ 8 →
      (strLess (valueForSort a "number") (valueForSort b "number") = true ↔
        a.Number < b.Number)) ∧
    (0 ≤ intValue a.PreNumber → intValue a.PreNumber < 10 ^ 8 →
      0 ≤ intValue b.PreNumber → intValue b.PreNumber < 10 ^ 8 →
      (strLess (valueForSort a "pre_number") (valueForSort b "pre_number") = true ↔
        intValue a.PreNumber < intValue b.PreNumber)) ∧
    (0 ≤ intValue a.PostNumber → intValue a.PostNumber < 10 ^ 8 →
      0 ≤ intValue b.PostNumber → intValue b.PostNumber < 10 ^ 8 →
      (strLess (valueForSort a "post_number") (valueForSort b "post_number") = true ↔
        intValue a.PostNumber < intValue b.PostNumber)) ∧
    (0 ≤ int64Value a.UsedSpace → int64Value a.UsedSpace < 10 ^ 16 →
      0 ≤ int64Value b.UsedSpace → int64Value b.UsedSpace < 10 ^ 16 →
      (strLess (valueForSort a "used_space") (valueForSort b "used_space") = true ↔
        int64Value a.UsedSpace < int64Value b.UsedSpace)) := by
  refine ⟨?_, ?_, ?_, ?_⟩
  · intro ha0 ha hb0 hb
    have h := sprintfZeroPad_less 8 a.Number b.Number (by decide) ha0 ha hb0 hb
    simp [valueForSort, h]
  · intro ha0 ha hb0 hb
    have h := sprintfZeroPad_less 8 _ _ (by decide) ha0 ha hb0 hb
    simp [valueForSort, h]
  · intro ha0 ha hb0 hb
    have h := sprintfZeroPad_less 8 _ _ (by decide) ha0 ha hb0 hb
    simp [valueForSort, h]
  · intro ha0 ha hb0 hb
    have h := sprintfZeroPad_less 16 _ _ (by decide) ha0 ha hb0 hb
    simp [valueForSort, h]

/-- Witness of the amended C20 on the sample snapshots: 17 before 18 by number,
and snapshot 0 (no pre-number, read as 0) before snapshot 17 (pre-number 16). -/
theorem numeric_sort_values_ordered_witness :
    (strLess (valueForSort sample17 "number") (valueForSort sample18 "number") = true ↔
      (17 : Int) < 18) ∧
    (strLess (valueForSort sample0 "pre_number") (valueForSort sample17 "pre_number") = true ↔
      (0 : Int) < 16) :=
  ⟨(numeric_sort_values_ordered sample17 sample18).1
      (by decide) (by decide) (by decide) (by decide),
   (numeric_sort_values_ordered sample0 sample17).2.1
      (by decide) (by decide) (by decide) (by decide)⟩

/-! ## Lemmas: sorting a sorted sequence -/

theorem stableSort_of_pairwise {α : Type} (less : α → α → Bool) (l : List α)
    (h : l.Pairwise (fun a b => less b a = false)) : stableSort less l = l :=
  List.Sorted.insertionSort_eq h

theorem stableSort_idem {α : Type} (less : α → α → Bool)
    (hasymm : ∀ a b, less a b = true → less b a = false)
    (htrans : ∀ a b c, less b a = false → less c b = false → less c a = false)
    (l : List α) : stableSort less (stableSort less l) = stableSort less l :=
  stableSort_of_pairwise less _ (stableSort_pairwise less hasymm htrans l)

/-- Sorted lists with the same elements of each key are equal, when elements
that are not ordered either way have the same key. -/
theorem eq_of_pairwise_of_filter {α κ : Type} [DecidableEq κ] (less : α → α → Bool)
    (key : α → κ)
    (hkey : ∀ a b, less a b = false → less b a = false → key a = key b) :
    ∀ A B : List α, A.Pairwise (fun a b => less b a = false) →
      B.Pairwise (fun a b => less b a = false) →
      (∀ v, A.filter (fun a => decide (key a = v)) = B.filter (fun a => decide (key a = v))) →
      A = B := by
  intro A
  induction A with
  | nil =>
    intro B _ _ hf
    cases B with
    | nil => rfl
    | cons b B' =>
      have := hf (key b)
      simp at this
  | cons a A' ih =>
    intro B hA hB hf
    cases B with
    | nil =>
      have := hf (key a)
      simp at this
    | cons b B' =>
      have hA' := List.pairwise_cons.mp hA
      have hB' := List.pairwise_cons.mp hB
      have haB : a ∈ b :: B' := by
        have h1 : a ∈ (a :: A').filter (fun x => decide (key x = key a)) := by simp
        rw [hf (key a)] at h1
        exact (List.mem_filter.mp h1).1
      have hbA : b ∈ a :: A' := by
        have h1 : b ∈ (b :: B').filter (fun x => decide (key x = key b)) := by simp
        rw [← hf (key b)] at h1
        exact (List.mem_filter.mp h1).1
      have hk : key a = key b := by
        rcases List.mem_cons.mp haB with hab | haB'
        · rw [hab]
        · rcases List.mem_cons.mp hbA with hba | hbA'
          · rw [hba]
          · exact hkey a b (hB'.1 a haB') (hA'.1 b hbA')
      have hhead := hf (key a)
      simp only [List.filter_cons, hk, decide_True, if_true, List.cons.injEq] at hhead
      obtain ⟨hab, _⟩ := hhead
      subst hab
      have htail : ∀ v, A'.filter (fun x => decide (key x = v)) =
          B'.filter (fun x => decide (key x = v)) := by
        intro v
        have h1 := hf v
        by_cases hv : key a = v
        · simp only [List.filter_cons, hv, decide_True, if_true, List.cons.injEq, true_and] at h1
          exact h1
        · simp only [List.filter_cons, hv, decide_False] at h1
          exact h1
      rw [ih B' hA'.2 hB'.2 htail]

theorem currentSnapshot_shape (m m1 : UIState) (r : Option Snapshot)
    (h : currentSnapshot m = some (m1, r)) :
    m1 = { m with Cursor := m1.Cursor } ∧ (0 ≤ m.Cursor → 0 ≤ m1.Cursor) := by
  unfold currentSnapshot at h
  split_ifs at h with h0 h1
  · simp only [Option.some.injEq, Prod.mk.injEq] at h
    obtain ⟨rfl, rfl⟩ := h
    exact ⟨rfl, fun h => h⟩
  · simp only at h
    split at h
    · cases h
    · simp only [Option.some.injEq, Prod.mk.injEq] at h
      obtain ⟨rfl, rfl⟩ := h
      refine ⟨rfl, fun _ => ?_⟩
      show 0 ≤ (m.Snapshots.length : Int) - 1
      have : m.Snapshots.length ≠ 0 := h0
      omega
  · simp only at h
    split at h
    · cases h
    · simp only [Option.some.injEq, Prod.mk.injEq] at h
      obtain ⟨rfl, rfl⟩ := h
      exact ⟨rfl, fun h => h⟩

theorem currentSnapshot_nonneg (m : UIState) (h0 : 0 ≤ m.Cursor) :
    ∃ m1 r, currentSnapshot m = some (m1, r) ∧ (r = none ↔ m.Snapshots = []) := by
  unfold currentSnapshot
  by_cases hl : m.Snapshots.length = 0
  · rw [if_pos hl]
    exact ⟨m, none, rfl, by simp [List.length_eq_zero.mp hl]⟩
  · rw [if_neg hl]
    have hne : m.Snapshots ≠ [] := fun h => hl (by rw [h]; rfl)
    by_cases hc : m.Cursor ≥ (m.Snapshots.length : Int)
    · simp only [if_pos hc]
      obtain ⟨a, ha, _⟩ := sliceAt_inrange m.Snapshots ((m.Snapshots.length : Int) - 1)
        (by omega) (by omega)
      rw [ha]
      exact ⟨_, some a, rfl, by simp [hne]⟩
    · simp only [if_neg hc]
      obtain ⟨a, ha, _⟩ := sliceAt_inrange m.Snapshots m.Cursor h0 (by omega)
      rw [ha]
      exact ⟨_, some a, rfl, by simp [hne]⟩

theorem setActionPreview_shape (m m1 : UIState) (h : setActionPreview m = some m1) :
    m1 = { m with Cursor := m1.Cursor, ActionMessage := m1.ActionMessage } ∧
    (0 ≤ m.Cursor → 0 ≤ m1.Cursor) := by
  unfold setActionPreview at h
  split at h
  · cases h
  · rename_i m2 snap hc
    cases h
    obtain ⟨e, hn⟩ := currentSnapshot_shape m m2 _ hc
    refine ⟨?_, hn⟩
    conv_lhs => rw [e]
  · rename_i m2 hc
    cases h
    obtain ⟨e, hn⟩ := currentSnapshot_shape m m2 _ hc
    refine ⟨?_, hn⟩
    conv_lhs => rw [e]

theorem setActionPreview_nonneg (m : UIState) (h0 : 0 ≤ m.Cursor) :
    ∃ m1, setActionPreview m = some m1 := by
  obtain ⟨m1, r, hc, _⟩ := currentSnapshot_nonneg m h0
  unfold setActionPreview
  rw [hc]
  cases r <;> exact ⟨_, rfl⟩

theorem setActionPreview_fields (m m1 : UIState) (h : setActionPreview m = some m1) :
    m1.Snapshots = m.Snapshots ∧ m1.SortKey = m.SortKey ∧ m1.SortReverse = m.SortReverse ∧
    m1.FocusedElement = m.FocusedElement ∧ (0 ≤ m.Cursor → 0 ≤ m1.Cursor) := by
  obtain ⟨e, hn⟩ := setActionPreview_shape m m1 h
  refine ⟨?_, ?_, ?_, ?_, hn⟩ <;> rw [e]

/-- The state `toggleSort` sorts: the sort parameters are set first. -/
theorem toggleSort_spec (m : UIState) (field : String) (h0 : 0 ≤ m.Cursor) :
    ∃ m1, toggleSort m field = some m1 ∧
      m1.SortKey = field ∧
      m1.SortReverse = (if m.SortKey = field then !m.SortReverse else false) ∧
      m1.Snapshots = stableSort
        (sortLess field (if m.SortKey = field then !m.SortReverse else false)) m.Snapshots ∧
      m1.FocusedElement = m.FocusedElement ∧
      0 ≤ m1.Cursor := by
  unfold toggleSort
  simp only
  by_cases hk : m.SortKey = field
  · simp only [if_pos hk]
    have hc : 0 ≤ (ensureCursorVisible (sortSnapshots
        { m with SortReverse := !m.SortReverse })).Cursor := by
      rw [ensureCursorVisible_eq]; exact h0
    obtain ⟨m2, hp⟩ := setActionPreview_nonneg _ hc
    rw [hp]
    obtain ⟨e1, e2, e3, e4, hn⟩ := setActionPreview_fields _ _ hp
    rw [ensureCursorVisible_eq] at e1 e2 e3 e4
    refine ⟨_, rfl, ?_, e3, ?_, e4, hn hc⟩
    · exact e2.trans hk
    · rw [← hk]; exact e1
  · simp only [if_neg hk]
    have hc : 0 ≤ (ensureCursorVisible (sortSnapshots
        { m with SortKey := field, SortReverse := false })).Cursor := by
      rw [ensureCursorVisible_eq]; exact h0
    obtain ⟨m2, hp⟩ := setActionPreview_nonneg _ hc
    rw [hp]
    obtain ⟨e1, e2, e3, e4, hn⟩ := setActionPreview_fields _ _ hp
    rw [ensureCursorVisible_eq] at e1 e2 e3 e4
    exact ⟨_, rfl, e2, e3, e1, e4, hn hc⟩

theorem sortLess_tie (key : String) (reverse : Bool) (a b : Snapshot)
    (h1 : sortLess key reverse a b = false) (h2 : sortLess key reverse b a = false) :
    valueForSort a key = valueForSort b key := by
  unfold sortLess at h1 h2
  cases reverse
  · exact strLess_total _ _ h1 h2
  · exact strLess_total _ _ h2 h1

theorem sortLess_same_value (key : String) (reverse : Bool) (v : String) (a b : Snapshot)
    (ha : decide (valueForSort a key = v) = true) (hb : decide (valueForSort b key = v) = true) :
    sortLess key reverse b a = false := by
  have ha1 : valueForSort a key = v := of_decide_eq_true ha
  have hb1 : valueForSort b key = v := of_decide_eq_true hb
  unfold sortLess
  simp only [ha1, hb1]
  cases reverse <;> exact strLess_irrefl v

theorem sort_back {key : String} (r1 r2 : Bool) (l : List Snapshot)
    (hs : l.Pairwise (fun a b => sortLess key r2 b a = false)) :
    stableSort (sortLess key r2) (stableSort (sortLess key r1) l) = l := by
  refine eq_of_pairwise_of_filter (sortLess key r2) (fun a => valueForSort a key)
    (fun a b => sortLess_tie key r2 a b) _ _
    (stableSort_pairwise _ (sortLess_asymm key r2) (sortLess_le_trans key r2) _) hs ?_
  intro v
  rw [stableSort_filter _ _ (fun a b => sortLess_same_value key r2 v a b),
    stableSort_filter _ _ (fun a b => sortLess_same_value key r1 v a b)]

theorem flatten_tokens_eq (l1 l2 : List String) (h : l1.Perm l2) :
    stableSort strLess l1 = stableSort strLess l2 := by
  haveI : IsAntisymm String (fun a b => strLess b a = false) :=
    ⟨fun a b h1 h2 => strLess_total a b h2 h1⟩
  refine List.eq_of_perm_of_sorted ?_
    (stableSort_pairwise strLess strLess_asymm strLess_le_trans l1)
    (stableSort_pairwise strLess strLess_asymm strLess_le_trans l2)
  exact ((stableSort_perm strLess l1).trans h).trans (stableSort_perm strLess l2).symm

theorem flattenUserData_eq (entries : List (String × String)) :
    flattenUserData (some entries) =
      join (stableSort strLess (entries.map (fun kv => kv.1 ++ "=" ++ kv.2))) " " := by
  cases entries with
  | nil => rfl
  | cons e es =>
    unfold flattenUserData
    simp only [List.length_cons]
    rw [if_neg (by omega)]

/-! ## Lemmas: the focus token along a transition -/

theorem currentSnapshot_focus (m m1 : UIState) (r : Option Snapshot)
    (h : currentSnapshot m = some (m1, r)) : m1.FocusedElement = m.FocusedElement := by
  rw [(currentSnapshot_shape m m1 r h).1]

theorem setActionPreview_focus (m m1 : UIState) (h : setActionPreview m = some m1) :
    m1.FocusedElement = m.FocusedElement :=
  (setActionPreview_fields m m1 h).2.2.2.1

theorem ensureCursorVisible_focus (m : UIState) :
    (ensureCursorVisible m).FocusedElement = m.FocusedElement := by
  rw [ensureCursorVisible_eq]

theorem move_focus (m0 m2 : UIState)
    (hp : setActionPreview (ensureCursorVisible m0) = some m2) :
    m2.FocusedElement = m0.FocusedElement := by
  have := setActionPreview_focus _ _ hp
  rw [ensureCursorVisible_focus] at this
  exact this

theorem toggleSort_focus (m m1 : UIState) (field : String) (h : toggleSort m field = some m1) :
    m1.FocusedElement = m.FocusedElement := by
  unfold toggleSort at h
  simp only at h
  split at h
  · cases h
  · rename_i m2 hp
    cases h
    have := move_focus _ _ hp
    simp only [this, sortSnapshots]
    split_ifs <;> rfl

theorem updateSortKey_focus (m m1 : UIState) (key : String) (h : updateSortKey m key = some m1) :
    m1.FocusedElement = m.FocusedElement := by
  unfold updateSortKey at h
  simp only at h
  split_ifs at h
  · cases h
    rfl
  · split at h
    · cases h
    · exact toggleSort_focus _ _ _ h

theorem dispatchAction_focus (m m1 : UIState) (focus : Option String) (kind : ActionKind)
    (message : String) (otherwise : UIState → Option (UIState × Cmd)) (cmd : Cmd)
    (h : dispatchAction m focus kind message otherwise = some (m1, cmd)) :
    otherwise m = some (m1, cmd) ∨
    m1.FocusedElement = (match focus with | some f => f | none => m.FocusedElement) := by
  unfold dispatchAction at h
  split_ifs at h with hb
  · exact Or.inl h
  · split at h
    · cases h
    · rename_i m2 hc
      have := (currentSnapshot_some m m2 none hc).2 rfl
      rw [this] at h
      exact Or.inl h
    · rename_i m2 s hc
      have hm2 := currentSnapshot_focus _ _ _ hc
      cases focus with
      | none =>
        simp only at h
        split at h
        · rename_i m3 snap hc2
          simp only [Option.some.injEq, Prod.mk.injEq] at h
          obtain ⟨rfl, rfl⟩ := h
          exact Or.inr ((currentSnapshot_focus _ _ _ hc2).trans hm2)
        · cases h
      | some f =>
        simp only at h
        split at h
        · rename_i m3 snap hc2
          simp only [Option.some.injEq, Prod.mk.injEq] at h
          obtain ⟨rfl, rfl⟩ := h
          exact Or.inr (currentSnapshot_focus _ _ _ hc2)
        · cases h

theorem headerClick_focus (m : UIState) (x : Int) (specs : List ColumnSpec) (currentX : Int)
    (m1 : UIState) (cmd : Cmd) (h : headerClick m x specs currentX = some (m1, cmd)) :
    m1.FocusedElement = m.FocusedElement := by
  induction specs generalizing currentX with
  | nil =>
    simp only [headerClick, Option.some.injEq, Prod.mk.injEq] at h
    obtain ⟨rfl, rfl⟩ := h
    rfl
  | cons spec rest ih =>
    simp only [headerClick] at h
    split_ifs at h
    · split at h
      · cases h
      · rename_i m2 ht
        simp only [Option.some.injEq, Prod.mk.injEq] at h
        obtain ⟨rfl, rfl⟩ := h
        exact toggleSort_focus _ _ _ ht
    · exact ih _ h

theorem dispatchAction_keeps_focus (m m1 : UIState) (kind : ActionKind)
    (message : String) (cmd0 cmd : Cmd)
    (h : dispatchAction m none kind message (fun m => some (m, cmd0)) = some (m1, cmd)) :
    m1.FocusedElement = m.FocusedElement := by
  rcases dispatchAction_focus _ _ _ _ _ _ _ h with h1 | h1
  · simp only [Option.some.injEq, Prod.mk.injEq] at h1
    obtain ⟨rfl, rfl⟩ := h1
    rfl
  · exact h1

theorem handleFocusedKey_focus (m m1 : UIState) (key : String) (cmd : Cmd)
    (h : handleFocusedKey m key = some (m1, cmd)) :
    m1.FocusedElement = m.FocusedElement := by
  unfold handleFocusedKey at h
  by_cases hf : m.FocusedElement = "table"
  · rw [if_pos hf] at h
    by_cases h1 : key = "r"
    · rw [if_pos h1] at h
      split_ifs at h <;> (cases h; rfl)
    rw [if_neg h1] at h
    by_cases h2 : key = "j" ∨ key = "down"
    · rw [if_pos h2] at h
      split_ifs at h
      · simp only at h
        split at h
        · cases h
        · rename_i m2 hp
          cases h
          have h9 := move_focus _ _ hp
          exact h9
      · cases h
        rfl
    rw [if_neg h2] at h
    by_cases h3 : key = "k" ∨ key = "up"
    · rw [if_pos h3] at h
      split_ifs at h
      · simp only at h
        split at h
        · cases h
        · rename_i m2 hp
          cases h
          have h9 := move_focus _ _ hp
          exact h9
      · cases h
        rfl
    rw [if_neg h3] at h
    by_cases h4 : key = "pgdn" ∨ key = "pagedown"
    · rw [if_pos h4] at h
      split_ifs at h
      · simp only at h
        split at h
        · cases h
        · rename_i m2 hp
          cases h
          have h9 := move_focus _ _ hp
          exact h9
      · cases h
        rfl
    rw [if_neg h4] at h
    by_cases h5 : key = "pgup" ∨ key = "pageup"
    · rw [if_pos h5] at h
      split_ifs at h
      · simp only at h
        split at h
        · cases h
        · rename_i m2 hp
          cases h
          have h9 := move_focus _ _ hp
          exact h9
      · cases h
        rfl
    rw [if_neg h5] at h
    by_cases h6 : key = "enter"
    · rw [if_pos h6] at h
      cases h
      rfl
    rw [if_neg h6] at h
    by_cases h7 : key = " "
    · rw [if_pos h7] at h
      split_ifs at h
      · split at h
        · cases h
        · simp only at h
          split at h
          · cases h
          · rename_i m2 hp
            cases h
            rw [setActionPreview_focus _ _ hp]
            split_ifs <;> rfl
      · cases h
        rfl
    rw [if_neg h7] at h
    split_ifs at h
    · split at h
      · cases h
      · rename_i m2 hp
        cases h
        exact updateSortKey_focus _ _ _ hp
    · cases h
      rfl
  · rw [if_neg hf] at h
    split_ifs at h
    all_goals first
      | (cases h; rfl)
      | exact dispatchAction_keeps_focus _ _ _ _ [] _ h

theorem nextFocus_valid (f : String) : validFocus (nextFocus f) := by
  unfold nextFocus validFocus
  split_ifs <;> simp

theorem handleKey_focus (m m1 : UIState) (key : String) (cmd : Cmd)
    (h : handleKey m key = some (m1, cmd)) : FocusStep m m1 := by
  unfold handleKey at h
  by_cases hq : key = "q" ∨ key = "ctrl+c"
  · rw [if_pos hq] at h
    cases h
    exact Or.inl rfl
  rw [if_neg hq] at h
  by_cases ht : key = "tab"
  · rw [if_pos ht] at h
    cases h
    exact Or.inr (nextFocus_valid _)
  rw [if_neg ht] at h
  split at h
  · cases h
  · rename_i m2 cmd2 hk
    have hg := handleFocusedKey_focus _ _ _ _ hk
    have fin : ∀ (kind : ActionKind) (message : String),
        dispatchAction m2 none kind message (fun m => some (m, cmd2)) = some (m1, cmd) →
        FocusStep m m1 := by
      intro kind message hd
      exact Or.inl ((dispatchAction_keeps_focus _ _ _ _ _ _ hd).trans hg)
    split_ifs at h
    · exact fin _ _ h
    · exact fin _ _ h
    · exact fin _ _ h
    · cases h
      exact Or.inl hg
    · cases h
      exact Or.inl hg

theorem statusClick_focus (m m1 : UIState) (cmd : Cmd) (c : Prop) [Decidable c]
    (h : (if c then dispatchAction m (some "status") .ActionStatus fetchingStatus
          (fun m => some (m, []))
        else some (m, [])) = some (m1, cmd)) : FocusStep m m1 := by
  split_ifs at h
  · rcases dispatchAction_focus _ _ _ _ _ _ _ h with h1 | h1
    · cases h1
      exact Or.inl rfl
    · exact Or.inr (Or.inr (Or.inr (Or.inr h1)))
  · cases h
    exact Or.inl rfl

theorem deleteClick_focus (m m1 : UIState) (cmd : Cmd) (c d : Prop) [Decidable c]
    [Decidable d]
    (h : (if d then
          dispatchAction m (some "delete") .ActionDelete executingDelete (fun m =>
            if c then dispatchAction m (some "status") .ActionStatus fetchingStatus
              (fun m => some (m, []))
            else some (m, []))
        else
          if c then dispatchAction m (some "status") .ActionStatus fetchingStatus
            (fun m => some (m, []))
          else some (m, [])) = some (m1, cmd)) : FocusStep m m1 := by
  by_cases hd : d
  · rw [if_pos hd] at h
    rcases dispatchAction_focus _ _ _ _ _ _ _ h with h1 | h1
    · exact statusClick_focus m m1 cmd c h1
    · exact Or.inr (Or.inr (Or.inr (Or.inl h1)))
  · rw [if_neg hd] at h
    exact statusClick_focus m m1 cmd c h

theorem handleMouse_wheel_focus (env : Env) (m m1 : UIState) (X Y : Int) (cmd : Cmd) :
    (handleMouse env m .MouseWheelUp X Y = some (m1, cmd) → FocusStep m m1) ∧
    (handleMouse env m .MouseWheelDown X Y = some (m1, cmd) → FocusStep m m1) := by
  constructor
  · intro h
    rw [handleMouse_wheelUp] at h
    split_ifs at h
    · split at h
      · cases h
      · rename_i m2 hp
        cases h
        have h9 := move_focus _ _ hp
        exact Or.inl h9
    · cases h
      exact Or.inl rfl
  · intro h
    rw [handleMouse_wheelDown] at h
    split_ifs at h
    · split at h
      · cases h
      · rename_i m2 hp
        cases h
        have h9 := move_focus _ _ hp
        exact Or.inl h9
    · cases h
      exact Or.inl rfl

theorem handleMouse_left_focus (env : Env) (m m1 : UIState) (X Y : Int) (cmd : Cmd)
    (h : handleMouse env m .MouseLeft X Y = some (m1, cmd)) : FocusStep m m1 := by
  by_cases hx : X < tableWidthOf env m
  · rw [handleMouse_left_table env m X Y hx] at h
    by_cases hy : Y ≥ 1 ∧ Y ≤ 2
    · rw [if_pos hy] at h
      split_ifs at h
      · cases h
        exact Or.inl rfl
      · exact Or.inl (headerClick_focus _ _ _ _ _ _ h)
    rw [if_neg hy] at h
    split_ifs at h
    · split at h
      · cases h
      · rename_i m2 hp
        cases h
        have h9 := move_focus _ _ hp
        exact Or.inr (Or.inl h9)
    · cases h
      exact Or.inr (Or.inl rfl)
    · cases h
      exact Or.inl rfl
  · rw [handleMouse_left_panel env m X Y hx] at h
    split at h
    · cases h
    · rename_i restoreY deleteY statusY hpos
      by_cases hxx : X ≥ tableWidthOf env m + 2 ∧ X ≤ tableWidthOf env m + 2 + 25
      · rw [if_pos hxx] at h
        by_cases hr : Y ≥ restoreY ∧ Y < restoreY + 3
        · rw [if_pos hr] at h
          rcases dispatchAction_focus _ _ _ _ _ _ _ h with h1 | h1
          · exact deleteClick_focus m m1 cmd _ _ h1
          · exact Or.inr (Or.inr (Or.inl h1))
        · rw [if_neg hr] at h
          exact deleteClick_focus m m1 cmd _ _ h
      · rw [if_neg hxx] at h
        cases h
        exact Or.inl rfl

theorem handleMouse_focus (env : Env) (m m1 : UIState) (t : MouseEventType) (X Y : Int)
    (cmd : Cmd) (h : handleMouse env m t X Y = some (m1, cmd)) : FocusStep m m1 := by
  cases t
  case MouseWheelUp => exact (handleMouse_wheel_focus env m m1 X Y cmd).1 h
  case MouseWheelDown => exact (handleMouse_wheel_focus env m m1 X Y cmd).2 h
  case MouseLeft => exact handleMouse_left_focus env m m1 X Y cmd h
  all_goals
    have h1 : some (m, ([] : Cmd)) = some (m1, cmd) := h
    cases h1
    exact Or.inl rfl

theorem handleTick_focus (m m1 : UIState) (cmd : Cmd) (h : handleTick m = some (m1, cmd)) :
    m1.FocusedElement = m.FocusedElement := by
  unfold handleTick at h
  split_ifs at h
  · cases h
    rfl
  · simp only at h
    split at h
    · cases h
    · cases h
      rfl

theorem handleRefreshTrigger_focus (m m1 : UIState) (cmd : Cmd)
    (h : handleRefreshTrigger m = some (m1, cmd)) : m1.FocusedElement = m.FocusedElement := by
  unfold handleRefreshTrigger at h
  split_ifs at h
  · cases h
    rfl
  · cases h
    rfl

theorem handleRefreshResult_focus (env : Env) (sample : List Snapshot) (m m1 : UIState)
    (snapshots : List Snapshot) (err : Option String) (cmd : Cmd)
    (h : handleRefreshResult env sample m snapshots err = some (m1, cmd)) :
    m1.FocusedElement = m.FocusedElement := by
  unfold handleRefreshResult at h
  cases err with
  | some e =>
    simp only [Option.some.injEq, Prod.mk.injEq] at h
    obtain ⟨rfl, rfl⟩ := h
    rfl
  | none =>
    simp only at h
    split at h
    · cases h
    · rename_i m2 hp
      cases h
      rw [setActionPreview_focus _ _ hp]
      simp only [sortSnapshots]
      split_ifs <;> rfl

theorem handleActionResult_focus (m m1 : UIState) (msg : ActionResult) (cmd : Cmd)
    (h : handleActionResult m msg = some (m1, cmd)) :
    m1.FocusedElement = m.FocusedElement := by
  unfold handleActionResult at h
  cases hk : msg.Kind <;> rw [hk] at h <;> simp only at h <;> first
    | (cases h; rfl)
    | (split_ifs at h <;> (cases h; rfl))

theorem Update_focus (env : Env) (sample : List Snapshot) (m m1 : UIState) (msg : Msg)
    (cmd : Cmd) (h : Update env sample m msg = some (m1, cmd)) : FocusStep m m1 := by
  cases msg with
  | WindowSizeMsg width height =>
    simp only [Update, Option.some.injEq, Prod.mk.injEq] at h
    obtain ⟨rfl, rfl⟩ := h
    refine Or.inl ?_
    rw [ensureCursorVisible_focus]
  | KeyMsg key => exact handleKey_focus _ _ _ _ h
  | MouseMsg t x y => exact handleMouse_focus _ _ _ _ _ _ _ h
  | TickMsg => exact Or.inl (handleTick_focus _ _ _ h)
  | RefreshTriggerMsg => exact Or.inl (handleRefreshTrigger_focus _ _ _ h)
  | RefreshResultMsg snapshots err => exact Or.inl (handleRefreshResult_focus _ _ _ _ _ _ _ h)
  | ActionResultMsg r => exact Or.inl (handleActionResult_focus _ _ _ _ h)
  | Other =>
    simp only [Update, Option.some.injEq, Prod.mk.injEq] at h
    obtain ⟨rfl, rfl⟩ := h
    exact Or.inl rfl

theorem World.run_focus (w w1 : World) (events : List (Env × Msg))
    (hb : validFocus w.m.FocusedElement)
    (h : World.run w events = some w1) : validFocus w1.m.FocusedElement := by
  induction events generalizing w with
  | nil =>
    simp only [World.run, Option.some.injEq] at h
    subst h
    exact hb
  | cons e rest ih =>
    obtain ⟨env, msg⟩ := e
    simp only [World.run] at h
    split at h
    · cases h
    · rename_i w2 hs
      obtain ⟨_, m1, cmd, hu, hm, _⟩ := World.step_some env w w2 msg hs
      refine ih w2 ?_ h
      rw [hm]
      rcases Update_focus env w.sample w.m m1 msg cmd hu with h1 | h1
      · rw [h1]; exact hb
      · exact h1

/-! ## Lemmas: a button in focus, the drawn layout and the decoded entry -/

theorem currentSnapshot_clamped (m : UIState) (h0 : 0 ≤ m.Cursor) (hne : m.Snapshots ≠ []) :
    ∃ snap,
      sliceAt m.Snapshots
        (if m.Cursor ≥ (m.Snapshots.length : Int) then (m.Snapshots.length : Int) - 1
         else m.Cursor) = some snap ∧
      currentSnapshot m =
        some ({ m with Cursor :=
                  if m.Cursor ≥ (m.Snapshots.length : Int) then (m.Snapshots.length : Int) - 1
                  else m.Cursor }, some snap) := by
  have hl : m.Snapshots.length ≠ 0 := fun h => hne (List.length_eq_zero.mp h)
  unfold currentSnapshot
  rw [if_neg hl]
  by_cases hc : m.Cursor ≥ (m.Snapshots.length : Int)
  · simp only [if_pos hc]
    obtain ⟨a, ha, _⟩ := sliceAt_inrange m.Snapshots ((m.Snapshots.length : Int) - 1)
      (by omega) (by omega)
    rw [ha]
    exact ⟨a, rfl, rfl⟩
  · simp only [if_neg hc]
    obtain ⟨a, ha, _⟩ := sliceAt_inrange m.Snapshots m.Cursor h0 (by omega)
    rw [ha]
    exact ⟨a, rfl, rfl⟩

theorem dispatchAction_clamped (m : UIState) (kind : ActionKind) (message : String)
    (otherwise : UIState → Option (UIState × Cmd))
    (hb : m.ActionInProgress = false) (h0 : 0 ≤ m.Cursor) (hne : m.Snapshots ≠ []) :
    ∃ snap,
      sliceAt m.Snapshots
        (if m.Cursor ≥ (m.Snapshots.length : Int) then (m.Snapshots.length : Int) - 1
         else m.Cursor) = some snap ∧
      dispatchAction m none kind message otherwise =
        some ({ m with
                Cursor :=
                  if m.Cursor ≥ (m.Snapshots.length : Int) then (m.Snapshots.length : Int) - 1
                  else m.Cursor
                ActionInProgress := true
                ActionMessage := message },
          [Op.executeAction kind snap m.SelectedSnapshots m.Snapshots]) := by
  obtain ⟨snap, hs, hc⟩ := currentSnapshot_clamped m h0 hne
  refine ⟨snap, hs, ?_⟩
  have hs2 := sliceAt_some_bounds _ _ _ hs
  obtain ⟨snap2, hc2, hs3⟩ := currentSnapshot_inrange
    { m with
      Cursor :=
        if m.Cursor ≥ (m.Snapshots.length : Int) then (m.Snapshots.length : Int) - 1
        else m.Cursor
      ActionInProgress := true
      ActionMessage := message } hs2.1 hs2.2
  have e : snap2 = snap := by
    have h3 : sliceAt m.Snapshots
        (if m.Cursor ≥ (m.Snapshots.length : Int) then (m.Snapshots.length : Int) - 1
         else m.Cursor) = some snap2 := hs3
    rw [hs] at h3
    cases h3
    rfl
  subst e
  unfold dispatchAction
  rw [hb]
  simp only [Bool.false_eq_true, if_false, hc, hc2]

theorem handleKey_button (m : UIState) (key : String)
    (hq : ¬ (key = "q" ∨ key = "ctrl+c")) (ht : key ≠ "tab") (hf : m.FocusedElement ≠ "table") :
    handleKey m key = handleFocusedKey m key := by
  unfold handleKey
  rw [if_neg hq, if_neg ht]
  cases hk : handleFocusedKey m key with
  | none => rfl
  | some p =>
    obtain ⟨m1, cmd⟩ := p
    have := handleFocusedKey_focus _ _ _ _ hk
    simp only
    rw [if_neg (by rw [this]; exact hf)]

theorem handleFocusedKey_button_idle (m : UIState) (key : String) (he : key ≠ "enter")
    (hf : m.FocusedElement ≠ "table") : handleFocusedKey m key = some (m, []) := by
  unfold handleFocusedKey
  rw [if_neg hf]
  simp only [if_neg he]
  split_ifs <;> rfl

theorem four_tabs (m : UIState) (h : validFocus m.FocusedElement) :
    pressKeys m ["tab", "tab", "tab", "tab"] = some m := by
  obtain ⟨f1, f2, f3, f4, f5, f6, f7, f8, f9, f10, f11, f12, f13, f14, f15, f16, f17, f18,
    f19, f20, f21⟩ := m
  simp only [validFocus] at h
  rcases h with h | h | h | h <;> subst h <;> rfl

theorem drawnButtons_closed (m : UIState) (h : m.DetailOpen = false) :
    drawnButtons m = some ([2, 3, 4], [5, 6, 7], [8, 9, 10]) := by
  unfold drawnButtons renderRightPanel
  simp only [h, Bool.false_eq_true, false_and, if_false]
  rfl

theorem drawnButtons_small (m : UIState) (h : m.ViewportHeight ≤ 12) :
    drawnButtons m = some ([2, 3, 4], [5, 6, 7], [8, 9, 10]) := by
  unfold drawnButtons renderRightPanel
  have h1 : ¬ ((if m.ViewportHeight + 3 - 13 < 0 then (0 : Int) else m.ViewportHeight + 3 - 13) > 2) := by
    split_ifs <;> omega
  simp only [h1, and_false, if_false]
  rfl

theorem getButtonYPositions_closed (m : UIState) (h : m.DetailOpen = false) :
    getButtonYPositions m = some (3, 7, 11) := by
  unfold getButtonYPositions
  simp only [h, Bool.false_eq_true, if_false]
  rfl

theorem toInt_default (v : Raw) (h : notAnInt v) : toInt v = (0, false) := by
  cases v
  case number text =>
    have h1 : atoi text = none := h
    simp only [toInt, h1]
  all_goals first
    | rfl
    | exact False.elim h

theorem toInt64_default (v : Raw) (h : notAnInt64 v) : toInt64 v = (none, false) := by
  cases v
  case number text =>
    have h1 : atoi text = none := h
    simp only [toInt64, h1]
  all_goals first
    | rfl
    | exact False.elim h

theorem toOptionalInt_default (v : Raw) (h : notAnInt v) : toOptionalInt v = none := by
  unfold toOptionalInt
  rw [toInt_default v h]

theorem toBool_default (v : Raw) (h : notABool v) : toBool v = false := by
  cases v
  all_goals first
    | rfl
    | exact False.elim h

theorem mapGet_absent (data : List (String × Raw)) (key : String)
    (h : data.lookup key = none) : mapGet data key = .null := by
  unfold mapGet
  rw [h]

/-! ## The claims C21 to C30 -/

/-- Claim C21: `flattenUserData` does not depend on the order in which the map
entries are enumerated: two enumerations that are permutations of each other
give the same string.  The string is the list of tokens `key=value`, sorted
lexically by the whole token (a permutation of the tokens, in non-decreasing
order), joined by single spaces; it is empty for an absent and for an empty
map; and it is the sort value of the column `userdata`. -/
theorem flattenUserData_order_independent (e1 e2 : List (String × String))
    (h : e1.Perm e2) :
    flattenUserData (some e1) = flattenUserData (some e2) ∧
    flattenUserData (some e1) =
      join (stableSort strLess (e1.map (fun kv => kv.1 ++ "=" ++ kv.2))) " " ∧
    (stableSort strLess (e1.map (fun kv => kv.1 ++ "=" ++ kv.2))).Perm
      (e1.map (fun kv => kv.1 ++ "=" ++ kv.2)) ∧
    (stableSort strLess (e1.map (fun kv => kv.1 ++ "=" ++ kv.2))).Pairwise
      (fun a b => strLess b a = false) ∧
    flattenUserData none = "" ∧ flattenUserData (some []) = "" ∧
    ∀ s : Snapshot, valueForSort s "userdata" = flattenUserData s.Userdata := by
  refine ⟨?_, flattenUserData_eq e1, stableSort_perm _ _,
    stableSort_pairwise strLess strLess_asymm strLess_le_trans _, rfl, rfl, fun s => rfl⟩
  rw [flattenUserData_eq, flattenUserData_eq,
    flatten_tokens_eq _ _ (h.map (fun kv => kv.1 ++ "=" ++ kv.2))]

theorem flattenUserData_order_independent_witness :
    flattenUserData (some [("important", "yes"), ("backup", "weekly")]) =
      flattenUserData (some [("backup", "weekly"), ("important", "yes")]) ∧
    flattenUserData (some [("important", "yes"), ("backup", "weekly")]) =
      "backup=weekly important=yes" :=
  ⟨(flattenUserData_order_independent [("important", "yes"), ("backup", "weekly")]
      [("backup", "weekly"), ("important", "yes")] (List.Perm.swap _ _ _)).1, by decide⟩

/-- Claim C22 (counterexample): after a refresh, the key `1` (descending by
number) and a failed refresh, the state holds the built-in list 0, 17, 18 with
the direction still descending; toggling the current key twice from that state
gives 18, 17, 0, not the original order. -/
theorem two_toggles_reorder :
    ∃ w m1 m2, World.run World.init
        [ (plainEnv, .RefreshResultMsg sampleSnapshots none),
          (plainEnv, .KeyMsg "1"),
          (plainEnv, .RefreshResultMsg [] (some "exit status 1")) ] = some w ∧
      w.m.SortKey = "number" ∧ w.m.SortReverse = true ∧
      w.m.Snapshots = [sample0, sample17, sample18] ∧
      toggleSort w.m w.m.SortKey = some m1 ∧ toggleSort m1 m1.SortKey = some m2 ∧
      m2.SortKey = "number" ∧ m2.SortReverse = true ∧
      m2.Snapshots = [sample18, sample17, sample0] ∧ m2.Snapshots ≠ w.m.Snapshots :=
  ⟨_, _, _, rfl, by decide, by decide, by decide, rfl, rfl, by decide, by decide, by decide,
    by decide⟩

/-- Claim C22 (amended): when the snapshot sequence is already ordered by the
current sort key and direction (no element before one that sorts before it; ties
in any order), `toggleSort` applied twice with the state's current sort key
returns the sequence to its original order, ties included. -/
theorem two_toggles_restore_sorted (m : UIState) (h0 : 0 ≤ m.Cursor)
    (hs : m.Snapshots.Pairwise (fun a b => sortLess m.SortKey m.SortReverse b a = false)) :
    ∃ m1 m2, toggleSort m m.SortKey = some m1 ∧ toggleSort m1 m1.SortKey = some m2 ∧
      m2.Snapshots = m.Snapshots := by
  obtain ⟨m1, h1, k1, r1, s1, _, c1⟩ := toggleSort_spec m m.SortKey h0
  obtain ⟨m2, h2, k2, r2, s2, _, c2⟩ := toggleSort_spec m1 m1.SortKey c1
  refine ⟨m1, m2, h1, h2, ?_⟩
  rw [s2, s1, if_pos rfl, if_pos rfl, r1, if_pos rfl, Bool.not_not, k1]
  exact sort_back _ _ _ hs

theorem two_toggles_restore_sorted_witness :
    ∃ m1 m2, toggleSort initialModel initialModel.SortKey = some m1 ∧
      toggleSort m1 m1.SortKey = some m2 ∧ m2.Snapshots = initialModel.Snapshots :=
  two_toggles_restore_sorted initialModel (by decide) (by decide)

/-- Claim C23: sorting is idempotent: for every state (sequence, sort key and
direction) `sortSnapshots` applied twice gives the same state as applied once. -/
theorem sortSnapshots_idempotent (m : UIState) :
    sortSnapshots (sortSnapshots m) = sortSnapshots m := by
  have h := stableSort_idem (sortLess m.SortKey m.SortReverse)
    (sortLess_asymm m.SortKey m.SortReverse) (sortLess_le_trans m.SortKey m.SortReverse)
    m.Snapshots
  simp only [sortSnapshots, h]

/-- Claim C24: `toggleSort(field)` returns (for a cursor that is not negative)
with the sort parameters set: when `field` is the current `SortKey`, `SortKey`
is unchanged and `SortReverse` negated; when it differs, `SortKey` becomes
`field` and `SortReverse` false whatever it was.  Two toggles of the current key
restore `SortKey` and `SortReverse`. -/
theorem toggleSort_parameters (m : UIState) (field : String) (h0 : 0 ≤ m.Cursor) :
    (∃ m1, toggleSort m field = some m1 ∧
      (field = m.SortKey → m1.SortKey = m.SortKey ∧ m1.SortReverse = !m.SortReverse) ∧
      (field ≠ m.SortKey → m1.SortKey = field ∧ m1.SortReverse = false)) ∧
    ∃ m2 m3, toggleSort m m.SortKey = some m2 ∧ toggleSort m2 m2.SortKey = some m3 ∧
      m3.SortKey = m.SortKey ∧ m3.SortReverse = m.SortReverse := by
  constructor
  · obtain ⟨m1, h1, k1, r1, _, _, _⟩ := toggleSort_spec m field h0
    refine ⟨m1, h1, fun hf => ?_, fun hf => ?_⟩
    · rw [if_pos hf.symm] at r1
      exact ⟨k1.trans hf, r1⟩
    · rw [if_neg (fun h => hf h.symm)] at r1
      exact ⟨k1, r1⟩
  · obtain ⟨m2, h2, k2, r2, _, _, c2⟩ := toggleSort_spec m m.SortKey h0
    obtain ⟨m3, h3, k3, r3, _, _, _⟩ := toggleSort_spec m2 m2.SortKey c2
    refine ⟨m2, m3, h2, h3, k3.trans k2, ?_⟩
    rw [r3, if_pos rfl, r2, if_pos rfl, Bool.not_not]

theorem toggleSort_parameters_witness :
    (∃ m1, toggleSort { initialModel with SortReverse := true } "date" = some m1 ∧
      ("date" = "number" → m1.SortKey = "number" ∧ m1.SortReverse = !true) ∧
      ("date" ≠ "number" → m1.SortKey = "date" ∧ m1.SortReverse = false)) ∧
    ∃ m2 m3, toggleSort { initialModel with SortReverse := true } "number" = some m2 ∧
      toggleSort m2 m2.SortKey = some m3 ∧
      m3.SortKey = "number" ∧ m3.SortReverse = true :=
  toggleSort_parameters { initialModel with SortReverse := true } "date" (by decide)

/-- Claim C25: the focus token is `table` in the initial state and one of
`table`, `restore`, `delete`, `status` in every state reached from it by any
sequence of events.  The key `tab` schedules nothing and changes only the focus
token, mapping `table` to `restore`, `restore` to `delete`, `delete` to
`status` and `status` to `table`, so that four presses give back the state. -/
theorem focus_cycle :
    initialModel.FocusedElement = "table" ∧
    (∀ (events : List (Env × Msg)) (w : World), World.run World.init events = some w →
      w.m.FocusedElement ∈ ["table", "restore", "delete", "status"]) ∧
    (∀ m : UIState,
      handleKey m "tab" = some ({ m with FocusedElement := nextFocus m.FocusedElement }, [])) ∧
    nextFocus "table" = "restore" ∧ nextFocus "restore" = "delete" ∧
    nextFocus "delete" = "status" ∧ nextFocus "status" = "table" ∧
    (∀ m : UIState, m.FocusedElement ∈ ["table", "restore", "delete", "status"] →
      pressKeys m ["tab", "tab", "tab", "tab"] = some m) := by
  refine ⟨rfl, ?_, fun m => rfl, by decide, by decide, by decide, by decide, ?_⟩
  · intro events w h
    have := World.run_focus World.init w events (Or.inl rfl) h
    simpa [validFocus] using this
  · intro m h
    exact four_tabs m (by simpa [validFocus] using h)

theorem focus_cycle_witness :
    (∃ w, World.run World.init
        [ (plainEnv, .KeyMsg "tab"), (plainEnv, .KeyMsg "tab") ] = some w ∧
      w.m.FocusedElement ∈ ["table", "restore", "delete", "status"]) ∧
    pressKeys initialModel ["tab", "tab", "tab", "tab"] = some initialModel :=
  ⟨⟨_, rfl, focus_cycle.2.1 [ (plainEnv, .KeyMsg "tab"), (plainEnv, .KeyMsg "tab") ] _ rfl⟩, focus_cycle.2.2.2.2.2.2.2 initialModel (by decide)⟩

/-- Claim C26: while the focus is on a button (`restore`, `delete` or `status`),
every key other than `q`, `ctrl+c`, `tab` and `enter` (so also `j`, `k`, the
paging keys, space, the digits, `r`, `A`/`a`, `D`/`d` and `s`) leaves the state
unchanged and schedules nothing; `enter`, when no action is in progress and the
sequence is not empty (cursor not negative), sets `ActionInProgress` and the
message and schedules exactly one `executeActionCmd` of that button's kind on
the snapshot at the (clamped) cursor, with the selection and the sequence. -/
theorem button_focus_keys (m : UIState)
    (hf : m.FocusedElement = "restore" ∨ m.FocusedElement = "delete" ∨
      m.FocusedElement = "status") :
    (∀ key, key ≠ "q" → key ≠ "ctrl+c" → key ≠ "tab" → key ≠ "enter" →
      handleKey m key = some (m, [])) ∧
    (m.ActionInProgress = false → m.Snapshots ≠ [] → 0 ≤ m.Cursor →
      ∃ snap,
        sliceAt m.Snapshots
          (if m.Cursor ≥ (m.Snapshots.length : Int) then (m.Snapshots.length : Int) - 1
           else m.Cursor) = some snap ∧
        handleKey m "enter" =
          some ({ m with
                  Cursor :=
                    if m.Cursor ≥ (m.Snapshots.length : Int) then (m.Snapshots.length : Int) - 1
                    else m.Cursor
                  ActionInProgress := true
                  ActionMessage :=
                    if m.FocusedElement = "restore" then executingApply
                    else if m.FocusedElement = "delete" then executingDelete
                    else fetchingStatus },
            [Op.executeAction
              (if m.FocusedElement = "restore" then .ActionRestore
               else if m.FocusedElement = "delete" then .ActionDelete
               else .ActionStatus) snap m.SelectedSnapshots m.Snapshots])) := by
  have hnt : m.FocusedElement ≠ "table" := by
    rcases hf with h | h | h <;> rw [h] <;> decide
  constructor
  · intro key h1 h2 h3 h4
    rw [handleKey_button m key (by rintro (h | h); exact h1 h; exact h2 h) h3 hnt]
    exact handleFocusedKey_button_idle m key h4 hnt
  · intro hb hne h0
    rw [handleKey_button m "enter" (by decide) (by decide) hnt]
    unfold handleFocusedKey
    rw [if_neg hnt]
    rcases hf with h | h | h
    · simp only [if_pos h, if_true]
      exact dispatchAction_clamped m _ _ _ hb h0 hne
    · have e1 : ¬ m.FocusedElement = "restore" := by rw [h]; decide
      simp only [if_pos h, if_true, if_neg e1]
      exact dispatchAction_clamped m _ _ _ hb h0 hne
    · have e1 : ¬ m.FocusedElement = "restore" := by rw [h]; decide
      have e2 : ¬ m.FocusedElement = "delete" := by rw [h]; decide
      simp only [if_pos h, if_true, if_neg e1, if_neg e2]
      exact dispatchAction_clamped m _ _ _ hb h0 hne

theorem button_focus_keys_witness :
    handleKey { initialModel with FocusedElement := "delete" } "d" =
      some ({ initialModel with FocusedElement := "delete" }, []) ∧
    ∃ snap, sliceAt sampleSnapshots 0 = some snap ∧
      handleKey { initialModel with FocusedElement := "delete" } "enter" =
        some ({ initialModel with FocusedElement := "delete", Cursor := 0,
                                  ActionInProgress := true, ActionMessage := executingDelete },
          [Op.executeAction .ActionDelete snap ∅ sampleSnapshots]) :=
  ⟨(button_focus_keys { initialModel with FocusedElement := "delete" }
      (Or.inr (Or.inl rfl))).1 "d" (by decide) (by decide) (by decide) (by decide),
   (button_focus_keys { initialModel with FocusedElement := "delete" }
      (Or.inr (Or.inl rfl))).2 rfl (by decide) (by decide)⟩

/-- Claim C27: a tick while `Loading` is false leaves the state unchanged and
schedules nothing.  A tick while `Loading` is true (spinner phase not negative)
changes only `SpinnerIndex`, to `(phase + 1) mod len(spinnerFrames)`, a valid
frame index, and `Status`, and schedules exactly the next tick (a timer that
delivers a tick after 120 ms), no refresh. -/
theorem tick_frame (m : UIState) :
    (m.Loading = false → handleTick m = some (m, [])) ∧
    (m.Loading = true → 0 ≤ m.SpinnerIndex →
      ∃ frame,
        sliceAt spinnerFrames ((m.SpinnerIndex + 1) % (spinnerFrames.length : Int)) =
          some frame ∧
        handleTick m =
          some ({ m with
                  SpinnerIndex := (m.SpinnerIndex + 1) % (spinnerFrames.length : Int)
                  Status := frame ++ " Fetching snapshots from snapper..." }, [Op.tick]) ∧
        0 ≤ (m.SpinnerIndex + 1) % (spinnerFrames.length : Int) ∧
        (m.SpinnerIndex + 1) % (spinnerFrames.length : Int) < (spinnerFrames.length : Int) ∧
        Op.timer Op.tick = some (120, Msg.TickMsg)) := by
  constructor
  · intro hl
    unfold handleTick
    rw [hl]
    rfl
  · intro hl h0
    have hlen : (0 : Int) < (spinnerFrames.length : Int) := by decide
    have ht : Int.tmod (m.SpinnerIndex + 1) (spinnerFrames.length : Int) =
        (m.SpinnerIndex + 1) % (spinnerFrames.length : Int) :=
      Int.tmod_eq_emod (by omega) (by omega)
    have hb0 := Int.emod_nonneg (m.SpinnerIndex + 1) (ne_of_gt hlen)
    have hb1 := Int.emod_lt_of_pos (m.SpinnerIndex + 1) hlen
    obtain ⟨frame, hfr, _⟩ := sliceAt_inrange spinnerFrames _ hb0 hb1
    refine ⟨frame, hfr, ?_, hb0, hb1, rfl⟩
    unfold handleTick
    rw [hl]
    simp only [Bool.not_true, Bool.false_eq_true, if_false, ht, hfr]

theorem tick_frame_witness :
    handleTick { initialModel with Loading := false } =
      some ({ initialModel with Loading := false }, []) ∧
    ∃ frame, sliceAt spinnerFrames 0 = some frame ∧
      handleTick { initialModel with SpinnerIndex := 8 } =
        some ({ initialModel with
                SpinnerIndex := 0
                Status := frame ++ " Fetching snapshots from snapper..." }, [Op.tick]) :=
  ⟨(tick_frame { initialModel with Loading := false }).1 rfl,
   Exists.imp (fun _ h => ⟨h.1, h.2.1⟩)
     ((tick_frame { initialModel with SpinnerIndex := 8 }).2 rfl (by decide))⟩

/-- Claim C28 (the code at the failing input): in a terminal of 80 by 20 with
eight snapshots the table shows the rows 0 to 6 on the screen lines 3 to 9 and
the scroll indicator on line 10; a left click on line 10, below the row band,
moves the cursor from row 0 to row 7, which is not displayed. -/
theorem click_below_rows_moves_cursor :
    ∃ w, World.run World.init
        [ (plainEnv, .WindowSizeMsg 80 20),
          (plainEnv, .RefreshResultMsg eightSnapshots none) ] = some w ∧
      w.m.Loading = false ∧ w.m.Cursor = 0 ∧ w.m.Offset = 0 ∧ w.m.ViewportHeight = 7 ∧
      w.m.Snapshots.length = 8 ∧
      tableLineAt w.m 3 = some [.row 0] ∧ tableLineAt w.m 9 = some [.row 6] ∧
      tableLineAt w.m 10 = some [.scrollbar] ∧
      ∃ m1, Update plainEnv w.sample w.m (.MouseMsg .MouseLeft 5 10) = some (m1, []) ∧
        m1.Cursor = 7 ∧ m1.Offset = 1 :=
  ⟨_, rfl, by decide, by decide, by decide, by decide, by decide, by decide, by decide,
    by decide, _, rfl, by decide, by decide⟩

/-- Claim C29 (the code at the failing input): with the detail panel closed
`renderRightPanel` draws the three buttons on the screen lines 2 to 4, 5 to 7
and 8 to 10 (it writes no blank line after the header or between the buttons),
while `getButtonYPositions` returns the first lines 3, 7 and 11.  In a terminal
of 100 by 30, after a refresh and the key `enter` (which closes the details), a
left click on line 5, on the drawn delete button, dispatches a restore.  With
the details open in a terminal of 100 by 24 the details are not drawn (the
viewport is too small), the buttons are on the same lines, and the hit test
expects them on the lines 20, 24 and 28. -/
theorem buttons_hit_test_disagrees :
    (∀ m : UIState,
      drawnButtons { m with DetailOpen := false } = some ([2, 3, 4], [5, 6, 7], [8, 9, 10]) ∧
      getButtonYPositions { m with DetailOpen := false } = some (3, 7, 11)) ∧
    (∃ w, World.run World.init
        [ (plainEnv, .WindowSizeMsg 100 30),
          (plainEnv, .RefreshResultMsg sampleSnapshots none),
          (plainEnv, .KeyMsg "enter") ] = some w ∧
      w.m.Loading = false ∧ w.m.DetailOpen = false ∧
      drawnButtons w.m = some ([2, 3, 4], [5, 6, 7], [8, 9, 10]) ∧
      getButtonYPositions w.m = some (3, 7, 11) ∧
      ∃ m1, Update plainEnv w.sample w.m (.MouseMsg .MouseLeft 70 5) =
          some (m1, [Op.executeAction .ActionRestore sample0 ∅ sampleSnapshots]) ∧
        m1.FocusedElement = "restore" ∧ m1.ActionInProgress = true) ∧
    (∃ w, World.run World.init
        [ (plainEnv, .WindowSizeMsg 100 24),
          (plainEnv, .RefreshResultMsg sampleSnapshots none) ] = some w ∧
      w.m.Loading = false ∧ w.m.DetailOpen = true ∧ w.m.ViewportHeight = 11 ∧
      drawnButtons w.m = some ([2, 3, 4], [5, 6, 7], [8, 9, 10]) ∧
      getButtonYPositions w.m = some (20, 24, 28) ∧
      ∃ m1, Update plainEnv w.sample w.m (.MouseMsg .MouseLeft 70 20) =
          some (m1, [Op.executeAction .ActionRestore sample0 ∅ sampleSnapshots]) ∧
        Update plainEnv w.sample w.m (.MouseMsg .MouseLeft 70 3) = some (w.m, [])) :=
  ⟨fun m => ⟨drawnButtons_closed _ rfl, getButtonYPositions_closed _ rfl⟩,
   ⟨_, rfl, by decide, by decide, by decide, by decide, _, rfl, by decide, by decide⟩,
   ⟨_, rfl, by decide, by decide, by decide, by decide, by decide, _, rfl, rfl⟩⟩

/-- Claim C30: `snapshotFromRaw` is a total function of the raw entry.  A field
that is missing from the entry gets its default: the configuration name for
`config`, the empty string for the other text fields, 0 for `number`, absent
for `pre-number`, `post-number`, `used-space` and `userdata`, false for
`default` and `active`; the entry with no field gives the all-default record.
A number field whose value `toInt` (`toInt64`) cannot use and a boolean field
whose value `toBool` cannot use get the same defaults. -/
theorem snapshotFromRaw_defaults (sprint : Printer) (config : String)
    (data : List (String × Raw)) :
    snapshotFromRaw sprint config [] =
      { Config := config, Subvolume := "", Number := 0, SnapshotType := "",
        PreNumber := none, PostNumber := none, Date := "", User := "", Cleanup := "",
        Description := "", Userdata := none, UsedSpace := none, Default := false,
        Active := false } ∧
    (data.lookup "config" = none → (snapshotFromRaw sprint config data).Config = config) ∧
    (data.lookup "subvolume" = none → (snapshotFromRaw sprint config data).Subvolume = "") ∧
    (data.lookup "type" = none → (snapshotFromRaw sprint config data).SnapshotType = "") ∧
    (data.lookup "date" = none → (snapshotFromRaw sprint config data).Date = "") ∧
    (data.lookup "user" = none → (snapshotFromRaw sprint config data).User = "") ∧
    (data.lookup "cleanup" = none → (snapshotFromRaw sprint config data).Cleanup = "") ∧
    (data.lookup "description" = none →
      (snapshotFromRaw sprint config data).Description = "") ∧
    (data.lookup "number" = none → (snapshotFromRaw sprint config data).Number = 0) ∧
    (data.lookup "pre-number" = none →
      (snapshotFromRaw sprint config data).PreNumber = none) ∧
    (data.lookup "post-number" = none →
      (snapshotFromRaw sprint config data).PostNumber = none) ∧
    (data.lookup "used-space" = none →
      (snapshotFromRaw sprint config data).UsedSpace = none) ∧
    (data.lookup "userdata" = none → (snapshotFromRaw sprint config data).Userdata = none) ∧
    (data.lookup "default" = none → (snapshotFromRaw sprint config data).Default = false) ∧
    (data.lookup "active" = none → (snapshotFromRaw sprint config data).Active = false) ∧
    (notAnInt (mapGet data "number") → (snapshotFromRaw sprint config data).Number = 0) ∧
    (notAnInt (mapGet data "pre-number") →
      (snapshotFromRaw sprint config data).PreNumber = none) ∧
    (notAnInt (mapGet data "post-number") →
      (snapshotFromRaw sprint config data).PostNumber = none) ∧
    (notAnInt64 (mapGet data "used-space") →
      (snapshotFromRaw sprint config data).UsedSpace = none) ∧
    (notABool (mapGet data "default") →
      (snapshotFromRaw sprint config data).Default = false) ∧
    (notABool (mapGet data "active") →
      (snapshotFromRaw sprint config data).Active = false) := by
  refine ⟨rfl, ?_, ?_, ?_, ?_, ?_, ?_, ?_, ?_, ?_, ?_, ?_, ?_, ?_, ?_, ?_, ?_, ?_, ?_, ?_, ?_⟩
  · intro h
    show toString sprint (mapGet data "config") config = config
    rw [mapGet_absent _ _ h]
    rfl
  · intro h
    show toString sprint (mapGet data "subvolume") "" = ""
    rw [mapGet_absent _ _ h]
    rfl
  · intro h
    show toString sprint (mapGet data "type") "" = ""
    rw [mapGet_absent _ _ h]
    rfl
  · intro h
    show toString sprint (mapGet data "date") "" = ""
    rw [mapGet_absent _ _ h]
    rfl
  · intro h
    show toString sprint (mapGet data "user") "" = ""
    rw [mapGet_absent _ _ h]
    rfl
  · intro h
    show toString sprint (mapGet data "cleanup") "" = ""
    rw [mapGet_absent _ _ h]
    rfl
  · intro h
    show toString sprint (mapGet data "description") "" = ""
    rw [mapGet_absent _ _ h]
    rfl
  · intro h
    show (toInt (mapGet data "number")).1 = 0
    rw [mapGet_absent _ _ h]
    rfl
  · intro h
    show toOptionalInt (mapGet data "pre-number") = none
    rw [mapGet_absent _ _ h]
    rfl
  · intro h
    show toOptionalInt (mapGet data "post-number") = none
    rw [mapGet_absent _ _ h]
    rfl
  · intro h
    show (toInt64 (mapGet data "used-space")).1 = none
    rw [mapGet_absent _ _ h]
    rfl
  · intro h
    show toStringMap sprint (mapGet data "userdata") = none
    rw [mapGet_absent _ _ h]
    rfl
  · intro h
    show toBool (mapGet data "default") = false
    rw [mapGet_absent _ _ h]
    rfl
  · intro h
    show toBool (mapGet data "active") = false
    rw [mapGet_absent _ _ h]
    rfl
  · intro h
    show (toInt (mapGet data "number")).1 = 0
    rw [toInt_default _ h]
  · intro h
    exact toOptionalInt_default _ h
  · intro h
    exact toOptionalInt_default _ h
  · intro h
    show (toInt64 (mapGet data "used-space")).1 = none
    rw [toInt64_default _ h]
  · intro h
    exact toBool_default _ h
  · intro h
    exact toBool_default _ h

theorem snapshotFromRaw_defaults_witness :
    (snapshotFromRaw plainPrinter "root"
      [("number", .str "17"), ("default", .number "1"), ("date", .str "today")]).Number = 0 ∧
    (snapshotFromRaw plainPrinter "root"
      [("number", .str "17"), ("default", .number "1"), ("date", .str "today")]).Default
        = false ∧
    (snapshotFromRaw plainPrinter "root"
      [("number", .str "17"), ("default", .number "1"), ("date", .str "today")]).Config
        = "root" :=
  ⟨(snapshotFromRaw_defaults plainPrinter "root"
      [("number", .str "17"), ("default", .number "1"), ("date", .str "today")]).2.2.2.2.2.2.2.2.2.2.2.2.2.2.2.1
        trivial,
   (snapshotFromRaw_defaults plainPrinter "root"
      [("number", .str "17"), ("default", .number "1"), ("date", .str "today")]).2.2.2.2.2.2.2.2.2.2.2.2.2.2.2.2.2.2.2.1
        trivial,
   (snapshotFromRaw_defaults plainPrinter "root"
      [("number", .str "17"), ("default", .number "1"), ("date", .str "today")]).2.1
        rfl⟩

/-! ## Lemmas: the window offset and the padded texts -/

theorem windowOffset_minmax (cursor offset vh n : Int) :
    windowOffset cursor offset vh n =
      min (max (max (min cursor offset) (cursor - vh + 1)) 0) (max 0 (n - vh)) := by
  simp only [windowOffset, max_eq]
  split_ifs <;> omega

theorem windowOffset_idem (cursor offset vh n : Int) (hv : 1 ≤ vh) :
    windowOffset cursor (windowOffset cursor offset vh n) vh n =
      windowOffset cursor offset vh n := by
  rw [windowOffset_minmax cursor (windowOffset cursor offset vh n), windowOffset_minmax]
  omega

theorem heightOrFallback_pos (vh : Int) : 1 ≤ heightOrFallback vh := by
  unfold heightOrFallback
  split_ifs <;> omega

theorem heightOrFallback_idem (vh : Int) :
    heightOrFallback (heightOrFallback vh) = heightOrFallback vh := by
  unfold heightOrFallback
  split_ifs <;> omega

theorem sprintfZeroPad_inj (w : Nat) (a b : Int) (hw : 0 < w) (ha0 : 0 ≤ a)
    (ha : a < 10 ^ w) (hb0 : 0 ≤ b) (hb : b < 10 ^ w)
    (h : sprintfZeroPad w a = sprintfZeroPad w b) : a = b := by
  have h1 := sprintfZeroPad_less w a b hw ha0 ha hb0 hb
  have h2 := sprintfZeroPad_less w b a hw hb0 hb ha0 ha
  rw [h, strLess_irrefl] at h1
  rw [h, strLess_irrefl] at h2
  have h3 : ¬ a < b := of_decide_eq_false h1.symm
  have h4 : ¬ b < a := of_decide_eq_false h2.symm
  omega

theorem padded_pair (a b : Int) (ha0 : 0 ≤ a) (ha : a ≤ 99999999) (hb0 : 0 ≤ b)
    (hb : b ≤ 99999999) :
    (strLess (sprintfZeroPad 8 a) (sprintfZeroPad 8 b) = true ↔ a < b) ∧
    (sprintfZeroPad 8 a = sprintfZeroPad 8 b ↔ a = b) := by
  have ha1 : a < 10 ^ 8 := by norm_num; omega
  have hb1 : b < 10 ^ 8 := by norm_num; omega
  constructor
  · rw [sprintfZeroPad_less 8 a b (by decide) ha0 ha1 hb0 hb1]
    exact decide_eq_true_iff
  · exact ⟨sprintfZeroPad_inj 8 a b (by decide) ha0 ha1 hb0 hb1, fun h => by rw [h]⟩

theorem sprintfZeroPad_zero : sprintfZeroPad 8 0 = "00000000" := by
  have h := sprintfZeroPad_data 8 0 (by decide) (by norm_num)
  apply String.ext
  rw [show ((0 : Nat) : Int) = 0 from rfl] at h
  rw [h]
  decide

theorem valueForSort_absent (a : Snapshot) :
    valueForSort { a with PreNumber := none } "pre_number" = "00000000" ∧
    valueForSort { a with PostNumber := none } "post_number" = "00000000" := by
  constructor
  · show sprintfZeroPad 8 0 = _
    exact sprintfZeroPad_zero
  · show sprintfZeroPad 8 0 = _
    exact sprintfZeroPad_zero

/-! ## The claims C31 to C33 -/

/-- Claim C31: for the sort fields `number`, `pre_number` and `post_number`, an
absent pre- or post-number being read as 0 (so that it gets the sort value of a
present 0, `00000000`), and for two snapshots whose values of the field lie in
`[0, 99999999]`: the sort value of the first is lexically less than that of the
second exactly when its number is less, and the sort values are equal exactly
when the numbers are equal. -/
theorem padded_sort_values_agree (a b : Snapshot) :
    (0 ≤ a.Number → a.Number ≤ 99999999 → 0 ≤ b.Number → b.Number ≤ 99999999 →
      (strLess (valueForSort a "number") (valueForSort b "number") = true ↔
        a.Number < b.Number) ∧
      (valueForSort a "number" = valueForSort b "number" ↔ a.Number = b.Number)) ∧
    (0 ≤ intValue a.PreNumber → intValue a.PreNumber ≤ 99999999 →
      0 ≤ intValue b.PreNumber → intValue b.PreNumber ≤ 99999999 →
      (strLess (valueForSort a "pre_number") (valueForSort b "pre_number") = true ↔
        intValue a.PreNumber < intValue b.PreNumber) ∧
      (valueForSort a "pre_number" = valueForSort b "pre_number" ↔
        intValue a.PreNumber = intValue b.PreNumber)) ∧
    (0 ≤ intValue a.PostNumber → intValue a.PostNumber ≤ 99999999 →
      0 ≤ intValue b.PostNumber → intValue b.PostNumber ≤ 99999999 →
      (strLess (valueForSort a "post_number") (valueForSort b "post_number") = true ↔
        intValue a.PostNumber < intValue b.PostNumber) ∧
      (valueForSort a "post_number" = valueForSort b "post_number" ↔
        intValue a.PostNumber = intValue b.PostNumber)) ∧
    intValue none = 0 ∧
    valueForSort { a with PreNumber := none } "pre_number" =
      valueForSort { a with PreNumber := some 0 } "pre_number" ∧
    valueForSort { a with PostNumber := none } "post_number" =
      valueForSort { a with PostNumber := some 0 } "post_number" ∧
    valueForSort { a with PreNumber := none } "pre_number" = "00000000" ∧
    valueForSort { a with PostNumber := none } "post_number" = "00000000" :=
  ⟨fun h1 h2 h3 h4 => padded_pair _ _ h1 h2 h3 h4,
   fun h1 h2 h3 h4 => padded_pair _ _ h1 h2 h3 h4,
   fun h1 h2 h3 h4 => padded_pair _ _ h1 h2 h3 h4,
   rfl, rfl, rfl, (valueForSort_absent a).1, (valueForSort_absent a).2⟩

theorem padded_sort_values_agree_witness :
    ((strLess (valueForSort sample17 "number") (valueForSort sample18 "number") = true ↔
        sample17.Number < sample18.Number) ∧
      (valueForSort sample17 "number" = valueForSort sample18 "number" ↔
        sample17.Number = sample18.Number)) ∧
    ((strLess (valueForSort sample0 "pre_number") (valueForSort sample17 "pre_number") = true ↔
        intValue sample0.PreNumber < intValue sample17.PreNumber) ∧
      (valueForSort sample0 "pre_number" = valueForSort sample17 "pre_number" ↔
        intValue sample0.PreNumber = intValue sample17.PreNumber)) :=
  ⟨(padded_sort_values_agree sample17 sample18).1 (by decide) (by decide) (by decide)
      (by decide),
   (padded_sort_values_agree sample0 sample17).2.1 (by decide) (by decide) (by decide)
      (by decide)⟩

/-- Claim C32 (the code at the failing input): four snapshots are loaded, `k`
moves the cursor to row 3, then a refresh fails and the state holds the three
sample rows with the cursor still 3.  The space key then reads
`m.Snapshots[m.Cursor]` out of range: `Update` panics and the run has no next
state.  When the second refresh succeeds with one snapshot instead, the cursor
is clamped to 0 and the space key selects that snapshot. -/
theorem space_after_failed_refresh_faults :
    (∃ w, World.run World.init
        [ (plainEnv, .RefreshResultMsg [sample0, sample17, sample18, sample19] none),
          (plainEnv, .KeyMsg "k"),
          (plainEnv, .RefreshResultMsg [] (some "exit status 1")) ] = some w ∧
      w.m.FocusedElement = "table" ∧ w.m.Snapshots.length = 3 ∧ w.m.Cursor = 3 ∧
      ¬ (w.m.Cursor < (w.m.Snapshots.length : Int)) ∧
      handleKey w.m " " = none ∧
      Update plainEnv w.sample w.m (.KeyMsg " ") = none) ∧
    World.run World.init
        [ (plainEnv, .RefreshResultMsg [sample0, sample17, sample18, sample19] none),
          (plainEnv, .KeyMsg "k"),
          (plainEnv, .RefreshResultMsg [] (some "exit status 1")),
          (plainEnv, .KeyMsg " ") ] = none ∧
    ∃ w, World.run World.init
        [ (plainEnv, .RefreshResultMsg [sample0, sample17, sample18, sample19] none),
          (plainEnv, .KeyMsg "k"),
          (plainEnv, .RefreshResultMsg [sample0] none),
          (plainEnv, .KeyMsg " ") ] = some w ∧
      w.m.Snapshots.length = 1 ∧ w.m.Cursor = 0 ∧ w.m.SelectedSnapshots = {0} :=
  ⟨⟨_, rfl, by decide, by decide, by decide, by decide, rfl, rfl⟩, rfl,
   ⟨_, rfl, by decide, by decide, by decide⟩⟩

/-- Claim C33: `ensureCursorVisible` is idempotent for every state, whatever the
cursor, the offset, the viewport height and the length of the sequence: the
second application changes nothing.  The first application replaces a viewport
height that is not positive by 10 and keeps every other height, changes the
offset and the viewport height only, and the offset and the height after two
applications are those after one. -/
theorem ensureCursorVisible_idempotent (m : UIState) :
    ensureCursorVisible (ensureCursorVisible m) = ensureCursorVisible m ∧
    (ensureCursorVisible (ensureCursorVisible m)).Offset = (ensureCursorVisible m).Offset ∧
    (ensureCursorVisible (ensureCursorVisible m)).ViewportHeight =
      (ensureCursorVisible m).ViewportHeight ∧
    (ensureCursorVisible m).ViewportHeight =
      (if m.ViewportHeight ≤ 0 then 10 else m.ViewportHeight) ∧
    ensureCursorVisible m =
      { m with Offset := (ensureCursorVisible m).Offset
               ViewportHeight := (ensureCursorVisible m).ViewportHeight } := by
  have h : ensureCursorVisible (ensureCursorVisible m) = ensureCursorVisible m := by
    rw [ensureCursorVisible_eq (ensureCursorVisible m), ensureCursorVisible_eq m]
    simp only [heightOrFallback_idem,
      windowOffset_idem _ _ _ _ (heightOrFallback_pos m.ViewportHeight)]
  refine ⟨h, by rw [h], by rw [h], ?_, ?_⟩
  · rw [ensureCursorVisible_eq]
    rfl
  · rw [ensureCursorVisible_eq]

/-! ## Lemmas: the sample sequence along a run -/

theorem currentSnapshot_snaps (m m1 : UIState) (r : Option Snapshot)
    (h : currentSnapshot m = some (m1, r)) : m1.Snapshots = m.Snapshots := by
  rw [(currentSnapshot_shape m m1 r h).1]

theorem move_snaps (m0 m2 : UIState)
    (hp : setActionPreview (ensureCursorVisible m0) = some m2) :
    m2.Snapshots = m0.Snapshots := by
  have := (setActionPreview_fields _ _ hp).1
  rw [ensureCursorVisible_eq] at this
  exact this

theorem toggleSort_snaps (m m1 : UIState) (field : String) (h : toggleSort m field = some m1) :
    m1.Snapshots.Perm m.Snapshots := by
  unfold toggleSort at h
  simp only at h
  split at h
  · cases h
  · rename_i m2 hp
    cases h
    have h9 := move_snaps _ _ hp
    show m2.Snapshots.Perm m.Snapshots
    rw [h9]
    simp only [sortSnapshots]
    split_ifs <;> exact stableSort_perm _ _

theorem updateSortKey_snaps (m m1 : UIState) (key : String) (h : updateSortKey m key = some m1) :
    m1.Snapshots.Perm m.Snapshots := by
  unfold updateSortKey at h
  simp only at h
  split_ifs at h
  · cases h
    exact List.Perm.refl _
  · split at h
    · cases h
    · exact toggleSort_snaps _ _ _ h

theorem dispatchAction_snaps (m m1 : UIState) (focus : Option String) (kind : ActionKind)
    (message : String) (otherwise : UIState → Option (UIState × Cmd)) (cmd : Cmd)
    (h : dispatchAction m focus kind message otherwise = some (m1, cmd)) :
    otherwise m = some (m1, cmd) ∨ m1.Snapshots = m.Snapshots := by
  unfold dispatchAction at h
  split_ifs at h with hb
  · exact Or.inl h
  · split at h
    · cases h
    · rename_i m2 hc
      have := (currentSnapshot_some m m2 none hc).2 rfl
      rw [this] at h
      exact Or.inl h
    · rename_i m2 s hc
      have hm2 := currentSnapshot_snaps _ _ _ hc
      cases focus with
      | none =>
        simp only at h
        split at h
        · rename_i m3 snap hc2
          simp only [Option.some.injEq, Prod.mk.injEq] at h
          obtain ⟨rfl, rfl⟩ := h
          exact Or.inr ((currentSnapshot_snaps _ _ _ hc2).trans hm2)
        · cases h
      | some f =>
        simp only at h
        split at h
        · rename_i m3 snap hc2
          simp only [Option.some.injEq, Prod.mk.injEq] at h
          obtain ⟨rfl, rfl⟩ := h
          exact Or.inr ((currentSnapshot_snaps _ _ _ hc2).trans hm2)
        · cases h

theorem dispatchAction_quiet_snaps (m m1 : UIState) (focus : Option String)
    (kind : ActionKind) (message : String) (cmd0 cmd : Cmd)
    (h : dispatchAction m focus kind message (fun m => some (m, cmd0)) = some (m1, cmd)) :
    m1.Snapshots = m.Snapshots := by
  rcases dispatchAction_snaps _ _ _ _ _ _ _ h with h1 | h1
  · simp only [Option.some.injEq, Prod.mk.injEq] at h1
    obtain ⟨rfl, rfl⟩ := h1
    rfl
  · exact h1

theorem headerClick_snaps (m : UIState) (x : Int) (specs : List ColumnSpec) (currentX : Int)
    (m1 : UIState) (cmd : Cmd) (h : headerClick m x specs currentX = some (m1, cmd)) :
    m1.Snapshots.Perm m.Snapshots := by
  induction specs generalizing currentX with
  | nil =>
    simp only [headerClick, Option.some.injEq, Prod.mk.injEq] at h
    obtain ⟨rfl, rfl⟩ := h
    exact List.Perm.refl _
  | cons spec rest ih =>
    simp only [headerClick] at h
    split_ifs at h
    · split at h
      · cases h
      · rename_i m2 ht
        simp only [Option.some.injEq, Prod.mk.injEq] at h
        obtain ⟨rfl, rfl⟩ := h
        exact toggleSort_snaps _ _ _ ht
    · exact ih _ h

theorem handleFocusedKey_snaps (m m1 : UIState) (key : String) (cmd : Cmd)
    (h : handleFocusedKey m key = some (m1, cmd)) :
    m1.Snapshots.Perm m.Snapshots := by
  unfold handleFocusedKey at h
  by_cases hf : m.FocusedElement = "table"
  · rw [if_pos hf] at h
    by_cases h1 : key = "r"
    · rw [if_pos h1] at h
      split_ifs at h <;> (cases h; exact List.Perm.refl _)
    rw [if_neg h1] at h
    by_cases h2 : key = "j" ∨ key = "down"
    · rw [if_pos h2] at h
      split_ifs at h
      · simp only at h
        split at h
        · cases h
        · rename_i m2 hp
          cases h
          have h9 := move_snaps _ _ hp
          exact List.Perm.of_eq h9
      · cases h
        exact List.Perm.refl _
    rw [if_neg h2] at h
    by_cases h3 : key = "k" ∨ key = "up"
    · rw [if_pos h3] at h
      split_ifs at h
      · simp only at h
        split at h
        · cases h
        · rename_i m2 hp
          cases h
          have h9 := move_snaps _ _ hp
          exact List.Perm.of_eq h9
      · cases h
        exact List.Perm.refl _
    rw [if_neg h3] at h
    by_cases h4 : key = "pgdn" ∨ key = "pagedown"
    · rw [if_pos h4] at h
      split_ifs at h
      · simp only at h
        split at h
        · cases h
        · rename_i m2 hp
          cases h
          have h9 := move_snaps _ _ hp
          exact List.Perm.of_eq h9
      · cases h
        exact List.Perm.refl _
    rw [if_neg h4] at h
    by_cases h5 : key = "pgup" ∨ key = "pageup"
    · rw [if_pos h5] at h
      split_ifs at h
      · simp only at h
        split at h
        · cases h
        · rename_i m2 hp
          cases h
          have h9 := move_snaps _ _ hp
          exact List.Perm.of_eq h9
      · cases h
        exact List.Perm.refl _
    rw [if_neg h5] at h
    by_cases h6 : key = "enter"
    · rw [if_pos h6] at h
      cases h
      exact List.Perm.refl _
    rw [if_neg h6] at h
    by_cases h7 : key = " "
    · rw [if_pos h7] at h
      split_ifs at h
      · split at h
        · cases h
        · simp only at h
          split at h
          · cases h
          · rename_i m2 hp
            cases h
            rw [(setActionPreview_fields _ _ hp).1]
            split_ifs <;> exact List.Perm.refl _
      · cases h
        exact List.Perm.refl _
    rw [if_neg h7] at h
    split_ifs at h
    · split at h
      · cases h
      · rename_i m2 hp
        cases h
        exact updateSortKey_snaps _ _ _ hp
    · cases h
      exact List.Perm.refl _
  · rw [if_neg hf] at h
    split_ifs at h
    all_goals first
      | (cases h; exact List.Perm.refl _)
      | exact List.Perm.of_eq (dispatchAction_quiet_snaps _ _ _ _ _ [] _ h)

theorem handleKey_snaps (m m1 : UIState) (key : String) (cmd : Cmd)
    (h : handleKey m key = some (m1, cmd)) : m1.Snapshots.Perm m.Snapshots := by
  unfold handleKey at h
  by_cases hq : key = "q" ∨ key = "ctrl+c"
  · rw [if_pos hq] at h
    cases h
    exact List.Perm.refl _
  rw [if_neg hq] at h
  by_cases ht : key = "tab"
  · rw [if_pos ht] at h
    cases h
    exact List.Perm.refl _
  rw [if_neg ht] at h
  split at h
  · cases h
  · rename_i m2 cmd2 hk
    have hg := handleFocusedKey_snaps _ _ _ _ hk
    have fin : ∀ (kind : ActionKind) (message : String),
        dispatchAction m2 none kind message (fun m => some (m, cmd2)) = some (m1, cmd) →
        m1.Snapshots.Perm m.Snapshots := by
      intro kind message hd
      rw [dispatchAction_quiet_snaps _ _ _ _ _ _ _ hd]
      exact hg
    split_ifs at h
    · exact fin _ _ h
    · exact fin _ _ h
    · exact fin _ _ h
    · cases h
      exact hg
    · cases h
      exact hg

theorem statusClick_snaps (m m1 : UIState) (cmd : Cmd) (c : Prop) [Decidable c]
    (h : (if c then dispatchAction m (some "status") .ActionStatus fetchingStatus
          (fun m => some (m, []))
        else some (m, [])) = some (m1, cmd)) : m1.Snapshots = m.Snapshots := by
  split_ifs at h
  · exact dispatchAction_quiet_snaps _ _ _ _ _ _ _ h
  · cases h
    rfl

theorem deleteClick_snaps (m m1 : UIState) (cmd : Cmd) (c d : Prop) [Decidable c]
    [Decidable d]
    (h : (if d then
          dispatchAction m (some "delete") .ActionDelete executingDelete (fun m =>
            if c then dispatchAction m (some "status") .ActionStatus fetchingStatus
              (fun m => some (m, []))
            else some (m, []))
        else
          if c then dispatchAction m (some "status") .ActionStatus fetchingStatus
            (fun m => some (m, []))
          else some (m, [])) = some (m1, cmd)) : m1.Snapshots = m.Snapshots := by
  by_cases hd : d
  · rw [if_pos hd] at h
    rcases dispatchAction_snaps _ _ _ _ _ _ _ h with h1 | h1
    · exact statusClick_snaps m m1 cmd c h1
    · exact h1
  · rw [if_neg hd] at h
    exact statusClick_snaps m m1 cmd c h

theorem handleMouse_snaps (env : Env) (m m1 : UIState) (t : MouseEventType) (X Y : Int)
    (cmd : Cmd) (h : handleMouse env m t X Y = some (m1, cmd)) :
    m1.Snapshots.Perm m.Snapshots := by
  cases t
  case MouseWheelUp =>
    rw [handleMouse_wheelUp] at h
    split_ifs at h
    · split at h
      · cases h
      · rename_i m2 hp
        cases h
        have h9 := move_snaps _ _ hp
        exact List.Perm.of_eq h9
    · cases h
      exact List.Perm.refl _
  case MouseWheelDown =>
    rw [handleMouse_wheelDown] at h
    split_ifs at h
    · split at h
      · cases h
      · rename_i m2 hp
        cases h
        have h9 := move_snaps _ _ hp
        exact List.Perm.of_eq h9
    · cases h
      exact List.Perm.refl _
  case MouseLeft =>
    by_cases hx : X < tableWidthOf env m
    · rw [handleMouse_left_table env m X Y hx] at h
      by_cases hy : Y ≥ 1 ∧ Y ≤ 2
      · rw [if_pos hy] at h
        split_ifs at h
        · cases h
          exact List.Perm.refl _
        · exact headerClick_snaps _ _ _ _ _ _ h
      rw [if_neg hy] at h
      split_ifs at h
      · split at h
        · cases h
        · rename_i m2 hp
          cases h
          have h9 := move_snaps _ _ hp
          exact List.Perm.of_eq h9
      · cases h
        exact List.Perm.refl _
      · cases h
        exact List.Perm.refl _
    · rw [handleMouse_left_panel env m X Y hx] at h
      split at h
      · cases h
      · rename_i restoreY deleteY statusY hpos
        by_cases hxx : X ≥ tableWidthOf env m + 2 ∧ X ≤ tableWidthOf env m + 2 + 25
        · rw [if_pos hxx] at h
          by_cases hr : Y ≥ restoreY ∧ Y < restoreY + 3
          · rw [if_pos hr] at h
            rcases dispatchAction_snaps _ _ _ _ _ _ _ h with h1 | h1
            · exact List.Perm.of_eq (deleteClick_snaps m m1 cmd _ _ h1)
            · exact List.Perm.of_eq h1
          · rw [if_neg hr] at h
            exact List.Perm.of_eq (deleteClick_snaps m m1 cmd _ _ h)
        · rw [if_neg hxx] at h
          cases h
          exact List.Perm.refl _
  all_goals
    have h1 : some (m, ([] : Cmd)) = some (m1, cmd) := h
    cases h1
    exact List.Perm.refl _

theorem Update_snaps (env : Env) (sample : List Snapshot) (m m1 : UIState) (msg : Msg)
    (cmd : Cmd) (hmsg : ∀ snaps err, msg ≠ .RefreshResultMsg snaps err)
    (h : Update env sample m msg = some (m1, cmd)) : m1.Snapshots.Perm m.Snapshots := by
  cases msg with
  | WindowSizeMsg width height =>
    simp only [Update, Option.some.injEq, Prod.mk.injEq] at h
    obtain ⟨rfl, rfl⟩ := h
    rw [ensureCursorVisible_eq]
  | KeyMsg key => exact handleKey_snaps _ _ _ _ h
  | MouseMsg t x y => exact handleMouse_snaps _ _ _ _ _ _ _ h
  | TickMsg =>
    have h2 : handleTick m = some (m1, cmd) := h
    unfold handleTick at h2
    split_ifs at h2
    · cases h2
      exact List.Perm.refl _
    · simp only at h2
      split at h2
      · cases h2
      · cases h2
        exact List.Perm.refl _
  | RefreshTriggerMsg =>
    have h2 : handleRefreshTrigger m = some (m1, cmd) := h
    unfold handleRefreshTrigger at h2
    split_ifs at h2 <;> (cases h2; exact List.Perm.refl _)
  | RefreshResultMsg snapshots err => exact absurd rfl (hmsg snapshots err)
  | ActionResultMsg r =>
    have h2 : handleActionResult m r = some (m1, cmd) := h
    unfold handleActionResult at h2
    cases hk : r.Kind <;> rw [hk] at h2 <;> simp only at h2 <;> first
      | (cases h2; exact List.Perm.refl _)
      | (split_ifs at h2 <;> (cases h2; exact List.Perm.refl _))
  | Other =>
    simp only [Update, Option.some.injEq, Prod.mk.injEq] at h
    obtain ⟨rfl, rfl⟩ := h
    exact List.Perm.refl _

theorem World.step_fields (env : Env) (w w1 : World) (msg : Msg)
    (h : World.step env w msg = some w1) :
    ∃ m1 cmd, Update env w.sample w.m msg = some (m1, cmd) ∧ w1.m = m1 ∧
      w1.sample = (if sharedAfter msg w.shared then m1.Snapshots else w.sample) ∧
      w1.shared = sharedAfter msg w.shared := by
  unfold World.step at h
  by_cases hd : msg.isActionResult ∧ w.inFlight = 0
  · rw [if_pos hd] at h
    cases h
  · rw [if_neg hd] at h
    split at h
    · cases h
    · rename_i m1 cmd hu
      cases h
      exact ⟨m1, cmd, hu, rfl, rfl, rfl⟩

theorem World.step_sampleKept (env : Env) (w w1 : World) (msg : Msg) (hk : w.SampleKept)
    (h : World.step env w msg = some w1) : w1.SampleKept := by
  obtain ⟨m1, cmd, hu, hm, hsample, hshared⟩ := World.step_fields env w w1 msg h
  obtain ⟨hperm, hsh⟩ := hk
  unfold World.SampleKept
  rw [hm, hsample, hshared]
  by_cases hr : ∃ snaps err, msg = .RefreshResultMsg snaps err
  · obtain ⟨snaps, err, rfl⟩ := hr
    cases err with
    | some e =>
      have hu2 : handleRefreshResult env w.sample w.m snaps (some e) = some (m1, cmd) := hu
      rw [handleRefreshResult_error] at hu2
      simp only [Option.some.injEq, Prod.mk.injEq] at hu2
      obtain ⟨rfl, _⟩ := hu2
      simp only [sharedAfter, Option.isSome_some, if_true]
      exact ⟨hperm, fun _ => trivial⟩
    | none =>
      simp only [sharedAfter, Option.isSome_none, Bool.false_eq_true, if_false]
      exact ⟨hperm, fun hf => by cases hf⟩
  · have hne : ∀ snaps err, msg ≠ .RefreshResultMsg snaps err := by
      intro snaps err he
      exact hr ⟨snaps, err, he⟩
    have hp := Update_snaps env w.sample w.m m1 msg cmd hne hu
    have hsa : sharedAfter msg w.shared = w.shared := by
      cases msg <;> first | rfl | exact absurd rfl (hne _ _)
    rw [hsa]
    by_cases hs : w.shared = true
    · rw [if_pos hs]
      refine ⟨?_, fun _ => rfl⟩
      rw [← hsh hs] at hperm
      exact hp.trans hperm
    · rw [if_neg hs]
      exact ⟨hperm, fun hf => absurd hf hs⟩

theorem World.run_sampleKept (w w1 : World) (events : List (Env × Msg)) (hk : w.SampleKept)
    (h : World.run w events = some w1) : w1.SampleKept := by
  induction events generalizing w with
  | nil =>
    simp only [World.run, Option.some.injEq] at h
    subst h
    exact hk
  | cons e rest ih =>
    obtain ⟨env, msg⟩ := e
    simp only [World.run] at h
    split at h
    · cases h
    · rename_i w2 hs
      exact ih w2 (World.step_sampleKept env w w2 msg hk hs) h

theorem World.init_sampleKept : World.init.SampleKept :=
  ⟨List.Perm.refl _, fun _ => rfl⟩

theorem handleRefreshResult_success_fields (env : Env) (sample : List Snapshot) (m : UIState)
    (snapshots : List Snapshot) (hc : 0 ≤ m.Cursor) :
    ∃ m1, handleRefreshResult env sample m snapshots none = some (m1, []) ∧
      m1.Loading = false ∧ m1.Placeholder = false ∧
      m1.Snapshots = stableSort (sortLess m.SortKey m.SortReverse) snapshots ∧
      m1.SortKey = m.SortKey ∧ m1.SortReverse = m.SortReverse := by
  obtain ⟨message, h⟩ := handleRefreshResult_success env sample m snapshots hc
  exact ⟨_, h, rfl, rfl, rfl, rfl, rfl⟩

/-! ## The claim C17 -/

/-- Claim C17: a refresh-completed event always clears `Loading`.  With an error
it sets `Placeholder` and the snapshot sequence becomes the sample sequence, the
content of the package variable `sampleSnapshots`; in every state reached from
the initial one that variable holds the built-in sample snapshots 0, 17, 18, in
the order of the last sort made while the placeholder was shown (after the key
`1`: 18, 17, 0).  With a received sequence (cursor not negative) it clears
`Placeholder` and the sequence becomes the received one stably sorted by the
state's current sort key and direction, which are kept. -/
theorem refresh_result_sequence :
    (∀ (env : Env) (sample : List Snapshot) (m : UIState) (snapshots : List Snapshot)
        (e : String),
      ∃ m1, handleRefreshResult env sample m snapshots (some e) = some (m1, []) ∧
        m1.Loading = false ∧ m1.Placeholder = true ∧ m1.Snapshots = sample) ∧
    (∀ (env : Env) (sample : List Snapshot) (m : UIState) (snapshots : List Snapshot),
      0 ≤ m.Cursor →
      ∃ m1, handleRefreshResult env sample m snapshots none = some (m1, []) ∧
        m1.Loading = false ∧ m1.Placeholder = false ∧
        m1.Snapshots = stableSort (sortLess m.SortKey m.SortReverse) snapshots ∧
        m1.SortKey = m.SortKey ∧ m1.SortReverse = m.SortReverse) ∧
    (∀ (events : List (Env × Msg)) (w : World) (env : Env) (snapshots : List Snapshot)
        (e : String),
      World.run World.init events = some w →
      ∃ w1, World.step env w (.RefreshResultMsg snapshots (some e)) = some w1 ∧
        w1.m.Loading = false ∧ w1.m.Placeholder = true ∧ w1.m.Snapshots = w.sample ∧
        w1.m.Snapshots.Perm sampleSnapshots) ∧
    ∃ w, World.run World.init
        [ (plainEnv, .KeyMsg "1"),
          (plainEnv, .RefreshResultMsg [] (some "exit status 1")) ] = some w ∧
      w.m.Loading = false ∧ w.m.Placeholder = true ∧
      w.m.SortKey = "number" ∧ w.m.SortReverse = true ∧
      w.m.Snapshots = [sample18, sample17, sample0] := by
  refine ⟨fun env sample m snapshots e =>
      ⟨_, handleRefreshResult_error env sample m snapshots e, rfl, rfl, rfl⟩,
    fun env sample m snapshots hc => handleRefreshResult_success_fields env sample m snapshots hc,
    ?_, ⟨_, rfl, by decide, by decide, by decide, by decide, by decide⟩⟩
  intro events w env snapshots e hrun
  have hk := World.run_sampleKept World.init w events World.init_sampleKept hrun
  exact ⟨_, rfl, rfl, rfl, rfl, hk.1⟩

theorem refresh_result_sequence_witness :
    (∃ m1, handleRefreshResult plainEnv sampleSnapshots initialModel [sample18, sample0] none =
        some (m1, []) ∧
      m1.Loading = false ∧ m1.Placeholder = false ∧
      m1.Snapshots = stableSort (sortLess "number" false) [sample18, sample0] ∧
      m1.SortKey = "number" ∧ m1.SortReverse = false) ∧
    ∃ w1, World.step plainEnv World.init (.RefreshResultMsg [] (some "exit status 1")) =
        some w1 ∧
      w1.m.Loading = false ∧ w1.m.Placeholder = true ∧ w1.m.Snapshots = sampleSnapshots ∧
      w1.m.Snapshots.Perm sampleSnapshots :=
  ⟨refresh_result_sequence.2.1 plainEnv sampleSnapshots initialModel [sample18, sample0]
      (by decide),
   refresh_result_sequence.2.2.1 [] World.init plainEnv [] "exit status 1" rfl⟩

end SnapperTUI
